import Mathlib

/-!
# SER-Frontend: metrics derivation of the admin views

A shallow embedding of the client-side aggregation code of
`frontend/src/pages/admin/AdminDashboard.jsx` and
`frontend/src/pages/admin/AdminPerformance.jsx`.

Conventions of the embedding:

* JavaScript numbers are exact: a finite number is a rational, and `NaN`,
  `Infinity`, `-Infinity` are separate values.  IEEE-754 rounding and overflow
  are outside the model.
* A field that is absent, `null` or `undefined` is one value (`JsVal.undef`,
  or `none` for the string-typed fields); the code never tells them apart.
* Array lengths are natural numbers, arrays are lists.
* The clock is an input: the local year and month `new Date()` reports, and the
  local zone as the offset from UTC in force at each local time.
* `Date.parse` of a deal's date string and `Number::toString` are inputs of the
  functions that use them (`dateParse`, `numberToString`): the first is
  implementation-defined outside the ISO format, the second is the shortest
  round-trip numeral of a double, which exact numbers do not determine.
-/

namespace SER

/-! ## JavaScript values -/

/-- JavaScript Number values with exact finite part. -/
inductive JsNum where
  | nan : JsNum
  | fin (q : ℚ) : JsNum
  | inf (negative : Bool) : JsNum
  deriving DecidableEq

namespace JsNum

/-- Number addition `a + b`. -/
def add : JsNum → JsNum → JsNum
  | nan, _ => nan
  | _, nan => nan
  | fin a, fin b => fin (a + b)
  | fin _, inf s => inf s
  | inf s, fin _ => inf s
  | inf s, inf t => if s = t then inf s else nan

instance : Zero JsNum := ⟨fin 0⟩

instance : Add JsNum := ⟨add⟩

instance : AddCommMonoid JsNum where
  add_assoc := by
    intro a b c
    show add (add a b) c = add a (add b c)
    rcases a with _ | a | a <;> rcases b with _ | b | b <;> rcases c with _ | c | c <;>
      simp [add, add_assoc] <;> (try split_ifs) <;> simp_all [add]
  zero_add := by
    intro a
    show add (fin 0) a = a
    cases a <;> simp [add]
  add_zero := by
    intro a
    show add a (fin 0) = a
    cases a <;> simp [add]
  add_comm := by
    intro a b
    show add a b = add b a
    rcases a with _ | a | a <;> rcases b with _ | b | b <;>
      simp [add, add_comm] <;> (try split_ifs) <;> simp_all
  nsmul := nsmulRec

/-- Number division `a / b` (the model has no negative zero: `x / 0` for
`x > 0` is `Infinity`). -/
def div : JsNum → JsNum → JsNum
  | nan, _ => nan
  | _, nan => nan
  | fin a, fin b =>
      if b = 0 then (if a = 0 then nan else inf (decide (a < 0))) else fin (a / b)
  | fin _, inf _ => fin 0
  | inf s, fin b => inf (xor s (decide (b < 0)))
  | inf _, inf _ => nan

/-- The number of a length or counter. -/
def ofNat (n : ℕ) : JsNum := fin (n : ℚ)

/-- Truthiness of a number: `NaN` and `0` are falsy. -/
def truthy : JsNum → Bool
  | nan => false
  | fin q => decide (q ≠ 0)
  | inf _ => true

/-- The expression `x || 0` on a number. -/
def orZero (x : JsNum) : JsNum := if x.truthy then x else fin 0

/-- The comparison `0 <= x`, false on `NaN`. -/
def nonneg : JsNum → Prop
  | nan => False
  | fin q => 0 ≤ q
  | inf s => s = false

instance (x : JsNum) : Decidable x.nonneg := by
  cases x <;> simp only [nonneg] <;> infer_instance

/-- The comparison `a <= b`, false when either side is `NaN`. -/
def le : JsNum → JsNum → Prop
  | nan, _ => False
  | _, nan => False
  | fin a, fin b => a ≤ b
  | fin _, inf s => s = false
  | inf s, fin _ => s = true
  | inf s, inf t => s = true ∨ t = false

end JsNum

/-- JSON field values as the views read them; `undef` stands for an absent,
`null` or `undefined` field.  Fields holding an object or an array are not
modelled. -/
inductive JsVal where
  | undef : JsVal
  | bool (b : Bool) : JsVal
  | num (q : ℚ) : JsVal
  | str (s : String) : JsVal
  deriving DecidableEq

namespace JsVal

/-- Truthiness (`ToBoolean`). -/
def truthy : JsVal → Bool
  | undef => false
  | bool b => b
  | num q => decide (q ≠ 0)
  | str s => decide (s ≠ "")

/-- The expression `v || 0`. -/
def orZero (v : JsVal) : JsVal := if v.truthy then v else num 0

end JsVal

/-! ## Data model -/

/-- The owning user reference nested in a deal. -/
structure User where
  id : JsVal := JsVal.undef
  name : Option String := none
  deriving DecidableEq

/-- A deal record as delivered by `GET /deals`.  The status, the client name
and the two date fields are strings when present (the views call string methods
on them); the amount, the incentive and the paid flag are any `JsVal`.  The flag
`createdAtNull` tells a `createdAt` that is `null` from one that is absent, when
`createdAt` is `none`: the two differ only as the argument of `new Date`, in
the `oldPendingDeals` of AdminDashboard. -/
structure Deal where
  id : JsVal := JsVal.undef
  clientName : Option String := none
  amount : JsVal := JsVal.undef
  incentive : JsVal := JsVal.undef
  status : Option String := none
  date : Option String := none
  createdAt : Option String := none
  user : Option User := none
  userId : JsVal := JsVal.undef
  rejectionReason : Option String := none
  paid : JsVal := JsVal.undef
  createdAtNull : Bool := false
  deriving DecidableEq

/-- `String.prototype.toLowerCase`, on the ASCII letters.  The status tests
compare the result with the words `submitted`, `pending`, `in_progress`,
`approved` and `rejected`.  The only characters outside ASCII whose lower-case
form contains an ASCII letter are U+212A (to `k`, a letter of none of these
words) and U+0130 (to `i` followed by U+0307, which is in none of them), so
these tests agree with the Unicode mapping. -/
def toLowerCase (s : String) : String := String.mk (s.toList.map Char.toLower)

/-- The expression `(d.status || "").toLowerCase()`. -/
def statusLower (d : Deal) : String := toLowerCase (d.status.getD "")

/-- The test `(d.status || "").toLowerCase() === w`. -/
def hasStatus (w : String) (d : Deal) : Bool := statusLower d == w

/-! ## Number parsing and printing -/

/-- The characters `parseFloat` and `Number` skip as white space
(`StrWhiteSpaceChar`). -/
def isStrWhiteSpace (c : Char) : Bool :=
  let n := c.toNat
  n = 0x09 || n = 0x0A || n = 0x0B || n = 0x0C || n = 0x0D || n = 0x20 || n = 0xA0 ||
    n = 0x1680 || (0x2000 ≤ n && n ≤ 0x200A) || n = 0x2028 || n = 0x2029 || n = 0x202F ||
    n = 0x205F || n = 0x3000 || n = 0xFEFF

/-- The value of a run of decimal digits. -/
def digitsValue (ds : List Char) : ℕ :=
  ds.foldl (fun acc c => 10 * acc + (c.toNat - 48)) 0

/-- The exponent of an `ExponentPart` at the head of the input (`e`, an
optional sign, at least one digit) and the input after it; exponent 0 and the
input unchanged when there is none. -/
def parseExponent (cs : List Char) : ℤ × List Char :=
  match cs with
  | c :: r =>
    if c = 'e' ∨ c = 'E' then
      let (negative, r1) :=
        match r with
        | '-' :: t => (true, t)
        | '+' :: t => (false, t)
        | _ => (false, r)
      let (ds, r2) := r1.span Char.isDigit
      if ds = [] then (0, cs)
      else ((if negative then -(digitsValue ds : ℤ) else (digitsValue ds : ℤ)), r2)
    else (0, cs)
  | [] => (0, cs)

/-- The longest `StrUnsignedDecimalLiteral` (digits, fraction, exponent) at the
head of the input: its value and the input after it, or `none` when the input
does not start with one. -/
def parseDecimal (cs : List Char) : Option (ℚ × List Char) :=
  let (ip, r1) := cs.span Char.isDigit
  let (fp, r2) :=
    match r1 with
    | '.' :: r => r.span Char.isDigit
    | _ => ([], r1)
  if ip = [] ∧ fp = [] then none
  else
    let mantissa : ℚ := (digitsValue ip : ℚ) + (digitsValue fp : ℚ) / (10 : ℚ) ^ fp.length
    let (e, r3) := parseExponent r2
    some (mantissa * (10 : ℚ) ^ e, r3)

/-- The optional sign at the head of a numeric string. -/
def parseSign (cs : List Char) : Bool × List Char :=
  match cs with
  | '-' :: r => (true, r)
  | '+' :: r => (false, r)
  | _ => (false, cs)

/-- The function `parseFloat` on a string: leading white space is skipped, the
longest numeric head is read, the rest is ignored. -/
def parseFloatString (s : String) : JsNum :=
  let (negative, cs) := parseSign (s.toList.dropWhile isStrWhiteSpace)
  if "Infinity".toList.isPrefixOf cs then JsNum.inf negative
  else
    match parseDecimal cs with
    | some (q, _) => JsNum.fin (if negative then -q else q)
    | none => JsNum.nan

/-- The function `parseFloat` on a field value: the argument is first turned
into a string; a number prints as a numeral that reads back as itself, and
`undefined`, `null`, `true`, `false` print as words that are no numeral. -/
def parseFloat : JsVal → JsNum
  | JsVal.undef => JsNum.nan
  | JsVal.bool _ => JsNum.nan
  | JsVal.num q => JsNum.fin q
  | JsVal.str s => parseFloatString s

/-- The value of a digit in a radix up to 16, `none` for any other character. -/
def radixDigit (radix : ℕ) (c : Char) : Option ℕ :=
  let v : Option ℕ :=
    if c.isDigit then some (c.toNat - 48)
    else if 'a'.toNat ≤ c.toNat ∧ c.toNat ≤ 'f'.toNat then some (c.toNat - 87)
    else if 'A'.toNat ≤ c.toNat ∧ c.toNat ≤ 'F'.toNat then some (c.toNat - 55)
    else none
  v.bind fun n => if n < radix then some n else none

/-- A non-empty run of digits of the given radix, read as an integer. -/
def parseRadix (radix : ℕ) (cs : List Char) : JsNum :=
  if cs = [] then JsNum.nan
  else
    match cs.foldl (fun acc c => acc.bind fun a => (radixDigit radix c).map fun d => radix * a + d)
        (some 0) with
    | some n => JsNum.fin (n : ℚ)
    | none => JsNum.nan

/-- The conversion `StringToNumber`: the whole string, white space trimmed at
both ends, must be a numeral; the empty string is 0. -/
def stringToNumber (s : String) : JsNum :=
  let cs := ((s.toList.dropWhile isStrWhiteSpace).reverse.dropWhile isStrWhiteSpace).reverse
  match cs with
  | [] => JsNum.fin 0
  | '0' :: 'x' :: r => parseRadix 16 r
  | '0' :: 'X' :: r => parseRadix 16 r
  | '0' :: 'o' :: r => parseRadix 8 r
  | '0' :: 'O' :: r => parseRadix 8 r
  | '0' :: 'b' :: r => parseRadix 2 r
  | '0' :: 'B' :: r => parseRadix 2 r
  | _ =>
    let (negative, body) := parseSign cs
    if body = "Infinity".toList then JsNum.inf negative
    else
      match parseDecimal body with
      | some (q, []) => JsNum.fin (if negative then -q else q)
      | _ => JsNum.nan

/-- The decimal digit character of `n % 10`. -/
def digitChar (n : ℕ) : Char := Char.ofNat (48 + n % 10)

/-- The last `width` decimal digits of `n`, most significant first. -/
def padDigits : ℕ → ℕ → List Char
  | 0, _ => []
  | width + 1, n => padDigits width (n / 10) ++ [digitChar n]

/-- The integer `n` of `Number.prototype.toFixed(1)` for a number of absolute
value `a`: the integer for which `n / 10 - a` is closest to zero, the larger
one on a tie. -/
def toFixed1Tenths (a : ℚ) : ℕ := (⌊10 * a + 1 / 2⌋).toNat

/-- The digits `d...d.d` of `n / 10`. -/
def fixed1Digits (n : ℕ) : String :=
  String.mk ((Nat.toDigits 10 (n / 10)) ++ ['.', digitChar n])

/-- The method `x.toFixed(1)` on a finite number below `10^21`. -/
def toFixed1 (x : ℚ) : String :=
  if x < 0 then "-" ++ fixed1Digits (toFixed1Tenths (-x)) else fixed1Digits (toFixed1Tenths x)

/-- Values the accumulator of a `reduce((acc, d) => acc + (d.f || 0), 0)` call
can hold: a number, or a string once a string field has been appended. -/
inductive Acc where
  | num (q : ℚ) : Acc
  | str (s : String) : Acc
  deriving DecidableEq

namespace Acc

/-- The operation `acc + n` for a number `n`; `numberToString` is
`Number::toString`. -/
def plusNum (numberToString : ℚ → String) : Acc → ℚ → Acc
  | num a, n => num (a + n)
  | str s, n => str (s ++ numberToString n)

/-- The operation `acc + t` for a string `t`. -/
def plusStr (numberToString : ℚ → String) : Acc → String → Acc
  | num a, t => str (numberToString a ++ t)
  | str s, t => str (s ++ t)

/-- The operation `acc + (v || 0)` on a field value `v`: a falsy field counts
as the number 0, `true` as the number 1 (appended as the word `true` to a
string), a non-empty string is concatenated. -/
def plusOrZero (numberToString : ℚ → String) (acc : Acc) (v : JsVal) : Acc :=
  match v with
  | JsVal.undef => acc.plusNum numberToString 0
  | JsVal.bool false => acc.plusNum numberToString 0
  | JsVal.bool true =>
    match acc with
    | num a => num (a + 1)
    | str s => str (s ++ "true")
  | JsVal.num q => acc.plusNum numberToString q
  | JsVal.str s => if s = "" then acc.plusNum numberToString 0 else acc.plusStr numberToString s

/-- The conversion `ToNumber` of an accumulator, applied by `/`. -/
def toNumber : Acc → JsNum
  | num a => JsNum.fin a
  | str s => stringToNumber s

end Acc

/-! ## Calendar arithmetic of `Date` -/

/-- Milliseconds per day. -/
def msPerDay : ℤ := 86400000

/-- The day number `Day(t)` of a time value. -/
def day (t : ℤ) : ℤ := t / msPerDay

/-- The number of days `DaysInYear(y)`. -/
def daysInYear (y : ℤ) : ℤ :=
  if y % 4 ≠ 0 then 365
  else if y % 100 ≠ 0 then 366
  else if y % 400 ≠ 0 then 365
  else 366

/-- The day number `DayFromYear(y)` of 1 January of year `y`. -/
def dayFromYear (y : ℤ) : ℤ :=
  365 * (y - 1970) + (y - 1969) / 4 - (y - 1901) / 100 + (y - 1601) / 400

/-- The year of a day number: the largest `y` with `dayFromYear y ≤ d`, found
from the estimate `1970 + 400 d / 146097`, which is off by at most one. -/
def yearFromDay (d : ℤ) : ℤ :=
  let y0 := 1970 + (400 * d) / 146097
  if dayFromYear (y0 + 1) ≤ d then y0 + 1
  else if dayFromYear y0 ≤ d then y0
  else y0 - 1

/-- The flag `InLeapYear` of a year, 1 in a leap year and 0 otherwise. -/
def inLeapYear (y : ℤ) : ℤ := if daysInYear y = 366 then 1 else 0

/-- The number of days of a year before its month `m` (0 = January). -/
def monthStart (m : ℤ) (leap : ℤ) : ℤ :=
  if m = 0 then 0
  else if m = 1 then 31
  else if m = 2 then 59 + leap
  else if m = 3 then 90 + leap
  else if m = 4 then 120 + leap
  else if m = 5 then 151 + leap
  else if m = 6 then 181 + leap
  else if m = 7 then 212 + leap
  else if m = 8 then 243 + leap
  else if m = 9 then 273 + leap
  else if m = 10 then 304 + leap
  else 334 + leap

/-- The month (0 = January) of the day `dayWithinYear` of a year with leap flag
`leap`: the table of `MonthFromTime`. -/
def monthFromDayWithinYear (dayWithinYear leap : ℤ) : ℤ :=
  if dayWithinYear < 31 then 0
  else if dayWithinYear < 59 + leap then 1
  else if dayWithinYear < 90 + leap then 2
  else if dayWithinYear < 120 + leap then 3
  else if dayWithinYear < 151 + leap then 4
  else if dayWithinYear < 181 + leap then 5
  else if dayWithinYear < 212 + leap then 6
  else if dayWithinYear < 243 + leap then 7
  else if dayWithinYear < 273 + leap then 8
  else if dayWithinYear < 304 + leap then 9
  else if dayWithinYear < 334 + leap then 10
  else 11

/-- The month `MonthFromTime` (0 = January) of a day number. -/
def monthFromDay (d : ℤ) : ℤ :=
  monthFromDayWithinYear (d - dayFromYear (yearFromDay d)) (inLeapYear (yearFromDay d))

/-- The day number `MakeDay(year, month, date)`; a month outside 0..11 carries
into the year. -/
def makeDay (year month date : ℤ) : ℤ :=
  let ym := year + month / 12
  let mn := month % 12
  dayFromYear ym + monthStart mn (inLeapYear ym) + date - 1

/-- The year the `Date(year, month, day)` constructor takes for its first
argument: 0..99 mean 1900..1999. -/
def makeFullYear (y : ℤ) : ℤ := if 0 ≤ y ∧ y ≤ 99 then 1900 + y else y

/-- The time value of `new Date(year, month, date)`: midnight local time of that
day, turned into UTC with the offset the zone has then.  `tzOffset t` is the
number of minutes the zone is ahead of UTC at the local time value `t`.  Time
values are taken within the range of valid dates. -/
def newDateLocal (tzOffset : ℤ → ℤ) (year month date : ℤ) : ℤ :=
  let t := makeDay (makeFullYear year) month date * msPerDay
  t - tzOffset t * 60000

/-- The expression `d.toISOString().slice(0, 7)` for a valid time value: the UTC
year and month as `YYYY-MM`, or the sign and six digits of a year outside
0..9999. -/
def isoYearMonth (t : ℤ) : String :=
  let y := yearFromDay (day t)
  let m := monthFromDay (day t)
  if 0 ≤ y ∧ y ≤ 9999 then
    String.mk (padDigits 4 y.toNat ++ '-' :: padDigits 2 (m + 1).toNat)
  else
    String.mk ((if y < 0 then '-' else '+') :: padDigits 6 y.natAbs)

/-- What `getLast6MonthsLabels` reads from the clock: the local calendar year
and month (0 = January) of `new Date()`, and the local zone, given by the
minutes it is ahead of UTC at each local time value. -/
structure Clock where
  fullYear : ℤ
  month : Fin 12
  tzOffset : ℤ → ℤ

/-! ## AdminDashboard -/

namespace AdminDashboard

/-- The list `pendingDeals`. -/
def pendingDeals (deals : List Deal) : List Deal :=
  deals.filter fun d => hasStatus "submitted" d || hasStatus "pending" d

/-- The list `inProgressDeals`. -/
def inProgressDeals (deals : List Deal) : List Deal :=
  deals.filter fun d => hasStatus "in_progress" d

/-- The list `approvedDeals`. -/
def approvedDeals (deals : List Deal) : List Deal :=
  deals.filter fun d => hasStatus "approved" d

/-- The list `rejectedDeals`. -/
def rejectedDeals (deals : List Deal) : List Deal :=
  deals.filter fun d => hasStatus "rejected" d

/-- The value `totalDisbursed`. -/
def totalDisbursed (numberToString : ℚ → String) (deals : List Deal) : Acc :=
  (approvedDeals deals).foldl (fun acc d => acc.plusOrZero numberToString d.incentive) (Acc.num 0)

/-- The value `approvalRate`: the string of `toFixed(1)`, or the number 0 for
an empty collection. -/
def approvalRate (deals : List Deal) : JsVal :=
  if deals.length > 0 then
    JsVal.str (toFixed1 (((approvedDeals deals).length : ℚ) / (deals.length : ℚ) * 100))
  else JsVal.num 0

/-- The value `avgDealSize`. -/
def avgDealSize (numberToString : ℚ → String) (deals : List Deal) : JsNum :=
  if deals.length > 0 then
    JsNum.div
      (deals.foldl (fun sum d => sum.plusOrZero numberToString d.amount) (Acc.num 0)).toNumber
      (JsNum.ofNat deals.length)
  else JsNum.fin 0

end AdminDashboard

/-! ## AdminPerformance -/

namespace AdminPerformance

/-- The helper `getLast6MonthsLabels`. -/
def getLast6MonthsLabels (today : Clock) : List String :=
  [5, 4, 3, 2, 1, 0].map fun (i : ℤ) =>
    isoYearMonth (newDateLocal today.tzOffset today.fullYear ((today.month : ℕ) - i) 1)

/-- The list `approved` of `fetchData`. -/
def approved (sortedDeals : List Deal) : List Deal :=
  sortedDeals.filter fun d => hasStatus "approved" d

/-- The expression `parseFloat(v) || 0`. -/
def parseFloatOrZero (v : JsVal) : JsNum := (parseFloat v).orZero

/-- The value `totalRev`. -/
def totalRev (sortedDeals : List Deal) : JsNum :=
  (approved sortedDeals).foldl (fun acc d => acc + parseFloatOrZero d.amount) 0

/-- The value `totalInc`. -/
def totalInc (sortedDeals : List Deal) : JsNum :=
  (approved sortedDeals).foldl (fun acc d => acc + parseFloatOrZero d.incentive) 0

/-- The value `avgDeal`. -/
def avgDeal (sortedDeals : List Deal) : JsNum :=
  if (approved sortedDeals).length ≠ 0 then
    JsNum.div (totalRev sortedDeals) (JsNum.ofNat (approved sortedDeals).length)
  else 0

/-- The object `trendMap`: its own properties in insertion order. -/
abbrev TrendMap := List (String × JsNum)

/-- The test `trendMap.hasOwnProperty(k)`. -/
def hasOwnProperty (m : TrendMap) (k : String) : Bool := m.any fun p => p.1 == k

/-- The read `trendMap[k]`, `none` for `undefined`. -/
def getProp (m : TrendMap) (k : String) : Option JsNum :=
  match m with
  | [] => none
  | p :: rest => if p.1 = k then some p.2 else getProp rest k

/-- The write `trendMap[k] = v`. -/
def setProp (m : TrendMap) (k : String) (v : JsNum) : TrendMap :=
  match m with
  | [] => [(k, v)]
  | p :: rest => if p.1 = k then (k, v) :: rest else p :: setProp rest k v

/-- The expression `deal.date || deal.createdAt`, `none` when it is falsy. -/
def rawDate (deal : Deal) : Option String :=
  match deal.date with
  | some s => if s ≠ "" then some s else deal.createdAt.filter fun c => c ≠ ""
  | none => deal.createdAt.filter fun c => c ≠ ""

/-- The key `yyyyMM` of a deal: `new Date(rawDate).toISOString().slice(0, 7)`
when `rawDate` is truthy and the date is valid.  `dateParse` is the parsing of
`new Date(string)`: the time value, or `none` for an Invalid Date. -/
def yyyyMM (dateParse : String → Option ℤ) (deal : Deal) : Option String :=
  (rawDate deal).bind fun raw => (dateParse raw).map isoYearMonth

/-- The body of `approved.forEach(deal => ...)`: one deal added to `trendMap`. -/
def addDeal (dateParse : String → Option ℤ) (trendMap : TrendMap) (deal : Deal) : TrendMap :=
  match yyyyMM dateParse deal with
  | some k =>
    if hasOwnProperty trendMap k then
      setProp trendMap k (((getProp trendMap k).getD JsNum.nan) + parseFloatOrZero deal.incentive)
    else trendMap
  | none => trendMap

/-- The object `trendMap` after the two `forEach` loops. -/
def trendMap (dateParse : String → Option ℤ) (monthLabels : List String)
    (sortedDeals : List Deal) : TrendMap :=
  (approved sortedDeals).foldl (addDeal dateParse)
    (monthLabels.foldl (fun m label => setProp m label 0) [])

/-- An entry of `monthlyTrend`; `incentiveSum` is `none` when it is `undefined`. -/
structure TrendEntry where
  month : String
  incentiveSum : Option JsNum
  deriving DecidableEq

/-- The list `chartData`. -/
def chartData (dateParse : String → Option ℤ) (monthLabels : List String)
    (sortedDeals : List Deal) : List TrendEntry :=
  monthLabels.map fun m =>
    { month := m, incentiveSum := getProp (trendMap dateParse monthLabels sortedDeals) m }

/-- The object passed to `setData`. -/
structure Data where
  totalDeals : ℕ
  approvedDeals : ℕ
  totalIncentiveEarned : JsNum
  approvalRate : ℚ
  averageDealValue : JsNum
  monthlyTrend : List TrendEntry

/-- The metrics `fetchData` stores for the sorted deal list. -/
def data (dateParse : String → Option ℤ) (today : Clock) (sortedDeals : List Deal) : Data :=
  { totalDeals := sortedDeals.length
    approvedDeals := (approved sortedDeals).length
    totalIncentiveEarned := totalInc sortedDeals
    approvalRate :=
      if sortedDeals.length ≠ 0 then
        ((approved sortedDeals).length : ℚ) / (sortedDeals.length : ℚ) * 100
      else 0
    averageDealValue := avgDeal sortedDeals
    monthlyTrend := chartData dateParse (getLast6MonthsLabels today) sortedDeals }

/-- The three numbers of `doughnutData.datasets[0].data` (approved, pending,
rejected) for the stored metrics `d` and the stored deal list. -/
def doughnutData (d : Data) (deals : List Deal) : List ℤ :=
  [ (d.approvedDeals : ℤ),
    (d.totalDeals : ℤ) - (d.approvedDeals : ℤ) -
      (((deals.filter fun x => hasStatus "rejected" x).length : ℕ) : ℤ),
    (((deals.filter fun x => hasStatus "rejected" x).length : ℕ) : ℤ) ]

end AdminPerformance

/-! ## Sorting and comparison -/

namespace JsNum

/-- Number negation `-a`. -/
def neg : JsNum → JsNum
  | nan => nan
  | fin q => fin (-q)
  | inf s => inf (!s)

/-- Number subtraction `a - b`. -/
def sub (a b : JsNum) : JsNum := add a (neg b)

/-- The comparison `x > 0`, false on `NaN`. -/
def pos : JsNum → Bool
  | nan => false
  | fin q => decide (0 < q)
  | inf s => !s

instance (a b : JsNum) : Decidable (le a b) := by
  cases a <;> cases b <;> simp only [le] <;> infer_instance

end JsNum

/-- The method `Array.prototype.sort(cmp)`: a stable sort, in which an element
moves in front of an earlier one only when `cmp(earlier, later) > 0`; a zero or
`NaN` result leaves the two in place.  For a consistent comparator this is the
order every engine produces; for an inconsistent one (a `NaN` difference
between some elements only) the order is implementation-defined, and this is
the order insertion gives. -/
def jsSort {α : Type} (cmp : α → α → JsNum) (l : List α) : List α :=
  l.insertionSort fun a b => (cmp a b).pos = false

/-- The method `s.includes(t)` on the characters of two strings. -/
def includesChars : List Char → List Char → Bool
  | [], t => t.isEmpty
  | c :: r, t => t.isPrefixOf (c :: r) || includesChars r t

/-- The method `String.prototype.includes`. -/
def includes (s t : String) : Bool := includesChars s.toList t.toList

/-- The loose equality `v == s` of a field value and a string: a string is
compared as it is, a number or a boolean with the number the string converts
to, and `null` or `undefined` equal no string. -/
def looseEqString (v : JsVal) (s : String) : Bool :=
  match v with
  | JsVal.undef => false
  | JsVal.bool b => decide (stringToNumber s = JsNum.fin (if b then 1 else 0))
  | JsVal.num q => decide (stringToNumber s = JsNum.fin q)
  | JsVal.str t => t == s

/-- The outcome of a request: it fails (the promise rejects), or it succeeds
with the body `data`, `none` for an empty or `null` body. -/
inductive Reply (α : Type) where
  | failed : Reply α
  | ok (data : Option α) : Reply α

namespace AdminPerformance

/-- The object `getTier` returns. -/
structure Tier where
  name : String
  color : String
  bg : String
  text : String
  border : String
  deriving DecidableEq

/-- The function `getTier`. -/
def getTier (rev : JsNum) : Tier :=
  if JsNum.le (JsNum.fin 5000000) rev then
    { name := "Diamond", color := "from-cyan-400 to-blue-500", bg := "bg-cyan-50",
      text := "text-cyan-600", border := "border-cyan-200" }
  else if JsNum.le (JsNum.fin 2500000) rev then
    { name := "Platinum", color := "from-slate-300 to-slate-500", bg := "bg-slate-50",
      text := "text-slate-600", border := "border-slate-200" }
  else if JsNum.le (JsNum.fin 1000000) rev then
    { name := "Gold", color := "from-yellow-400 to-amber-500", bg := "bg-amber-50",
      text := "text-amber-600", border := "border-amber-200" }
  else
    { name := "Silver", color := "from-slate-200 to-slate-400", bg := "bg-slate-50",
      text := "text-slate-500", border := "border-slate-200" }

/-- The value `totalRevenue` of the component body. -/
def totalRevenue (deals : List Deal) : JsNum :=
  (deals.filter fun d => hasStatus "approved" d).foldl
    (fun acc d => acc + parseFloatOrZero d.amount) 0

/-- The value `tier`. -/
def tier (deals : List Deal) : Tier := getTier (totalRevenue deals)

/-- The expression `deal.amount?.toString() || ""`. -/
def amountString (numberToString : ℚ → String) : JsVal → String
  | JsVal.undef => ""
  | JsVal.bool b => if b then "true" else "false"
  | JsVal.num q => numberToString q
  | JsVal.str s => s

/-- The constant `dealDate` of the filter: `deal.date || deal.createdAt || "N/A"`. -/
def dealDate (deal : Deal) : String := (rawDate deal).getD "N/A"

/-- The list `filteredDeals`.  `lowerCase` is `String.prototype.toLowerCase`. -/
def filteredDeals (lowerCase : String → String) (numberToString : ℚ → String)
    (deals : List Deal) (searchTerm : String) : List Deal :=
  deals.filter fun deal =>
    let searchLower := lowerCase searchTerm
    includes (lowerCase (deal.clientName.getD "")) searchLower ||
      includes (lowerCase (deal.status.getD "")) searchLower ||
      includes (amountString numberToString deal.amount) searchLower ||
      includes (lowerCase (dealDate deal)) searchLower

/-- The text of the date cell of the table:
`deal.date || deal.createdAt ? new Date(...).toLocaleDateString() : "N/A"`.
`toLocaleDateString` formats the date a raw string parses to. -/
def dateCell (toLocaleDateString : String → String) (deal : Deal) : String :=
  match rawDate deal with
  | some raw => toLocaleDateString raw
  | none => "N/A"

/-- The time value of `new Date(a.date || a.createdAt || 0)`, `none` for an
Invalid Date. -/
def effectiveTime (dateParse : String → Option ℤ) (a : Deal) : Option ℤ :=
  match rawDate a with
  | some raw => dateParse raw
  | none => some 0

/-- The comparator of the sort: `dateB - dateA`. -/
def compareDates (dateParse : String → Option ℤ) (a b : Deal) : JsNum :=
  match effectiveTime dateParse b, effectiveTime dateParse a with
  | some tb, some ta => JsNum.fin ((tb : ℚ) - (ta : ℚ))
  | _, _ => JsNum.nan

/-- The list `sortedDeals`. -/
def sortedDeals (dateParse : String → Option ℤ) (allDeals : List Deal) : List Deal :=
  jsSort (compareDates dateParse) allDeals

/-- A user profile as delivered by `GET /api/users/:id`. -/
structure Profile where
  name : Option String := none
  email : Option String := none
  deriving DecidableEq

/-- The replies to the three requests `fetchData` can issue: the user profile,
the deals of the user, and all deals (asked for only when the second fails). -/
structure Network where
  user : Reply Profile
  scopedDeals : Reply (List Deal)
  unscopedDeals : Reply (List Deal)

/-- The state of the component that `fetchData` writes. -/
structure ViewState where
  data : Option Data := none
  deals : List Deal := []
  loading : Bool := true
  userProfile : Option Profile := none

/-- The value `userRes.data`: the profile, or the placeholder the `.catch` of
the request substitutes. -/
def userResData (net : Network) : Option Profile :=
  match net.user with
  | Reply.ok d => d
  | Reply.failed => some { name := some "Sales Executive", email := some "N/A" }

/-- The test of the fallback filter: `d.user?.id == userId || d.userId == userId`. -/
def matchesUser (userId : String) (d : Deal) : Bool :=
  looseEqString ((d.user.map fun u => u.id).getD JsVal.undef) userId ||
    looseEqString d.userId userId

/-- The variable `allDeals` after step 2, `none` when both deal requests fail
(the exception leaves the `try` block). -/
def allDeals (userId : String) (net : Network) : Option (List Deal) :=
  match net.scopedDeals with
  | Reply.ok d => some (d.getD [])
  | Reply.failed =>
    match net.unscopedDeals with
    | Reply.ok d => some ((d.getD []).filter (matchesUser userId))
    | Reply.failed => none

/-- The function `fetchData`: the state after the fetch sequence, for the route
parameter `userId` (a string) and the replies of the network. -/
def fetchData (dateParse : String → Option ℤ) (today : Clock) (userId : String)
    (net : Network) (s : ViewState) : ViewState :=
  match allDeals userId net with
  | some fetched =>
    { data := some (data dateParse today (sortedDeals dateParse fetched))
      deals := sortedDeals dateParse fetched
      loading := false
      userProfile := userResData net }
  | none =>
    { data := s.data
      deals := s.deals
      loading := false
      userProfile := userResData net }

end AdminPerformance

/-! ## Top performers of AdminDashboard -/

namespace AdminDashboard

/-- An entry of `userStats`. -/
structure UserStat where
  name : Option String
  incentive : Acc
  deals : ℕ
  deriving DecidableEq

/-- The object `userStats`: its own properties in order of creation. -/
abbrev UserStats := List (String × UserStat)

/-- The names every object inherits from `Object.prototype`: for such a key
`userStats[key]` is an inherited, truthy value and not an entry. -/
def objectPrototypeNames : List String :=
  ["constructor", "hasOwnProperty", "isPrototypeOf", "propertyIsEnumerable", "toLocaleString",
    "toString", "valueOf", "__proto__", "__defineGetter__", "__defineSetter__",
    "__lookupGetter__", "__lookupSetter__"]

/-- The property key of `d.user.id`: the id turned into a string (an absent id
gives `undefined`). -/
def propertyKey (numberToString : ℚ → String) : JsVal → String
  | JsVal.undef => "undefined"
  | JsVal.bool b => if b then "true" else "false"
  | JsVal.num q => numberToString q
  | JsVal.str s => s

/-- The read `userStats[k]` of an own property. -/
def getStat (m : UserStats) (k : String) : Option UserStat :=
  match m with
  | [] => none
  | p :: rest => if p.1 = k then some p.2 else getStat rest k

/-- The write of an own property: an existing one keeps its place, a new one
is created last. -/
def setStat (m : UserStats) (k : String) (v : UserStat) : UserStats :=
  match m with
  | [] => [(k, v)]
  | p :: rest => if p.1 = k then (k, v) :: rest else p :: setStat rest k v

/-- The body of `approvedDeals.forEach(d => ...)`: one deal added to
`userStats`. -/
def addUserDeal (numberToString : ℚ → String) (userStats : UserStats) (d : Deal) : UserStats :=
  match d.user with
  | none => userStats
  | some u =>
    let k := propertyKey numberToString u.id
    if k ∈ objectPrototypeNames then userStats
    else
      let cur := (getStat userStats k).getD { name := u.name, incentive := Acc.num 0, deals := 0 }
      setStat userStats k
        { name := cur.name
          incentive := cur.incentive.plusOrZero numberToString d.incentive
          deals := cur.deals + 1 }

/-- The object `userStats` after the loop. -/
def userStats (numberToString : ℚ → String) (deals : List Deal) : UserStats :=
  (approvedDeals deals).foldl (addUserDeal numberToString) []

/-- The array index a property key denotes: the key is the canonical decimal
numeral of an integer from 0 to `2^32 - 2`. -/
def arrayIndex (k : String) : Option ℕ :=
  let cs := k.toList
  if cs ≠ [] ∧ cs.all Char.isDigit = true ∧ (cs = ['0'] ∨ cs.head? ≠ some '0') ∧
      digitsValue cs < 2 ^ 32 - 1 then
    some (digitsValue cs)
  else none

/-- The own properties in the order `Object.values` visits them: array indices
in ascending numeric order, then the other keys in order of creation. -/
def ownEntries (m : UserStats) : UserStats :=
  (m.filter fun p => (arrayIndex p.1).isSome).insertionSort
      (fun a b => (arrayIndex a.1).getD 0 ≤ (arrayIndex b.1).getD 0) ++
    m.filter fun p => !(arrayIndex p.1).isSome

/-- The function `Object.values`. -/
def objectValues (m : UserStats) : List UserStat := (ownEntries m).map fun p => p.2

/-- The comparator `(a, b) => b.incentive - a.incentive`. -/
def compareIncentive (a b : UserStat) : JsNum :=
  JsNum.sub b.incentive.toNumber a.incentive.toNumber

/-- The list `topPerformers`. -/
def topPerformers (numberToString : ℚ → String) (deals : List Deal) : List UserStat :=
  (jsSort compareIncentive (objectValues (userStats numberToString deals))).take 3

end AdminDashboard

/-! ## Health checks and rendering of AdminDashboard -/

namespace JsNum

/-- The comparison `a < b`, false when either side is `NaN`. -/
def lt : JsNum → JsNum → Bool
  | nan, _ => false
  | _, nan => false
  | fin a, fin b => decide (a < b)
  | fin _, inf s => !s
  | inf s, fin _ => s
  | inf s, inf t => s && !t

end JsNum

/-- The argument of `new Date(d.date || d.createdAt)`. -/
inductive DateArg where
  | undefined : DateArg
  | null : DateArg
  | str (s : String) : DateArg
  deriving DecidableEq

/-- The time value of `new Date(v)`, `none` for an Invalid Date: `undefined`
gives an Invalid Date, `null` converts to the number 0, the epoch, and a string
is parsed. -/
def newDate (dateParse : String → Option ℤ) : DateArg → Option ℤ
  | DateArg.undefined => none
  | DateArg.null => some 0
  | DateArg.str s => dateParse s

namespace AdminDashboard

/-- The value of `d.createdAt`. -/
def createdAtArg (d : Deal) : DateArg :=
  match d.createdAt with
  | some c => DateArg.str c
  | none => if d.createdAtNull then DateArg.null else DateArg.undefined

/-- The expression `d.date || d.createdAt`: the date when it is truthy,
otherwise `createdAt` whatever it holds. -/
def dateOrCreatedAt (d : Deal) : DateArg :=
  match d.date with
  | some s => if s ≠ "" then DateArg.str s else createdAtArg d
  | none => createdAtArg d

/-- The set size `activeUsers`: the distinct truthy ids `d.user?.id`. -/
def activeUsers (deals : List Deal) : ℕ :=
  ((deals.map fun d => (d.user.map fun u => u.id).getD JsVal.undef).filter
    fun v => v.truthy).dedup.length

/-- The comparison `d.amount > 500000`: the amount is converted to a number, a
string by `StringToNumber`; a missing amount converts to `NaN` or to 0 and a
boolean to 0 or 1, none of which is above the threshold. -/
def amountAbove500000 (amount : JsVal) : Bool :=
  match amount with
  | JsVal.num q => decide (500000 < q)
  | JsVal.str s => JsNum.lt (JsNum.fin 500000) (stringToNumber s)
  | _ => false

/-- The list `highValueDeals`. -/
def highValueDeals (deals : List Deal) : List Deal :=
  deals.filter fun d => amountAbove500000 d.amount && decide (d.status ≠ some "Approved")

/-- The constant `inactiveUsers`. -/
def inactiveUsers : ℕ := 3

/-- The value `unprocessedPayouts`. -/
def unprocessedPayouts (deals : List Deal) : ℕ :=
  ((approvedDeals deals).filter fun d => !d.paid.truthy).length

/-- The value `daysDiff` for a deal whose date is valid with time value `t`, at
the instant `now` of `new Date()`. -/
def daysDiff (now t : ℤ) : ℚ := ((now - t : ℤ) : ℚ) / (1000 * 60 * 60 * 24)

/-- The list `oldPendingDeals`, the render taking place at the instant `now`;
for an Invalid Date `daysDiff` is `NaN` and the test fails. -/
def oldPendingDeals (dateParse : String → Option ℤ) (now : ℤ) (deals : List Deal) : List Deal :=
  (pendingDeals deals).filter fun d =>
    match newDate dateParse (dateOrCreatedAt d) with
    | some t => decide (3 < daysDiff now t)
    | none => false

/-- An entry of `statusData`. -/
structure StatusEntry where
  name : String
  value : ℕ
  color : String
  deriving DecidableEq

/-- The list `statusData`. -/
def statusData (deals : List Deal) : List StatusEntry :=
  ([ { name := "Approved", value := (approvedDeals deals).length, color := "#10B981" },
     { name := "Pending", value := (pendingDeals deals).length, color := "#F59E0B" },
     { name := "Rejected", value := (rejectedDeals deals).length, color := "#EF4444" },
     { name := "In Progress", value := (inProgressDeals deals).length, color := "#6366F1" } ] :
    List StatusEntry).filter fun d => decide (d.value > 0)

/-- The state of the component: `deals` is `none` after a reply without a body
has been stored. -/
structure State where
  deals : Option (List Deal) := some []
  loading : Bool := true

/-- The function `fetchData` of the effect: the state after the request. -/
def fetchData (reply : Reply (List Deal)) (s : State) : State :=
  match reply with
  | Reply.ok d => { deals := d, loading := false }
  | Reply.failed => { deals := s.deals, loading := false }

/-- The values the component computes from `deals` before it returns the
dashboard. -/
structure Metrics where
  totalDeals : ℕ
  pendingDeals : List Deal
  inProgressDeals : List Deal
  approvedDeals : List Deal
  rejectedDeals : List Deal
  totalDisbursed : Acc
  activeUsers : ℕ
  highValueDeals : List Deal
  inactiveUsers : ℕ
  unprocessedPayouts : ℕ
  statusData : List StatusEntry
  topPerformers : List UserStat
  oldPendingDeals : List Deal
  approvalRate : JsVal
  avgDealSize : JsNum

/-- The calculations of the component body for the deal list `deals`. -/
def metrics (numberToString : ℚ → String) (dateParse : String → Option ℤ) (now : ℤ)
    (deals : List Deal) : Metrics :=
  { totalDeals := deals.length
    pendingDeals := pendingDeals deals
    inProgressDeals := inProgressDeals deals
    approvedDeals := approvedDeals deals
    rejectedDeals := rejectedDeals deals
    totalDisbursed := totalDisbursed numberToString deals
    activeUsers := activeUsers deals
    highValueDeals := highValueDeals deals
    inactiveUsers := inactiveUsers
    unprocessedPayouts := unprocessedPayouts deals
    statusData := statusData deals
    topPerformers := topPerformers numberToString deals
    oldPendingDeals := oldPendingDeals dateParse now deals
    approvalRate := approvalRate deals
    avgDealSize := avgDealSize numberToString deals }

/-- What the component returns. -/
inductive Screen where
  | loadingDashboard : Screen
  | dashboard (m : Metrics) : Screen

/-- One render of the component: `none` when it throws (`deals.filter` on a
stored `null`). -/
def render (numberToString : ℚ → String) (dateParse : String → Option ℤ) (now : ℤ)
    (s : State) : Option Screen :=
  if s.loading then some Screen.loadingDashboard
  else s.deals.map fun deals => Screen.dashboard (metrics numberToString dateParse now deals)

end AdminDashboard

namespace AdminPerformance

/-- The names bound by the destructuring of `data || {}`. -/
structure Derived where
  totalDeals : ℕ
  approvedDeals : ℕ
  approvalRate : ℚ
  totalIncentiveEarned : JsNum
  averageDealValue : JsNum
  monthlyTrend : List TrendEntry

/-- The destructuring `const {totalDeals = 0, ...} = data || {}`. -/
def derived (data : Option Data) : Derived :=
  match data with
  | some d =>
    { totalDeals := d.totalDeals
      approvedDeals := d.approvedDeals
      approvalRate := d.approvalRate
      totalIncentiveEarned := d.totalIncentiveEarned
      averageDealValue := d.averageDealValue
      monthlyTrend := d.monthlyTrend }
  | none =>
    { totalDeals := 0
      approvedDeals := 0
      approvalRate := 0
      totalIncentiveEarned := 0
      averageDealValue := 0
      monthlyTrend := [] }

end AdminPerformance

/-! ## The module api.js -/

/-- A value `JSON.parse` returns.  The fields of an object are its own
properties, with distinct keys. -/
inductive Json where
  | null : Json
  | bool (b : Bool) : Json
  | num (q : ℚ) : Json
  | str (s : String) : Json
  | arr (items : List Json) : Json
  | obj (fields : List (String × Json)) : Json

namespace Json

/-- The optional read `j?.k` of a property that no prototype defines (the
interceptor reads `token`, `role`, `user` and `id`): the own property of an
object, and `none`, for `undefined`, on every other value. -/
def prop (j : Json) (k : String) : Option Json :=
  match j with
  | obj fields => (fields.find? fun p => p.1 == k).map fun p => p.2
  | _ => none

/-- Truthiness of a value read from the parsed text, `none` for `undefined`. -/
def truthy : Option Json → Bool
  | none => false
  | some null => false
  | some (bool b) => b
  | some (num q) => decide (q ≠ 0)
  | some (str s) => decide (s ≠ "")
  | some (arr _) => true
  | some (obj _) => true

mutual

/-- The conversion `ToString` of a template literal: an array is joined with
commas, an object is `[object Object]`. -/
def toStr (numberToString : ℚ → String) : Json → String
  | null => "null"
  | bool b => if b then "true" else "false"
  | num q => numberToString q
  | str s => s
  | arr items => join numberToString items
  | obj _ => "[object Object]"

/-- The method `Array.prototype.join` with the separator `,`. -/
def join (numberToString : ℚ → String) : List Json → String
  | [] => ""
  | [x] => element numberToString x
  | x :: y :: rest => element numberToString x ++ "," ++ join numberToString (y :: rest)

/-- An element of a joined array: `null` gives the empty string. -/
def element (numberToString : ℚ → String) : Json → String
  | null => ""
  | x => toStr numberToString x

end

end Json

namespace Api

/-- The constant `API_URL`, for the value of `import.meta.env.VITE_API_URL`
(`none` when it is not set). -/
def API_URL (env : Option String) : String :=
  match env with
  | some url => if url ≠ "" then url else "http://localhost:8080"
  | none => "http://localhost:8080"

/-- The argument of `axios.create`. -/
structure CreateConfig where
  baseURL : String
  headers : List (String × String)
  deriving DecidableEq

/-- The argument `api` is created with. -/
def api (env : Option String) : CreateConfig :=
  { baseURL := API_URL env, headers := [("Content-Type", "application/json")] }

/-- The argument `authApi` is created with. -/
def authApi (env : Option String) : CreateConfig :=
  { baseURL := API_URL env, headers := [("Content-Type", "application/json")] }

/-- The object `config.headers`: its properties in order of creation. -/
abbrev Headers := List (String × Json)

/-- A request config as the interceptor receives it: its headers, which exist
on every config axios passes to an interceptor, and, standing for the fields
the interceptor does not read, the url, the method, the base URL, the params
and the data. -/
structure RequestConfig where
  url : Option String := none
  method : Option String := none
  baseURL : Option String := none
  headers : Headers := []
  params : List (String × Json) := []
  data : Option Json := none

/-- The read `config.headers[k]`. -/
def getHeader (h : Headers) (k : String) : Option Json :=
  match h with
  | [] => none
  | p :: rest => if p.1 = k then some p.2 else getHeader rest k

/-- The write `config.headers[k] = v`. -/
def setHeader (h : Headers) (k : String) (v : Json) : Headers :=
  match h with
  | [] => [(k, v)]
  | p :: rest => if p.1 = k then (k, v) :: rest else p :: setHeader rest k v

/-- The statement `if (v) { config.headers[k] = w(v); }`. -/
def setIfTruthy (h : Headers) (k : String) (v : Option Json) (w : Json → Json) : Headers :=
  match v with
  | some x => if Json.truthy (some x) then setHeader h k (w x) else h
  | none => h

/-- The template literal that the interceptor writes as the authorization. -/
def bearer (numberToString : ℚ → String) (token : Json) : Json :=
  Json.str ("Bearer " ++ Json.toStr numberToString token)

/-- The headers after the three conditional writes of the interceptor, for the
parsed value `auth`. -/
def withAuthHeaders (numberToString : ℚ → String) (auth : Json) (headers : Headers) : Headers :=
  let token := auth.prop "token"
  let role := auth.prop "role"
  let userId := (auth.prop "user").bind fun user => user.prop "id"
  let h1 := setIfTruthy headers "Authorization" token (bearer numberToString)
  let h2 := setIfTruthy h1 "X-User-Role" role fun r => r
  setIfTruthy h2 "X-User-Id" userId fun i => i

/-- The request interceptor of `authApi`, for the value `authData` of
`localStorage.getItem('auth')` (`none` for `null`).  `jsonParse` is
`JSON.parse`, `none` where it throws a `SyntaxError`; the `catch` block logs
the error, and the config is returned in either case. -/
def requestInterceptor (jsonParse : String → Option Json) (numberToString : ℚ → String)
    (authData : Option String) (config : RequestConfig) : RequestConfig :=
  match authData with
  | none => config
  | some text =>
    if text ≠ "" then
      match jsonParse text with
      | some auth => { config with headers := withAuthHeaders numberToString auth config.headers }
      | none => config
    else config

end Api

end SER

/-! ## Vocabulary of the stated properties -/

namespace SER

/-- A field that holds a number or is missing. -/
def JsVal.isNumberOrMissing : JsVal → Bool
  | JsVal.undef => true
  | JsVal.num _ => true
  | _ => false

/-- The number held by a field, a missing field counted as 0. -/
def JsVal.numberOrZero : JsVal → ℚ
  | JsVal.num q => q
  | _ => 0

/-- `Number::toString` on integers (decimal digits, `-` before a negative
one), for evaluating the views on integer-valued inputs. -/
def integerToString (q : ℚ) : String :=
  if q < 0 then String.mk ('-' :: Nat.toDigits 10 q.num.natAbs)
  else String.mk (Nat.toDigits 10 q.num.natAbs)

/-- The deals of AdminDashboard that fall in none of its four status lists. -/
def AdminDashboard.unclassifiedDeals (deals : List Deal) : List Deal :=
  deals.filter fun d =>
    !(hasStatus "submitted" d || hasStatus "pending" d) && !hasStatus "in_progress" d &&
      !hasStatus "approved" d && !hasStatus "rejected" d

/-- Three deals: an approved one with incentive 10000, a rejected one whose
amount and incentive are strings, an approved one without amount or incentive. -/
def sampleDeals : List Deal :=
  [ { status := some "Approved", amount := JsVal.num 100000, incentive := JsVal.num 10000 },
    { status := some "rejected", amount := JsVal.str "n/a", incentive := JsVal.str "n/a" },
    { status := some "APPROVED" } ]

/-- The effective date of a deal parses and its UTC year-month is one of the
labels: the deal falls within the window of the trend. -/
def AdminPerformance.inWindow (dateParse : String → Option ℤ) (labels : List String)
    (d : Deal) : Bool :=
  match AdminPerformance.yyyyMM dateParse d with
  | some k => labels.contains k
  | none => false

/-- The `incentiveSum` of a trend entry is a number and `0 <= incentiveSum`. -/
def AdminPerformance.entryNonneg (e : AdminPerformance.TrendEntry) : Prop :=
  match e.incentiveSum with
  | some x => x.nonneg
  | none => False

instance (e : AdminPerformance.TrendEntry) : Decidable (AdminPerformance.entryNonneg e) := by
  unfold AdminPerformance.entryNonneg
  cases e.incentiveSum <;> infer_instance

/-- The number of days of month `m` (0 = January) in a year with leap flag
`leap`. -/
def monthLength (m : ℤ) (leap : ℤ) : ℤ :=
  if m = 1 then 28 + leap
  else if m = 3 ∨ m = 5 ∨ m = 8 ∨ m = 10 then 30
  else 31

/-- The first day of the month with index `n = 12 * year + month`. -/
def firstDayOfIndex (n : ℤ) : ℤ :=
  dayFromYear (n / 12) + monthStart (n % 12) (inLeapYear (n / 12))

/-- The text `toISOString().slice(0, 7)` gives for a UTC year and month. -/
def ymLabel (y m : ℤ) : String :=
  if 0 ≤ y ∧ y ≤ 9999 then
    String.mk (padDigits 4 y.toNat ++ '-' :: padDigits 2 (m + 1).toNat)
  else
    String.mk ((if y < 0 then '-' else '+') :: padDigits 6 y.natAbs)

/-- A `Date.parse` for the ISO date-only form `YYYY-MM-DD` of a calendar date,
read as UTC midnight, as every engine reads it; any other string is an Invalid
Date here. -/
def AdminPerformance.isoDateParse (s : String) : Option ℤ :=
  match s.toList with
  | [y1, y2, y3, y4, '-', m1, m2, '-', d1, d2] =>
    if [y1, y2, y3, y4, m1, m2, d1, d2].all Char.isDigit then
      let y : ℤ := digitsValue [y1, y2, y3, y4]
      let m : ℤ := digitsValue [m1, m2]
      let d : ℤ := digitsValue [d1, d2]
      if 1 ≤ m ∧ m ≤ 12 ∧ 1 ≤ d ∧ d ≤ monthLength (m - 1) (inLeapYear y) then
        some (makeDay y (m - 1) d * msPerDay)
      else none
    else none
  | _ => none

/-- A clock reading: November 2026 in a zone on UTC. -/
def november2026 : Clock := { fullYear := 2026, month := 10, tzOffset := fun _ => 0 }

/-- A clock reading: November 2026 in a zone five and a half hours ahead of
UTC all year. -/
def november2026Ahead : Clock := { fullYear := 2026, month := 10, tzOffset := fun _ => 330 }

/-- The zone Europe/London around 2026: on UTC, and one hour ahead during
summer time, from 29 March 2026 01:00 to 25 October 2026 02:00 local time. -/
def europeLondon (t : ℤ) : ℤ :=
  if 1774746000000 ≤ t ∧ t < 1792893600000 then 60 else 0

/-- A clock reading: April 2026 in Europe/London. -/
def april2026London : Clock := { fullYear := 2026, month := 3, tzOffset := europeLondon }

/-- One approved deal of March 2026 with incentive 100. -/
def marchDeals : List Deal :=
  [ { status := some "approved", incentive := JsVal.num 100, date := some "2026-03-10" } ]

/-- Dated deals around November 2026: two approved ones in November, an
approved one in September, an approved one a year earlier, an approved one
whose date does not parse, and a rejected one in November. -/
def datedDeals : List Deal :=
  [ { status := some "approved", incentive := JsVal.num 500, date := some "2026-11-03" },
    { status := some "Approved", incentive := JsVal.str "250.5", createdAt := some "2026-11-01" },
    { status := some "approved", incentive := JsVal.num 70, date := some "2026-09-30" },
    { status := some "approved", incentive := JsVal.num 11, date := some "2025-11-03" },
    { status := some "approved", incentive := JsVal.num 13, date := some "soon" },
    { status := some "rejected", incentive := JsVal.num 17, date := some "2026-11-05" } ]

/-- One approved deal of November 2026 with a negative incentive. -/
def clawbackDeals : List Deal :=
  [ { status := some "approved", incentive := JsVal.num (-100), date := some "2026-11-03" } ]

/-- The sum of `parseFloat(incentive) || 0` over the approved deals whose
effective date parses to the UTC year-month `m`. -/
def AdminPerformance.bucketSum (dateParse : String → Option ℤ) (deals : List Deal)
    (m : String) : JsNum :=
  (deals.map fun d =>
    if hasStatus "approved" d = true ∧ AdminPerformance.yyyyMM dateParse d = some m then
      AdminPerformance.parseFloatOrZero d.incentive
    else 0).sum

/-- The rank of a tier name in the order Silver < Gold < Platinum < Diamond. -/
def AdminPerformance.tierRank (name : String) : ℕ :=
  if name = "Diamond" then 3
  else if name = "Platinum" then 2
  else if name = "Gold" then 1
  else 0

/-- The key under which `userStats` files a deal: the property key of the id of
its owning user, `none` when the deal has no owning user or the key is a name
inherited from `Object.prototype`. -/
def AdminDashboard.userKey (numberToString : ℚ → String) (d : Deal) : Option String :=
  d.user.bind fun u =>
    if AdminDashboard.propertyKey numberToString u.id ∈ AdminDashboard.objectPrototypeNames then
      none
    else some (AdminDashboard.propertyKey numberToString u.id)

/-- The approved deals of the user with key `k`, in the order of the
collection. -/
def AdminDashboard.dealsOfKey (numberToString : ℚ → String) (deals : List Deal)
    (k : String) : List Deal :=
  (deals.filter fun d => hasStatus "approved" d).filter fun d =>
    decide (AdminDashboard.userKey numberToString d = some k)

/-- A statistic after more deals of its user: the incentives added in turn, the
count raised by their number. -/
def AdminDashboard.applyDeals (numberToString : ℚ → String) (init : AdminDashboard.UserStat)
    (ds : List Deal) : AdminDashboard.UserStat :=
  { name := init.name
    incentive := ds.foldl (fun acc d => acc.plusOrZero numberToString d.incentive) init.incentive
    deals := init.deals + ds.length }

/-- The statistic of the user with key `k`: none without an approved deal,
otherwise the name on the first approved deal, the incentives of the approved
deals added in turn from 0, and their number. -/
def AdminDashboard.statOfKey (numberToString : ℚ → String) (deals : List Deal)
    (k : String) : Option AdminDashboard.UserStat :=
  match AdminDashboard.dealsOfKey numberToString deals k with
  | [] => none
  | d :: rest =>
    some (AdminDashboard.applyDeals numberToString
      { name := d.user.bind fun u => u.name, incentive := Acc.num 0, deals := 0 } (d :: rest))

/-- The keys of a list in order of first occurrence. -/
def firstOccurrences (ks : List String) : List String :=
  ks.foldl (fun acc k => if k ∈ acc then acc else acc ++ [k]) []

/-- The number an accumulator holds, 0 for a string. -/
def Acc.numberOrZero : Acc → ℚ
  | Acc.num q => q
  | Acc.str _ => 0

/-- Approved deals of five users, with a rejected deal and a deal without owner
between them: user 3 earns 700 in two deals, user 9 earns 400, users 2 and 1
earn 100 each (user 2 first), user 5 earns 50. -/
def rankingDeals : List Deal :=
  [ { status := some "approved", incentive := JsVal.num 100,
      user := some { id := JsVal.num 2, name := some "Bina" } },
    { status := some "approved", incentive := JsVal.num 300,
      user := some { id := JsVal.num 3, name := some "Chand" } },
    { status := some "rejected", incentive := JsVal.num 900,
      user := some { id := JsVal.num 2, name := some "Bina" } },
    { status := some "approved", incentive := JsVal.num 100,
      user := some { id := JsVal.num 1, name := some "Asha" } },
    { status := some "approved", incentive := JsVal.num 800 },
    { status := some "Approved", incentive := JsVal.num 400,
      user := some { id := JsVal.num 9, name := some "Indu" } },
    { status := some "approved", incentive := JsVal.num 400,
      user := some { id := JsVal.num 3, name := some "Chand" } },
    { status := some "approved", incentive := JsVal.num 50,
      user := some { id := JsVal.num 5, name := some "Esha" } } ]

/-- Two approved deals with the same incentive: the first of user 2, the second
of user 1. -/
def tieDeals : List Deal :=
  [ { status := some "approved", incentive := JsVal.num 100,
      user := some { id := JsVal.num 2, name := some "Bina" } },
    { status := some "approved", incentive := JsVal.num 100,
      user := some { id := JsVal.num 1, name := some "Asha" } } ]

/-- The search test as the specification words it: the term is empty, or the
lower-cased term is a substring of the lower-cased client name, the lower-cased
status, the stringified amount or the formatted date (the text of the date
cell). -/
def AdminPerformance.matchesAsStated (lowerCase : String → String)
    (numberToString : ℚ → String) (toLocaleDateString : String → String) (deal : Deal)
    (searchTerm : String) : Bool :=
  decide (searchTerm = "") ||
    includes (lowerCase (deal.clientName.getD "")) (lowerCase searchTerm) ||
    includes (lowerCase (deal.status.getD "")) (lowerCase searchTerm) ||
    includes (AdminPerformance.amountString numberToString deal.amount) (lowerCase searchTerm) ||
    includes (AdminPerformance.dateCell toLocaleDateString deal) (lowerCase searchTerm)

/-- The method `toLocaleDateString` in the locale `en-IN` and a zone on UTC, for
a raw ISO date-only string: day, month and year as numerals separated by `/`. -/
def enINDateString (raw : String) : String :=
  match AdminPerformance.isoDateParse raw with
  | some t =>
    let y := yearFromDay (day t)
    let m := monthFromDay (day t)
    let dayOfMonth := day t - dayFromYear y - monthStart m (inLeapYear y) + 1
    String.mk (Nat.toDigits 10 dayOfMonth.toNat ++ '/' :: Nat.toDigits 10 (m + 1).toNat ++
      '/' :: Nat.toDigits 10 y.toNat)
  | none => "Invalid Date"

/-- A deal of 10 March 2026. -/
def searchDeal : Deal :=
  { clientName := some "Acme Traders", status := some "Approved", amount := JsVal.num 100000,
    incentive := JsVal.num 5000, date := some "2026-03-10" }

/-- The comparison of two deals the sort aims at: the effective date of the
first is not before that of the second (deals without a valid date are not
compared). -/
def AdminPerformance.datesNonIncreasing (dateParse : String → Option ℤ) (a b : Deal) : Bool :=
  match AdminPerformance.effectiveTime dateParse a, AdminPerformance.effectiveTime dateParse b with
  | some ta, some tb => decide (tb ≤ ta)
  | _, _ => true

/-- Three deals: one of January 2026, one whose date does not parse, one of
February 2026. -/
def misdatedDeals : List Deal :=
  [ { clientName := some "January", date := some "2026-01-01" },
    { clientName := some "Undated", date := some "to be confirmed" },
    { clientName := some "February", date := some "2026-02-01" } ]

/-- Four deals with valid or missing dates: January 2026, none, March 2026 (by
creation time) and February 2026. -/
def wellDatedDeals : List Deal :=
  [ { clientName := some "January", date := some "2026-01-01" },
    { clientName := some "None" },
    { clientName := some "March", createdAt := some "2026-03-01" },
    { clientName := some "February", date := some "2026-02-01" } ]

/-- One approved deal of user 1 whose amount and incentive are the string
`abc`. -/
def textDeals : List Deal :=
  [ { status := some "approved", amount := JsVal.str "abc", incentive := JsVal.str "abc",
      date := some "2026-11-03", user := some { id := JsVal.num 1, name := some "Asha" } } ]

/-- A field value with a string that `parseFloat` does not read replaced by 0. -/
def JsVal.zeroUnparsed (v : JsVal) : JsVal :=
  match v with
  | JsVal.str s => if parseFloatString s = JsNum.nan then JsVal.num 0 else JsVal.str s
  | other => other

/-- A deal with its amount and its incentive replaced by 0 where they are
strings that `parseFloat` does not read. -/
def Deal.zeroUnparsed (d : Deal) : Deal :=
  { d with amount := d.amount.zeroUnparsed, incentive := d.incentive.zeroUnparsed }

/-- The state of AdminPerformance at mount: the initial values of its `useState`
calls. -/
def AdminPerformance.initialState : AdminPerformance.ViewState := {}

/-- The state of AdminDashboard at mount. -/
def AdminDashboard.initialState : AdminDashboard.State := {}

/-- A network on which both deal requests of AdminPerformance fail; `user` is
the reply to the profile request. -/
def AdminPerformance.dealRequestsFail (user : Reply AdminPerformance.Profile) :
    AdminPerformance.Network :=
  { user := user, scopedDeals := Reply.failed, unscopedDeals := Reply.failed }

/-- A network on which the request for the deals of the user succeeds with the
body `deals`. -/
def AdminPerformance.dealsArrive (user : Reply AdminPerformance.Profile) (deals : List Deal) :
    AdminPerformance.Network :=
  { user := user, scopedDeals := Reply.ok (some deals), unscopedDeals := Reply.failed }

/-- The two deals of the scenario: an approved deal of user 1 with amount
100000 and incentive 10000 dated 2024-01-15, and a rejected deal with amount
50000 and incentive 0 dated 2024-02-01. -/
def scenarioDeals : List Deal :=
  [ { status := some "approved", amount := JsVal.num 100000, incentive := JsVal.num 10000,
      date := some "2024-01-15", user := some { id := JsVal.num 1, name := some "A" } },
    { status := some "rejected", amount := JsVal.num 50000, incentive := JsVal.num 0,
      date := some "2024-02-01" } ]

/-- A deal with its status removed. -/
def Deal.withoutStatus (d : Deal) : Deal := { d with status := none }

/-- The monetary aggregates of AdminPerformance for a deal list: the total
revenue, `totalIncentiveEarned`, `averageDealValue`, `monthlyTrend` and the
tier. -/
def AdminPerformance.monetaryAggregates (dateParse : String → Option ℤ) (today : Clock)
    (deals : List Deal) :
    JsNum × JsNum × JsNum × List AdminPerformance.TrendEntry × AdminPerformance.Tier :=
  (AdminPerformance.totalRevenue deals,
    (AdminPerformance.data dateParse today deals).totalIncentiveEarned,
    (AdminPerformance.data dateParse today deals).averageDealValue,
    (AdminPerformance.data dateParse today deals).monthlyTrend,
    AdminPerformance.tier deals)

/-- A stored `auth` text: a session with a token, a role and the user 7. -/
def sampleAuthText : String :=
  "\x7b\"token\":\"abc\",\"role\":\"ADMIN\",\"user\":\x7b\"id\":7\x7d\x7d"

/-- The value of `sampleAuthText`. -/
def sampleAuth : Json :=
  Json.obj [("token", Json.str "abc"), ("role", Json.str "ADMIN"),
    ("user", Json.obj [("id", Json.num 7)])]

/-- A `JSON.parse` that reads `sampleAuthText` and rejects every other text. -/
def sampleJsonParse (text : String) : Option Json :=
  if text = sampleAuthText then some sampleAuth else none

/-- A request config for `GET /deals` with the content type of the instance and
a stale authorization. -/
def sampleConfig : Api.RequestConfig :=
  { url := some "/deals", method := some "get",
    headers := [("Content-Type", Json.str "application/json"),
      ("Authorization", Json.str "Bearer old")] }

/-- One deal of 600000 whose status is `approved` in lower case. -/
def lowerCaseApprovedDeals : List Deal :=
  [ { status := some "approved", amount := JsVal.num 600000 } ]

/-- One deal of 600000 whose status is `Approved`. -/
def capitalisedApprovedDeals : List Deal :=
  [ { status := some "Approved", amount := JsVal.num 600000 } ]

/-- One pending deal without a date whose `createdAt` is `null`. -/
def nullCreatedAtDeals : List Deal :=
  [ { status := some "pending", createdAtNull := true } ]

/-- One pending deal without a date and without a `createdAt`. -/
def undatedPendingDeals : List Deal :=
  [ { status := some "pending" } ]

/-- The instant 2026-11-06T00:00:00Z. -/
def sixNovember2026 : ℤ := 1793923200000

/-- Two deals with numeric amounts: an approved one of 100 and a rejected one
of 50. -/
def mixedDeals : List Deal :=
  [ { status := some "approved", amount := JsVal.num 100 },
    { status := some "rejected", amount := JsVal.num 50 } ]

end SER

/-! ## Auxiliary facts on lists -/

namespace SER

theorem foldl_add_eq_sum {α M : Type} [AddCommMonoid M] (f : α → M) (l : List α) (a : M) :
    l.foldl (fun acc d => acc + f d) a = a + (l.map f).sum := by
  induction l generalizing a with
  | nil => simp
  | cons x xs ih => simp [ih, add_assoc]

theorem sum_map_filter {α M : Type} [AddCommMonoid M] (p : α → Bool) (f : α → M) (l : List α) :
    ((l.filter p).map f).sum = (l.map fun d => if p d = true then f d else 0).sum := by
  induction l with
  | nil => simp
  | cons x xs ih =>
    by_cases hx : p x = true
    · simp [List.filter_cons, hx, ih]
    · simp [List.filter_cons, hx, ih]

theorem length_filter_five {α : Type} (p1 p2 p3 p4 p5 : α → Bool) (l : List α)
    (h : ∀ d, (if p1 d = true then 1 else 0) + (if p2 d = true then 1 else 0) +
      (if p3 d = true then 1 else 0) + (if p4 d = true then 1 else 0) +
      (if p5 d = true then 1 else 0) = 1) :
    (l.filter p1).length + (l.filter p2).length + (l.filter p3).length + (l.filter p4).length +
      (l.filter p5).length = l.length := by
  induction l with
  | nil => simp
  | cons d ds ih =>
    have hd := h d
    simp only [List.filter_cons, List.length_cons]
    cases h1 : p1 d <;> cases h2 : p2 d <;> cases h3 : p3 d <;> cases h4 : p4 d <;>
      cases h5 : p5 d <;> simp [h1, h2, h3, h4, h5] at hd ⊢ <;> omega

theorem rat_ratio_mul_hundred_bounds (a n : ℕ) (han : a ≤ n) (hn : n ≠ 0) :
    0 ≤ (a : ℚ) / (n : ℚ) * 100 ∧ (a : ℚ) / (n : ℚ) * 100 ≤ 100 := by
  have hn0 : (0 : ℚ) < (n : ℚ) := by exact_mod_cast Nat.pos_of_ne_zero hn
  have h1 : (a : ℚ) / (n : ℚ) ≤ 1 := by
    rw [div_le_one hn0]
    exact_mod_cast han
  have h0 : (0 : ℚ) ≤ (a : ℚ) / (n : ℚ) := by positivity
  constructor
  · positivity
  · linarith

theorem toFixed1Tenths_le (x : ℚ) (h0 : 0 ≤ x) (h1 : x ≤ 100) : toFixed1Tenths x ≤ 1000 := by
  unfold toFixed1Tenths
  have h : ⌊10 * x + 1 / 2⌋ ≤ 1000 := by
    have : ⌊10 * x + 1 / 2⌋ < 1001 := by
      rw [Int.floor_lt]
      push_cast
      linarith
    omega
  have h2 : (0 : ℤ) ≤ ⌊10 * x + 1 / 2⌋ := by
    apply Int.floor_nonneg.mpr
    linarith
  omega

theorem toFixed1Tenths_close (x : ℚ) (h0 : 0 ≤ x) :
    |(toFixed1Tenths x : ℚ) / 10 - x| ≤ 1 / 20 := by
  unfold toFixed1Tenths
  have h2 : (0 : ℤ) ≤ ⌊10 * x + 1 / 2⌋ := by
    apply Int.floor_nonneg.mpr
    linarith
  have hcast : ((⌊10 * x + 1 / 2⌋.toNat : ℕ) : ℚ) = ((⌊10 * x + 1 / 2⌋ : ℤ) : ℚ) := by
    have : ((⌊10 * x + 1 / 2⌋.toNat : ℕ) : ℤ) = ⌊10 * x + 1 / 2⌋ := Int.toNat_of_nonneg h2
    exact_mod_cast this
  rw [hcast]
  have hle := Int.floor_le (10 * x + 1 / 2)
  have hlt := Int.lt_floor_add_one (10 * x + 1 / 2)
  rw [abs_le]
  constructor <;> linarith

/-! ## Status counts and rates -/

/-- C1: the approval rate of the performance view is a number in [0, 100] and is
0 for the empty collection; the approval rate of the dashboard is the number 0
for the empty collection and otherwise the one-decimal string of `n / 10` for
some `n` with `0 ≤ n ≤ 1000`, that is a value in [0, 100], within 1/20 of the
exact rate. -/
theorem approvalRate_range (dateParse : String → Option ℤ) (today : Clock) (deals : List Deal) :
    (0 ≤ (AdminPerformance.data dateParse today deals).approvalRate ∧
      (AdminPerformance.data dateParse today deals).approvalRate ≤ 100) ∧
    (AdminPerformance.data dateParse today []).approvalRate = 0 ∧
    AdminDashboard.approvalRate [] = JsVal.num 0 ∧
    (AdminDashboard.approvalRate deals = JsVal.num 0 ∨
      ∃ n : ℕ, n ≤ 1000 ∧ AdminDashboard.approvalRate deals = JsVal.str (fixed1Digits n) ∧
        |(n : ℚ) / 10 - ((AdminDashboard.approvedDeals deals).length : ℚ) /
          (deals.length : ℚ) * 100| ≤ 1 / 20) := by
  have hle : (AdminPerformance.approved deals).length ≤ deals.length :=
    List.length_filter_le _ _
  have hle2 : (AdminDashboard.approvedDeals deals).length ≤ deals.length :=
    List.length_filter_le _ _
  refine ⟨?_, ?_, ?_, ?_⟩
  · by_cases hn : deals.length = 0
    · simp [AdminPerformance.data, hn]
    · simp only [AdminPerformance.data, ne_eq, hn, not_false_eq_true, if_true]
      exact rat_ratio_mul_hundred_bounds _ _ hle hn
  · simp [AdminPerformance.data]
  · simp [AdminDashboard.approvalRate]
  · by_cases hn : deals.length = 0
    · left
      simp [AdminDashboard.approvalRate, hn]
    · right
      have hb := rat_ratio_mul_hundred_bounds _ _ hle2 hn
      refine ⟨toFixed1Tenths (((AdminDashboard.approvedDeals deals).length : ℚ) /
        (deals.length : ℚ) * 100), toFixed1Tenths_le _ hb.1 hb.2, ?_,
        toFixed1Tenths_close _ hb.1⟩
      have hpos : deals.length > 0 := Nat.pos_of_ne_zero hn
      simp only [AdminDashboard.approvalRate, hpos, if_true, toFixed1]
      rw [if_neg (not_lt.mpr hb.1)]

theorem hasStatus_unique (d : Deal) (v w : String) (hv : hasStatus v d = true)
    (hw : hasStatus w d = true) : v = w := by
  simp only [hasStatus, beq_iff_eq] at hv hw
  rw [← hv, ← hw]

/-- C2, counterexample: a single deal with the status `draft` is in none of the
four lists of AdminDashboard, so their lengths sum to 0 and not to 1. -/
theorem dashboard_buckets_miss_unrecognised :
    ¬ ((AdminDashboard.pendingDeals [{ status := some "draft" }]).length +
        (AdminDashboard.inProgressDeals [{ status := some "draft" }]).length +
        (AdminDashboard.approvedDeals [{ status := some "draft" }]).length +
        (AdminDashboard.rejectedDeals [{ status := some "draft" }]).length =
      [({ status := some "draft" } : Deal)].length) := by
  decide

/-- C2, amended: the four status lists of AdminDashboard are pairwise disjoint,
and their lengths together with the number of deals whose status is none of
submitted, pending, in_progress, approved, rejected sum to `deals.length`; so
the four lengths sum to at most `deals.length`. -/
theorem dashboard_buckets_disjoint_and_count (deals : List Deal) :
    List.Disjoint (AdminDashboard.pendingDeals deals) (AdminDashboard.inProgressDeals deals) ∧
    List.Disjoint (AdminDashboard.pendingDeals deals) (AdminDashboard.approvedDeals deals) ∧
    List.Disjoint (AdminDashboard.pendingDeals deals) (AdminDashboard.rejectedDeals deals) ∧
    List.Disjoint (AdminDashboard.inProgressDeals deals) (AdminDashboard.approvedDeals deals) ∧
    List.Disjoint (AdminDashboard.inProgressDeals deals) (AdminDashboard.rejectedDeals deals) ∧
    List.Disjoint (AdminDashboard.approvedDeals deals) (AdminDashboard.rejectedDeals deals) ∧
    (AdminDashboard.pendingDeals deals).length + (AdminDashboard.inProgressDeals deals).length +
        (AdminDashboard.approvedDeals deals).length + (AdminDashboard.rejectedDeals deals).length +
        (AdminDashboard.unclassifiedDeals deals).length = deals.length ∧
    (AdminDashboard.pendingDeals deals).length + (AdminDashboard.inProgressDeals deals).length +
        (AdminDashboard.approvedDeals deals).length + (AdminDashboard.rejectedDeals deals).length
      ≤ deals.length := by
  have hcount : (AdminDashboard.pendingDeals deals).length +
      (AdminDashboard.inProgressDeals deals).length +
      (AdminDashboard.approvedDeals deals).length + (AdminDashboard.rejectedDeals deals).length +
      (AdminDashboard.unclassifiedDeals deals).length = deals.length := by
    apply length_filter_five
    intro d
    by_cases h1 : hasStatus "submitted" d = true <;>
    by_cases h2 : hasStatus "pending" d = true <;>
    by_cases h3 : hasStatus "in_progress" d = true <;>
    by_cases h4 : hasStatus "approved" d = true <;>
    by_cases h5 : hasStatus "rejected" d = true <;>
    first
      | (exfalso; have := hasStatus_unique d _ _ h1 h3; revert this; decide)
      | (exfalso; have := hasStatus_unique d _ _ h1 h4; revert this; decide)
      | (exfalso; have := hasStatus_unique d _ _ h1 h5; revert this; decide)
      | (exfalso; have := hasStatus_unique d _ _ h2 h3; revert this; decide)
      | (exfalso; have := hasStatus_unique d _ _ h2 h4; revert this; decide)
      | (exfalso; have := hasStatus_unique d _ _ h2 h5; revert this; decide)
      | (exfalso; have := hasStatus_unique d _ _ h3 h4; revert this; decide)
      | (exfalso; have := hasStatus_unique d _ _ h3 h5; revert this; decide)
      | (exfalso; have := hasStatus_unique d _ _ h4 h5; revert this; decide)
      | simp [h1, h2, h3, h4, h5]
  have hdis : ∀ (p q : Deal → Bool), (∀ d, p d = true → q d = true → False) →
      List.Disjoint (deals.filter p) (deals.filter q) := by
    intro p q hpq d hp hq
    exact hpq d (List.mem_filter.mp hp).2 (List.mem_filter.mp hq).2
  refine ⟨?_, ?_, ?_, ?_, ?_, ?_, hcount, by omega⟩
  · apply hdis
    intro d hp hq
    simp only [Bool.or_eq_true] at hp
    rcases hp with hp | hp
    · have := hasStatus_unique d _ _ hp hq; revert this; decide
    · have := hasStatus_unique d _ _ hp hq; revert this; decide
  · apply hdis
    intro d hp hq
    simp only [Bool.or_eq_true] at hp
    rcases hp with hp | hp
    · have := hasStatus_unique d _ _ hp hq; revert this; decide
    · have := hasStatus_unique d _ _ hp hq; revert this; decide
  · apply hdis
    intro d hp hq
    simp only [Bool.or_eq_true] at hp
    rcases hp with hp | hp
    · have := hasStatus_unique d _ _ hp hq; revert this; decide
    · have := hasStatus_unique d _ _ hp hq; revert this; decide
  · apply hdis
    intro d hp hq
    have := hasStatus_unique d _ _ hp hq; revert this; decide
  · apply hdis
    intro d hp hq
    have := hasStatus_unique d _ _ hp hq; revert this; decide
  · apply hdis
    intro d hp hq
    have := hasStatus_unique d _ _ hp hq; revert this; decide

/-- C3: the three numbers of the performance view's status chart are the number
of approved deals, the number of deals that are neither approved nor rejected
(missing and unrecognised statuses included) and the number of rejected deals;
each is non-negative and they sum to the number of deals. -/
theorem doughnutData_counts (dateParse : String → Option ℤ) (today : Clock) (deals : List Deal) :
    AdminPerformance.doughnutData (AdminPerformance.data dateParse today deals) deals =
      [ ((deals.filter fun d => hasStatus "approved" d).length : ℤ),
        ((deals.filter fun d => !hasStatus "approved" d && !hasStatus "rejected" d).length : ℤ),
        ((deals.filter fun d => hasStatus "rejected" d).length : ℤ) ] ∧
    (∀ x ∈ AdminPerformance.doughnutData (AdminPerformance.data dateParse today deals) deals,
      0 ≤ x) ∧
    (AdminPerformance.doughnutData (AdminPerformance.data dateParse today deals) deals).sum =
      (AdminPerformance.data dateParse today deals).totalDeals := by
  have hcount : (deals.filter fun d => hasStatus "approved" d).length +
      (deals.filter fun d => hasStatus "rejected" d).length +
      (deals.filter fun d => !hasStatus "approved" d && !hasStatus "rejected" d).length
        = deals.length := by
    induction deals with
    | nil => simp
    | cons d ds ih =>
      by_cases h4 : hasStatus "approved" d = true <;>
      by_cases h5 : hasStatus "rejected" d = true
      · exfalso; have := hasStatus_unique d _ _ h4 h5; revert this; decide
      · simp only [List.filter_cons, h4, h5, List.length_cons, if_true]
        simp only [Bool.not_true, Bool.false_and, Bool.false_eq_true, if_false]
        omega
      · simp only [List.filter_cons, h4, h5, List.length_cons, if_true]
        simp only [Bool.not_true, Bool.and_false, Bool.false_eq_true, if_false]
        omega
      · simp only [Bool.not_eq_true] at h4 h5
        simp only [List.filter_cons, h4, h5, List.length_cons]
        simp only [Bool.not_false, Bool.and_true, Bool.false_eq_true, if_false, if_true,
          List.length_cons]
        omega
  have hdata : AdminPerformance.doughnutData (AdminPerformance.data dateParse today deals) deals =
      [ ((deals.filter fun d => hasStatus "approved" d).length : ℤ),
        ((deals.filter fun d => !hasStatus "approved" d && !hasStatus "rejected" d).length : ℤ),
        ((deals.filter fun d => hasStatus "rejected" d).length : ℤ) ] := by
    simp only [AdminPerformance.doughnutData, AdminPerformance.data, AdminPerformance.approved]
    congr 1
    congr 1
    omega
  refine ⟨hdata, ?_, ?_⟩
  · rw [hdata]
    intro x hx
    simp only [List.mem_cons, List.mem_singleton, List.not_mem_nil, or_false] at hx
    rcases hx with hx | hx | hx <;> rw [hx] <;> exact Int.natCast_nonneg _
  · rw [hdata]
    simp only [AdminPerformance.data, List.sum_cons, List.sum_nil]
    omega

/-! ## Sums over the approved deals -/

theorem foldl_plusOrZero_numeric (numberToString : ℚ → String) (f : Deal → JsVal)
    (l : List Deal) (a : ℚ) (h : ∀ d ∈ l, (f d).isNumberOrMissing = true) :
    l.foldl (fun acc d => acc.plusOrZero numberToString (f d)) (Acc.num a) =
      Acc.num (a + (l.map fun d => (f d).numberOrZero).sum) := by
  induction l generalizing a with
  | nil => simp
  | cons x xs ih =>
    have hx : (f x).isNumberOrMissing = true := h x (List.mem_cons_self _ _)
    have hxs : ∀ d ∈ xs, (f d).isNumberOrMissing = true :=
      fun d hd => h d (List.mem_cons_of_mem _ hd)
    have hstep : (Acc.num a).plusOrZero numberToString (f x) =
        Acc.num (a + (f x).numberOrZero) := by
      cases hfx : f x with
      | undef => simp [Acc.plusOrZero, Acc.plusNum, JsVal.numberOrZero]
      | bool b => rw [hfx] at hx; simp [JsVal.isNumberOrMissing] at hx
      | num q => simp [Acc.plusOrZero, Acc.plusNum, JsVal.numberOrZero]
      | str t => rw [hfx] at hx; simp [JsVal.isNumberOrMissing] at hx
    simp only [List.foldl_cons, hstep, ih _ hxs, List.map_cons, List.sum_cons, add_assoc]

/-- C4: when the incentive of every approved deal is a number or missing,
`totalDisbursed` of AdminDashboard is the sum over all deals of the incentive
(missing counted as 0) of the deals whose status lower-cases to `approved`, and
of 0 for every other deal; and it is the `totalDisbursed` of the approved deals
alone, the other deals adding nothing. -/
theorem totalDisbursed_eq_approved_sum (numberToString : ℚ → String) (deals : List Deal)
    (h : ∀ d ∈ deals, hasStatus "approved" d = true → d.incentive.isNumberOrMissing = true) :
    AdminDashboard.totalDisbursed numberToString deals =
      Acc.num ((deals.map fun d =>
        if hasStatus "approved" d = true then d.incentive.numberOrZero else 0).sum) ∧
    AdminDashboard.totalDisbursed numberToString deals =
      AdminDashboard.totalDisbursed numberToString (AdminDashboard.approvedDeals deals) := by
  constructor
  · unfold AdminDashboard.totalDisbursed AdminDashboard.approvedDeals
    rw [foldl_plusOrZero_numeric numberToString (fun d => d.incentive)]
    · rw [zero_add, sum_map_filter]
    · intro d hd
      rw [List.mem_filter] at hd
      exact h d hd.1 hd.2
  · unfold AdminDashboard.totalDisbursed AdminDashboard.approvedDeals
    rw [List.filter_filter]
    simp

/-- C4, witness: on `sampleDeals` the hypothesis holds and `totalDisbursed` is
10000, the string incentive of the rejected deal adding nothing. -/
theorem totalDisbursed_eq_approved_sum_witness :
    (∀ d ∈ sampleDeals, hasStatus "approved" d = true → d.incentive.isNumberOrMissing = true) ∧
    AdminDashboard.totalDisbursed integerToString sampleDeals =
      Acc.num ((sampleDeals.map fun d =>
        if hasStatus "approved" d = true then d.incentive.numberOrZero else 0).sum) ∧
    AdminDashboard.totalDisbursed integerToString sampleDeals = Acc.num 10000 :=
  ⟨by decide, (totalDisbursed_eq_approved_sum integerToString sampleDeals (by decide)).1,
    by decide!⟩

/-- C5: `averageDealValue` of AdminPerformance is 0 when no deal is approved, and
otherwise the sum of `parseFloat(amount) || 0` over the approved deals divided
by the number of approved deals. -/
theorem averageDealValue_eq (dateParse : String → Option ℤ) (today : Clock) (deals : List Deal) :
    (AdminPerformance.data dateParse today deals).averageDealValue =
      if (deals.filter fun d => hasStatus "approved" d).length = 0 then JsNum.fin 0
      else JsNum.div
        ((deals.map fun d =>
          if hasStatus "approved" d = true then AdminPerformance.parseFloatOrZero d.amount
          else 0).sum)
        (JsNum.ofNat (deals.filter fun d => hasStatus "approved" d).length) := by
  simp only [AdminPerformance.data, AdminPerformance.avgDeal, AdminPerformance.totalRev,
    AdminPerformance.approved]
  by_cases hn : (deals.filter fun d => hasStatus "approved" d).length = 0
  · rw [if_pos hn, if_neg (by simpa using hn)]
    rfl
  · rw [if_neg hn, if_pos hn, foldl_add_eq_sum, zero_add, sum_map_filter]

/-- C6, counterexample: for an approved deal of 100 and a rejected deal of 50,
`avgDealSize` of AdminDashboard is 75, while the revenue of the approved deals
divided by their number is 100. -/
theorem avgDealSize_counts_every_deal :
    AdminDashboard.avgDealSize integerToString mixedDeals = JsNum.fin 75 ∧
    JsNum.div (AdminPerformance.totalRev mixedDeals)
      (JsNum.ofNat (AdminDashboard.approvedDeals mixedDeals).length) = JsNum.fin 100 ∧
    AdminDashboard.avgDealSize integerToString mixedDeals ≠
      JsNum.div (AdminPerformance.totalRev mixedDeals)
        (JsNum.ofNat (AdminDashboard.approvedDeals mixedDeals).length) := by
  decide!

/-- C6, amended: when the amount of every deal is a number or missing,
`avgDealSize` of AdminDashboard is 0 for the empty collection and otherwise the
sum of the amounts (missing counted as 0) of all deals, whatever their status,
divided by `deals.length`. -/
theorem avgDealSize_eq_mean_of_all (numberToString : ℚ → String) (deals : List Deal)
    (h : ∀ d ∈ deals, d.amount.isNumberOrMissing = true) :
    AdminDashboard.avgDealSize numberToString deals =
      if deals.length = 0 then JsNum.fin 0
      else JsNum.fin ((deals.map fun d => d.amount.numberOrZero).sum / (deals.length : ℚ)) := by
  unfold AdminDashboard.avgDealSize
  by_cases hn : deals.length = 0
  · simp [hn]
  · have hpos : deals.length > 0 := Nat.pos_of_ne_zero hn
    have hq : ((deals.length : ℕ) : ℚ) ≠ 0 := by exact_mod_cast hn
    rw [if_pos hpos, if_neg hn, foldl_plusOrZero_numeric numberToString (fun d => d.amount) _ _ h]
    simp [Acc.toNumber, JsNum.div, JsNum.ofNat, hq]

/-- C6, witness: `mixedDeals` has numeric amounts, and its `avgDealSize` is
(100 + 50) / 2. -/
theorem avgDealSize_eq_mean_of_all_witness :
    (∀ d ∈ mixedDeals, d.amount.isNumberOrMissing = true) ∧
    AdminDashboard.avgDealSize integerToString mixedDeals =
      if mixedDeals.length = 0 then JsNum.fin 0
      else JsNum.fin ((mixedDeals.map fun d => d.amount.numberOrZero).sum /
        (mixedDeals.length : ℚ)) :=
  ⟨by decide, avgDealSize_eq_mean_of_all integerToString mixedDeals (by decide)⟩

/-! ## Calendar facts -/

theorem dayFromYear_bounds (y : ℤ) :
    146097 * (y - 1970) - 1000 ≤ 400 * dayFromYear y ∧
      400 * dayFromYear y ≤ 146097 * (y - 1970) + 1000 := by
  unfold dayFromYear
  constructor <;> omega

theorem dayFromYear_succ (y : ℤ) : dayFromYear (y + 1) = dayFromYear y + daysInYear y := by
  unfold dayFromYear daysInYear
  split_ifs <;> omega

theorem daysInYear_eq (y : ℤ) : daysInYear y = 365 + inLeapYear y := by
  unfold inLeapYear daysInYear
  split_ifs <;> omega

theorem inLeapYear_cases (y : ℤ) : inLeapYear y = 0 ∨ inLeapYear y = 1 := by
  unfold inLeapYear
  split_ifs <;> simp

theorem yearFromDay_spec (y d : ℤ) (h1 : dayFromYear y ≤ d) (h2 : d < dayFromYear (y + 1)) :
    yearFromDay d = y := by
  have b1 := dayFromYear_bounds y
  have b2 := dayFromYear_bounds (y + 1)
  have hk : (400 * d) / 146097 = y - 1970 - 1 ∨ (400 * d) / 146097 = y - 1970 ∨
      (400 * d) / 146097 = y - 1970 + 1 := by omega
  have m1 := dayFromYear_succ (y + 1)
  have m2 := daysInYear_eq (y + 1)
  have m3 := inLeapYear_cases (y + 1)
  unfold yearFromDay
  simp only
  rcases hk with hk | hk | hk <;> rw [hk]
  · have e1 : 1970 + (y - 1970 - 1) + 1 = y := by ring
    rw [e1, if_pos h1]
  · have e1 : 1970 + (y - 1970) = y := by ring
    rw [e1, if_neg (not_le.mpr h2), if_pos h1]
  · have e1 : 1970 + (y - 1970 + 1) = y + 1 := by ring
    have e3 : y + 1 - 1 = y := by ring
    rw [e1]
    have h3 : ¬ dayFromYear (y + 1 + 1) ≤ d := by omega
    rw [if_neg h3, if_neg (not_le.mpr h2), e3]

theorem monthStart_bounds (m leap : ℤ) (hm0 : 0 ≤ m) (hm1 : m ≤ 11) (hl : 0 ≤ leap) :
    0 ≤ monthStart m leap ∧ monthStart m leap + monthLength m leap ≤ 365 + leap := by
  interval_cases m <;> simp [monthStart, monthLength] <;> omega

theorem monthStart_succ (m leap : ℤ) (hm0 : 0 ≤ m) (hm1 : m ≤ 10) :
    monthStart (m + 1) leap = monthStart m leap + monthLength m leap := by
  interval_cases m <;> simp [monthStart, monthLength] <;> omega

theorem monthLength_bounds (m leap : ℤ) (hl0 : 0 ≤ leap) (hl1 : leap ≤ 1) :
    28 ≤ monthLength m leap ∧ monthLength m leap ≤ 31 := by
  unfold monthLength
  split_ifs <;> omega

theorem monthFromDayWithinYear_spec (m leap k : ℤ) (hm0 : 0 ≤ m) (hm1 : m ≤ 11)
    (hl : leap = 0 ∨ leap = 1) (hk0 : 0 ≤ k) (hk1 : k < monthLength m leap) :
    monthFromDayWithinYear (monthStart m leap + k) leap = m := by
  unfold monthFromDayWithinYear
  interval_cases m <;> simp only [monthStart, monthLength] at hk1 ⊢ <;> norm_num at hk1 ⊢ <;>
    (repeat (first | rw [if_pos (by omega)] | rw [if_neg (by omega)])) <;>
    (try (intros; omega))

theorem year_month_of_day (y m k : ℤ) (hm0 : 0 ≤ m) (hm1 : m ≤ 11) (hk0 : 0 ≤ k)
    (hk1 : k < monthLength m (inLeapYear y)) :
    yearFromDay (dayFromYear y + monthStart m (inLeapYear y) + k) = y ∧
      monthFromDay (dayFromYear y + monthStart m (inLeapYear y) + k) = m := by
  have hl := inLeapYear_cases y
  have hs := dayFromYear_succ y
  have hd := daysInYear_eq y
  have hb := monthStart_bounds m (inLeapYear y) hm0 hm1 (by omega)
  have hyear : yearFromDay (dayFromYear y + monthStart m (inLeapYear y) + k) = y := by
    apply yearFromDay_spec <;> omega
  refine ⟨hyear, ?_⟩
  unfold monthFromDay
  rw [hyear]
  have e : dayFromYear y + monthStart m (inLeapYear y) + k - dayFromYear y =
      monthStart m (inLeapYear y) + k := by ring
  rw [e]
  exact monthFromDayWithinYear_spec m _ k hm0 hm1 hl hk0 hk1

theorem firstDayOfIndex_succ (n : ℤ) :
    firstDayOfIndex (n + 1) =
      firstDayOfIndex n + monthLength (n % 12) (inLeapYear (n / 12)) := by
  unfold firstDayOfIndex
  by_cases h : n % 12 = 11
  · have e1 : (n + 1) / 12 = n / 12 + 1 := by omega
    have e2 : (n + 1) % 12 = 0 := by omega
    rw [e1, e2, h, dayFromYear_succ, daysInYear_eq]
    simp [monthStart, monthLength]
    ring
  · have e1 : (n + 1) / 12 = n / 12 := by omega
    have e2 : (n + 1) % 12 = n % 12 + 1 := by omega
    rw [e1, e2, monthStart_succ _ _ (by omega) (by omega)]
    ring

theorem year_month_of_index (n k : ℤ) (hk0 : 0 ≤ k)
    (hk1 : k < monthLength (n % 12) (inLeapYear (n / 12))) :
    yearFromDay (firstDayOfIndex n + k) = n / 12 ∧
      monthFromDay (firstDayOfIndex n + k) = n % 12 :=
  year_month_of_day (n / 12) (n % 12) k (by omega) (by omega) hk0 hk1

theorem year_month_before_index (n : ℤ) :
    yearFromDay (firstDayOfIndex n - 1) = (n - 1) / 12 ∧
      monthFromDay (firstDayOfIndex n - 1) = (n - 1) % 12 := by
  have h := firstDayOfIndex_succ (n - 1)
  have hl := inLeapYear_cases ((n - 1) / 12)
  have hb := monthLength_bounds ((n - 1) % 12) (inLeapYear ((n - 1) / 12)) (by omega) (by omega)
  have e : n - 1 + 1 = n := by ring
  rw [e] at h
  have e2 : firstDayOfIndex n - 1 = firstDayOfIndex (n - 1) +
      (monthLength ((n - 1) % 12) (inLeapYear ((n - 1) / 12)) - 1) := by omega
  rw [e2]
  exact year_month_of_index (n - 1) _ (by omega) (by omega)

theorem makeDay_first (year month : ℤ) :
    makeDay year month 1 = firstDayOfIndex (12 * year + month) := by
  unfold makeDay firstDayOfIndex
  have e1 : (12 * year + month) / 12 = year + month / 12 := by omega
  have e2 : (12 * year + month) % 12 = month % 12 := by omega
  rw [e1, e2]
  ring

theorem isoYearMonth_eq (t : ℤ) :
    isoYearMonth t = ymLabel (yearFromDay (day t)) (monthFromDay (day t)) := rfl

/-- The label of the first of a month at local midnight: the month itself when
the zone is not ahead of UTC then, the month before when it is. -/
theorem isoYearMonth_newDateLocal (tzOffset : ℤ → ℤ) (year month : ℤ)
    (h0 : -1440 ≤ tzOffset (makeDay (makeFullYear year) month 1 * msPerDay))
    (h1 : tzOffset (makeDay (makeFullYear year) month 1 * msPerDay) ≤ 1440) :
    isoYearMonth (newDateLocal tzOffset year month 1) =
      ymLabel
        ((12 * makeFullYear year + month -
          (if 0 < tzOffset (makeDay (makeFullYear year) month 1 * msPerDay) then 1 else 0)) / 12)
        ((12 * makeFullYear year + month -
          (if 0 < tzOffset (makeDay (makeFullYear year) month 1 * msPerDay) then 1 else 0)) % 12)
      := by
  rw [isoYearMonth_eq]
  generalize hoff : tzOffset (makeDay (makeFullYear year) month 1 * msPerDay) = off at *
  have hday : day (newDateLocal tzOffset year month 1) =
      firstDayOfIndex (12 * makeFullYear year + month) + (-(off * 60000)) / 86400000 := by
    unfold day newDateLocal
    simp only [hoff]
    unfold msPerDay
    rw [makeDay_first]
    omega
  rw [hday]
  have hl := inLeapYear_cases ((12 * makeFullYear year + month) / 12)
  have hb := monthLength_bounds ((12 * makeFullYear year + month) % 12)
    (inLeapYear ((12 * makeFullYear year + month) / 12)) (by omega) (by omega)
  by_cases hpos : 0 < off
  · have hk : (-(off * 60000)) / 86400000 = -1 := by omega
    rw [hk, if_pos hpos]
    have := year_month_before_index (12 * makeFullYear year + month)
    have e : firstDayOfIndex (12 * makeFullYear year + month) + -1 =
        firstDayOfIndex (12 * makeFullYear year + month) - 1 := by ring
    rw [e, this.1, this.2]
  · rw [if_neg hpos, sub_zero]
    have hk : 0 ≤ (-(off * 60000)) / 86400000 ∧ (-(off * 60000)) / 86400000 ≤ 1 := by
      omega
    have := year_month_of_index (12 * makeFullYear year + month)
      ((-(off * 60000)) / 86400000) hk.1 (by omega)
    rw [this.1, this.2]

/-- The labels of `getLast6MonthsLabels` in a zone that stays within a day of
UTC and is never ahead of it: the six months ending at the current local
month. -/
theorem getLast6MonthsLabels_not_ahead (today : Clock)
    (h0 : ∀ t, -1440 ≤ today.tzOffset t) (h1 : ∀ t, today.tzOffset t ≤ 0) :
    AdminPerformance.getLast6MonthsLabels today =
      [5, 4, 3, 2, 1, 0].map fun (i : ℤ) =>
        ymLabel ((12 * makeFullYear today.fullYear + ((today.month : ℕ) : ℤ) - i) / 12)
          ((12 * makeFullYear today.fullYear + ((today.month : ℕ) : ℤ) - i) % 12) := by
  unfold AdminPerformance.getLast6MonthsLabels
  apply List.map_congr_left
  intro i _
  rw [isoYearMonth_newDateLocal _ _ _ (h0 _) (le_trans (h1 _) (by norm_num)),
    if_neg (not_lt.mpr (h1 _))]
  have e : 12 * makeFullYear today.fullYear + (((today.month : ℕ) : ℤ) - i) - 0 =
      12 * makeFullYear today.fullYear + ((today.month : ℕ) : ℤ) - i := by ring
  rw [e]

/-- The labels of `getLast6MonthsLabels` in a zone that stays within a day of
UTC and is always ahead of it: the six months ending one month before the
current local month. -/
theorem getLast6MonthsLabels_always_ahead (today : Clock)
    (h0 : ∀ t, 0 < today.tzOffset t) (h1 : ∀ t, today.tzOffset t ≤ 1440) :
    AdminPerformance.getLast6MonthsLabels today =
      [5, 4, 3, 2, 1, 0].map fun (i : ℤ) =>
        ymLabel ((12 * makeFullYear today.fullYear + ((today.month : ℕ) : ℤ) - 1 - i) / 12)
          ((12 * makeFullYear today.fullYear + ((today.month : ℕ) : ℤ) - 1 - i) % 12) := by
  unfold AdminPerformance.getLast6MonthsLabels
  apply List.map_congr_left
  intro i _
  rw [isoYearMonth_newDateLocal _ _ _ (le_trans (by norm_num) (le_of_lt (h0 _))) (h1 _),
    if_pos (h0 _)]
  have e : 12 * makeFullYear today.fullYear + (((today.month : ℕ) : ℤ) - i) - 1 =
      12 * makeFullYear today.fullYear + ((today.month : ℕ) : ℤ) - 1 - i := by ring
  rw [e]

/-! ## Month labels are distinct -/

theorem padDigits_length (width n : ℕ) : (padDigits width n).length = width := by
  induction width generalizing n with
  | zero => rfl
  | succ w ih => simp [padDigits, ih]

theorem digitChar_inj (a b : ℕ) (h : digitChar a = digitChar b) : a % 10 = b % 10 := by
  unfold digitChar at h
  have ha : a % 10 < 10 := Nat.mod_lt _ (by norm_num)
  have hb : b % 10 < 10 := Nat.mod_lt _ (by norm_num)
  generalize a % 10 = x at *
  generalize b % 10 = y at *
  interval_cases x <;> interval_cases y <;> first | rfl | (exfalso; revert h; decide)

theorem padDigits_inj (width a b : ℕ) (ha : a < 10 ^ width) (hb : b < 10 ^ width)
    (h : padDigits width a = padDigits width b) : a = b := by
  induction width generalizing a b with
  | zero =>
    simp at ha hb
    omega
  | succ w ih =>
    simp only [padDigits] at h
    have hlen : (padDigits w (a / 10)).length = (padDigits w (b / 10)).length := by
      rw [padDigits_length, padDigits_length]
    obtain ⟨h1, h2⟩ := List.append_inj h hlen
    have hd : a % 10 = b % 10 := digitChar_inj a b (by simpa using h2)
    have hq : a / 10 = b / 10 := by
      apply ih _ _ _ _ h1
      · rw [pow_succ] at ha
        omega
      · rw [pow_succ] at hb
        omega
    omega

theorem ymLabel_inj (y m y2 m2 : ℤ) (hy0 : 0 ≤ y) (hy1 : y ≤ 9999) (hm0 : 0 ≤ m) (hm1 : m ≤ 11)
    (hz0 : 0 ≤ y2) (hz1 : y2 ≤ 9999) (hn0 : 0 ≤ m2) (hn1 : m2 ≤ 11)
    (h : ymLabel y m = ymLabel y2 m2) : y = y2 ∧ m = m2 := by
  unfold ymLabel at h
  rw [if_pos ⟨hy0, hy1⟩, if_pos ⟨hz0, hz1⟩] at h
  have hl : padDigits 4 y.toNat ++ '-' :: padDigits 2 (m + 1).toNat =
      padDigits 4 y2.toNat ++ '-' :: padDigits 2 (m2 + 1).toNat := congrArg String.data h
  have hlen : (padDigits 4 y.toNat).length = (padDigits 4 y2.toNat).length := by
    rw [padDigits_length, padDigits_length]
  obtain ⟨h1, h2⟩ := List.append_inj hl hlen
  have h3 : padDigits 2 (m + 1).toNat = padDigits 2 (m2 + 1).toNat := (List.cons.inj h2).2
  have e1 := padDigits_inj 4 y.toNat y2.toNat (by norm_num; omega) (by norm_num; omega) h1
  have e2 := padDigits_inj 2 (m + 1).toNat (m2 + 1).toNat (by norm_num; omega)
    (by norm_num; omega) h3
  omega

theorem ymLabel_index_nodup (n : ℤ) (h0 : 12 * 99 ≤ n) (h1 : n < 12 * 10000) :
    ([5, 4, 3, 2, 1, 0].map fun (i : ℤ) => ymLabel ((n - i) / 12) ((n - i) % 12)).Nodup := by
  apply List.Nodup.map_on
  · intro i hi j hj hij
    simp only [List.mem_cons, List.mem_singleton, List.not_mem_nil, or_false] at hi hj
    have := ymLabel_inj _ _ _ _ (by omega) (by omega) (by omega) (by omega) (by omega) (by omega)
      (by omega) (by omega) hij
    omega
  · decide

/-- The labels of `getLast6MonthsLabels` are pairwise distinct when the local
year has at most four digits and the zone stays within a day of UTC, on one
side of it: never ahead, or always ahead. -/
theorem getLast6MonthsLabels_nodup (today : Clock) (hy0 : 0 ≤ today.fullYear)
    (hy1 : today.fullYear ≤ 9999)
    (hz : (∀ t, -1440 ≤ today.tzOffset t ∧ today.tzOffset t ≤ 0) ∨
      (∀ t, 0 < today.tzOffset t ∧ today.tzOffset t ≤ 1440)) :
    (AdminPerformance.getLast6MonthsLabels today).Nodup := by
  have hm : ((today.month : ℕ) : ℤ) < 12 := by exact_mod_cast today.month.isLt
  have hm0 : (0 : ℤ) ≤ ((today.month : ℕ) : ℤ) := Int.natCast_nonneg _
  have hY : 100 ≤ makeFullYear today.fullYear ∧ makeFullYear today.fullYear ≤ 9999 := by
    unfold makeFullYear
    split_ifs <;> omega
  rcases hz with hz | hz
  · rw [getLast6MonthsLabels_not_ahead today (fun t => (hz t).1) (fun t => (hz t).2)]
    exact ymLabel_index_nodup _ (by omega) (by omega)
  · rw [getLast6MonthsLabels_always_ahead today (fun t => (hz t).1) (fun t => (hz t).2)]
    exact ymLabel_index_nodup _ (by omega) (by omega)

/-! ## The trend map -/

open AdminPerformance in
theorem getProp_setProp (m : TrendMap) (k k2 : String) (v : JsNum) :
    getProp (setProp m k v) k2 = if k = k2 then some v else getProp m k2 := by
  induction m with
  | nil => simp [setProp, getProp]
  | cons p rest ih =>
    by_cases hp : p.1 = k
    · by_cases hk : k = k2
      · simp [setProp, getProp, hp, hk]
      · have hp2 : ¬ p.1 = k2 := by rw [hp]; exact hk
        simp [setProp, getProp, hp, hk, hp2]
    · by_cases hp2 : p.1 = k2
      · have hk : ¬ k = k2 := by rw [← hp2]; exact fun h => hp h.symm
        simp only [setProp, if_neg hp, getProp, if_pos hp2, if_neg hk]
      · simp only [setProp, if_neg hp, getProp, if_neg hp2, ih]

open AdminPerformance in
theorem hasOwnProperty_eq (m : TrendMap) (k : String) :
    hasOwnProperty m k = (getProp m k).isSome := by
  induction m with
  | nil => simp [hasOwnProperty, getProp]
  | cons p rest ih =>
    by_cases hp : p.1 = k
    · simp [hasOwnProperty, getProp, hp]
    · have := ih
      simp only [hasOwnProperty] at this
      simp [hasOwnProperty, getProp, hp, this]

open AdminPerformance in
theorem getProp_init (labels : List String) (m : TrendMap) (k : String) :
    getProp (labels.foldl (fun acc label => setProp acc label 0) m) k =
      if k ∈ labels then some 0 else getProp m k := by
  induction labels generalizing m with
  | nil => simp
  | cons l ls ih =>
    simp only [List.foldl_cons, ih, getProp_setProp, List.mem_cons]
    by_cases h1 : k ∈ ls
    · simp [h1]
    · by_cases h2 : l = k
      · simp [h1, h2]
      · have h3 : ¬ k = l := fun h => h2 h.symm
        simp [h1, h2, h3]

open AdminPerformance in
theorem getProp_addDeal (dateParse : String → Option ℤ) (m : TrendMap) (d : Deal) (k : String) :
    getProp (addDeal dateParse m d) k =
      (getProp m k).map fun x =>
        x + (if yyyyMM dateParse d = some k then parseFloatOrZero d.incentive else 0) := by
  unfold addDeal
  cases hkey : yyyyMM dateParse d with
  | none => simp
  | some k0 =>
    simp only [hasOwnProperty_eq]
    by_cases hown : (getProp m k0).isSome = true
    · rw [if_pos hown, getProp_setProp]
      by_cases hk : k0 = k
      · subst hk
        obtain ⟨x, hx⟩ := Option.isSome_iff_exists.mp hown
        simp [hx]
      · have hk2 : ¬ some k0 = some k := fun h => hk (Option.some.inj h)
        rw [if_neg hk, if_neg hk2]
        cases getProp m k <;> simp
    · rw [if_neg hown]
      by_cases hk : k0 = k
      · subst hk
        simp only [Bool.not_eq_true, Option.not_isSome, Option.isNone_iff_eq_none] at hown
        simp [hown]
      · have hk2 : ¬ some k0 = some k := fun h => hk (Option.some.inj h)
        rw [if_neg hk2]
        cases getProp m k <;> simp

open AdminPerformance in
theorem getProp_foldl_addDeal (dateParse : String → Option ℤ) (ds : List Deal) (m : TrendMap)
    (k : String) :
    getProp (ds.foldl (addDeal dateParse) m) k =
      (getProp m k).map fun x =>
        x + (ds.map fun d =>
          if yyyyMM dateParse d = some k then parseFloatOrZero d.incentive else 0).sum := by
  induction ds generalizing m with
  | nil =>
    simp only [List.foldl_nil, List.map_nil, List.sum_nil, add_zero]
    cases getProp m k <;> rfl
  | cons d rest ih =>
    simp only [List.foldl_cons, ih, getProp_addDeal, List.map_cons, List.sum_cons]
    cases getProp m k <;> simp [add_assoc]

open AdminPerformance in
theorem getProp_trendMap (dateParse : String → Option ℤ) (labels : List String)
    (deals : List Deal) (m : String) (hm : m ∈ labels) :
    getProp (trendMap dateParse labels deals) m = some (bucketSum dateParse deals m) := by
  unfold trendMap bucketSum approved
  rw [getProp_foldl_addDeal, getProp_init, if_pos hm]
  simp only [Option.map_some', zero_add]
  rw [sum_map_filter]
  congr 2
  apply List.map_congr_left
  intro d _
  by_cases h1 : hasStatus "approved" d = true <;>
    by_cases h2 : yyyyMM dateParse d = some m <;> simp [h1, h2]

open AdminPerformance in
theorem chartData_eq (dateParse : String → Option ℤ) (labels : List String)
    (deals : List Deal) :
    chartData dateParse labels deals =
      labels.map fun m => { month := m, incentiveSum := some (bucketSum dateParse deals m) } := by
  unfold chartData
  apply List.map_congr_left
  intro m hm
  rw [getProp_trendMap dateParse labels deals m hm]

/-! ## Order facts on numbers -/

theorem JsNum.add_def (a b : JsNum) : a + b = JsNum.add a b := rfl

theorem JsNum.zero_def : (0 : JsNum) = JsNum.fin 0 := rfl

theorem JsNum.nonneg_zero : (0 : JsNum).nonneg := by
  rw [JsNum.zero_def]
  exact le_refl (0 : ℚ)

theorem JsNum.nonneg_add (a b : JsNum) (ha : a.nonneg) (hb : b.nonneg) : (a + b).nonneg := by
  rw [JsNum.add_def]
  rcases a with _ | a | a <;> rcases b with _ | b | b <;>
    simp_all [JsNum.add, JsNum.nonneg] <;> linarith

theorem JsNum.le_add_both (a b x : JsNum) (hab : JsNum.le a b) (ha : a.nonneg) (hb : b.nonneg)
    (hx : x.nonneg) : JsNum.le (x + a) (x + b) := by
  rw [JsNum.add_def, JsNum.add_def]
  rcases a with _ | a | a <;> rcases b with _ | b | b <;> rcases x with _ | x | x <;>
    simp_all [JsNum.add, JsNum.nonneg, JsNum.le]

theorem JsNum.le_add_left (a b x : JsNum) (hab : JsNum.le a b) (ha : a.nonneg) (hb : b.nonneg)
    (hx : x.nonneg) : JsNum.le (0 + a) (x + b) := by
  rw [JsNum.add_def, JsNum.add_def, JsNum.zero_def]
  rcases a with _ | a | a <;> rcases b with _ | b | b <;> rcases x with _ | x | x <;>
    simp_all [JsNum.add, JsNum.nonneg, JsNum.le] <;> linarith

theorem sum_le_sum_of_part {α : Type} (f g : α → JsNum) (l : List α)
    (h : ∀ d ∈ l, (g d).nonneg ∧ (f d = g d ∨ f d = 0)) :
    (l.map f).sum.nonneg ∧ (l.map g).sum.nonneg ∧ JsNum.le (l.map f).sum (l.map g).sum := by
  induction l with
  | nil =>
    simp only [List.map_nil, List.sum_nil]
    exact ⟨JsNum.nonneg_zero, JsNum.nonneg_zero, le_refl (0 : ℚ)⟩
  | cons x xs ih =>
    obtain ⟨i1, i2, i3⟩ := ih fun d hd => h d (List.mem_cons_of_mem _ hd)
    obtain ⟨hg, hf⟩ := h x (List.mem_cons_self _ _)
    simp only [List.map_cons, List.sum_cons]
    rcases hf with hf | hf
    · rw [hf]
      exact ⟨JsNum.nonneg_add _ _ hg i1, JsNum.nonneg_add _ _ hg i2,
        JsNum.le_add_both _ _ _ i3 i1 i2 hg⟩
    · rw [hf]
      exact ⟨JsNum.nonneg_add _ _ JsNum.nonneg_zero i1, JsNum.nonneg_add _ _ hg i2,
        JsNum.le_add_left _ _ _ i3 i1 i2 hg⟩

theorem sum_nonneg_of_nonneg {α : Type} (f : α → JsNum) (l : List α)
    (h : ∀ d ∈ l, (f d).nonneg) : (l.map f).sum.nonneg :=
  (sum_le_sum_of_part f f l fun d hd => ⟨h d hd, Or.inl rfl⟩).1

theorem sum_map_ite_eq_of_nodup {M : Type} [AddCommMonoid M] (l : List String) (hnd : l.Nodup)
    (k : String) (x : M) :
    (l.map fun m => if k = m then x else 0).sum = if k ∈ l then x else 0 := by
  induction l with
  | nil => simp
  | cons a as ih =>
    have hnd2 := List.nodup_cons.mp hnd
    simp only [List.map_cons, List.sum_cons, ih hnd2.2, List.mem_cons]
    by_cases h1 : k = a
    · have h2 : k ∉ as := by rw [h1]; exact hnd2.1
      simp [h1, hnd2.1]
    · simp [h1]

open AdminPerformance in
theorem sum_bucketSum (dateParse : String → Option ℤ) (labels : List String)
    (hnd : labels.Nodup) (deals : List Deal) :
    (labels.map (bucketSum dateParse deals)).sum =
      (deals.map fun d =>
        if hasStatus "approved" d = true ∧ inWindow dateParse labels d = true then
          parseFloatOrZero d.incentive
        else 0).sum := by
  induction deals with
  | nil =>
    rw [show labels.map (bucketSum dateParse []) = labels.map (fun _ => (0 : JsNum)) from
      List.map_congr_left (fun m _ => by simp [bucketSum])]
    simp
  | cons d ds ih =>
    have hstep : (labels.map (bucketSum dateParse (d :: ds))) =
        labels.map fun m =>
          (if hasStatus "approved" d = true ∧ yyyyMM dateParse d = some m then
            parseFloatOrZero d.incentive else 0) + bucketSum dateParse ds m := by
      apply List.map_congr_left
      intro m _
      simp [bucketSum]
    rw [hstep, List.sum_map_add, ih, List.map_cons, List.sum_cons]
    congr 1
    by_cases hA : hasStatus "approved" d = true
    · cases hkey : yyyyMM dateParse d with
      | none => simp [inWindow, hkey]
      | some k =>
        have := sum_map_ite_eq_of_nodup labels hnd k (parseFloatOrZero d.incentive)
        simp only [hA, true_and, inWindow, hkey, Option.some.injEq]
        simpa using this
    · simp [hA]

/-! ## The monthly trend -/

/-- C7, failing input: in November 2026, in a zone five and a half hours ahead
of UTC, `getLast6MonthsLabels` returns May to October 2026; the last label is
the month before the current local month. -/
theorem getLast6MonthsLabels_ahead_of_utc :
    AdminPerformance.getLast6MonthsLabels november2026Ahead =
      ["2026-05", "2026-06", "2026-07", "2026-08", "2026-09", "2026-10"] := by
  decide

/-- C8: every entry of `monthlyTrend` carries the sum of `parseFloat(incentive)
|| 0` over the approved deals whose effective date parses to the entry's UTC
year-month; there is one entry per label, in label order; the sum of a month
that no approved deal falls in is 0; and dropping the deals whose effective
date is missing or does not parse changes no entry. -/
theorem monthlyTrend_entries (dateParse : String → Option ℤ) (today : Clock)
    (deals : List Deal) :
    (AdminPerformance.data dateParse today deals).monthlyTrend =
      (AdminPerformance.getLast6MonthsLabels today).map (fun m =>
        { month := m, incentiveSum := some (AdminPerformance.bucketSum dateParse deals m) }) ∧
    (AdminPerformance.data dateParse today deals).monthlyTrend.map (fun e => e.month) =
      AdminPerformance.getLast6MonthsLabels today ∧
    (∀ m, (∀ d ∈ deals, ¬ (hasStatus "approved" d = true ∧
        AdminPerformance.yyyyMM dateParse d = some m)) →
      AdminPerformance.bucketSum dateParse deals m = 0) ∧
    (AdminPerformance.data dateParse today
        (deals.filter fun d => (AdminPerformance.yyyyMM dateParse d).isSome)).monthlyTrend =
      (AdminPerformance.data dateParse today deals).monthlyTrend := by
  have h1 : (AdminPerformance.data dateParse today deals).monthlyTrend =
      (AdminPerformance.getLast6MonthsLabels today).map (fun m =>
        { month := m, incentiveSum := some (AdminPerformance.bucketSum dateParse deals m) }) :=
    chartData_eq dateParse _ deals
  refine ⟨h1, ?_, ?_, ?_⟩
  · rw [h1, List.map_map]
    simp [Function.comp_def]
  · intro m hm
    unfold AdminPerformance.bucketSum
    rw [show (deals.map fun d =>
        if hasStatus "approved" d = true ∧ AdminPerformance.yyyyMM dateParse d = some m then
          AdminPerformance.parseFloatOrZero d.incentive
        else 0) = deals.map (fun _ => (0 : JsNum)) from
      List.map_congr_left (fun d hd => if_neg (hm d hd))]
    simp
  · rw [h1]
    show AdminPerformance.chartData dateParse _ _ = _
    rw [chartData_eq]
    apply List.map_congr_left
    intro m _
    simp only [AdminPerformance.bucketSum, sum_map_filter]
    congr 3
    apply List.map_congr_left
    intro d _
    cases hkey : AdminPerformance.yyyyMM dateParse d <;> simp

/-- The sum of the trend when the six labels are pairwise distinct: the total of
`parseFloat(incentive) || 0` over the approved deals whose effective date falls
within the window of the labels; when the incentives of the approved deals are
non-negative, it is at most `totalIncentiveEarned`. -/
theorem monthlyTrend_sum_of_nodup (dateParse : String → Option ℤ) (today : Clock)
    (deals : List Deal) (hnd : (AdminPerformance.getLast6MonthsLabels today).Nodup) :
    ((AdminPerformance.data dateParse today deals).monthlyTrend.map
        fun e => e.incentiveSum.getD JsNum.nan).sum =
      (deals.map fun d =>
        if hasStatus "approved" d = true ∧
            AdminPerformance.inWindow dateParse (AdminPerformance.getLast6MonthsLabels today) d
              = true then
          AdminPerformance.parseFloatOrZero d.incentive
        else 0).sum ∧
    ((∀ d ∈ deals, hasStatus "approved" d = true →
        (AdminPerformance.parseFloatOrZero d.incentive).nonneg) →
      JsNum.le
        ((AdminPerformance.data dateParse today deals).monthlyTrend.map
          fun e => e.incentiveSum.getD JsNum.nan).sum
        (AdminPerformance.data dateParse today deals).totalIncentiveEarned) := by
  have hsum : ((AdminPerformance.data dateParse today deals).monthlyTrend.map
      fun e => e.incentiveSum.getD JsNum.nan).sum =
      (deals.map fun d =>
        if hasStatus "approved" d = true ∧
            AdminPerformance.inWindow dateParse (AdminPerformance.getLast6MonthsLabels today) d
              = true then
          AdminPerformance.parseFloatOrZero d.incentive
        else 0).sum := by
    rw [← sum_bucketSum dateParse _ hnd deals]
    show ((AdminPerformance.chartData dateParse _ _).map _).sum = _
    rw [chartData_eq, List.map_map]
    rfl
  refine ⟨hsum, ?_⟩
  intro hnn
  rw [hsum]
  have htot : (AdminPerformance.data dateParse today deals).totalIncentiveEarned =
      (deals.map fun d =>
        if hasStatus "approved" d = true then AdminPerformance.parseFloatOrZero d.incentive
        else 0).sum := by
    show AdminPerformance.totalInc deals = _
    unfold AdminPerformance.totalInc AdminPerformance.approved
    rw [foldl_add_eq_sum, zero_add, sum_map_filter]
  rw [htot]
  refine (sum_le_sum_of_part _ _ deals ?_).2.2
  intro d hd
  by_cases hA : hasStatus "approved" d = true
  · refine ⟨by simpa [hA] using hnn d hd hA, ?_⟩
    by_cases hW : AdminPerformance.inWindow dateParse
        (AdminPerformance.getLast6MonthsLabels today) d = true
    · left; simp [hA, hW]
    · right; simp [hA, hW]
  · refine ⟨by simpa [hA] using JsNum.nonneg_zero, ?_⟩
    left; simp [hA]

/-- The sum of the trend in a zone that stays on one side of UTC, for a local
year of at most four digits: the labels are distinct there, so the trend sums
to the window total. -/
theorem monthlyTrend_sum_one_sided_zone (dateParse : String → Option ℤ) (today : Clock)
    (deals : List Deal) (hy0 : 0 ≤ today.fullYear) (hy1 : today.fullYear ≤ 9999)
    (hz : (∀ t, -1440 ≤ today.tzOffset t ∧ today.tzOffset t ≤ 0) ∨
      (∀ t, 0 < today.tzOffset t ∧ today.tzOffset t ≤ 1440)) :
    ((AdminPerformance.data dateParse today deals).monthlyTrend.map
        fun e => e.incentiveSum.getD JsNum.nan).sum =
      (deals.map fun d =>
        if hasStatus "approved" d = true ∧
            AdminPerformance.inWindow dateParse (AdminPerformance.getLast6MonthsLabels today) d
              = true then
          AdminPerformance.parseFloatOrZero d.incentive
        else 0).sum :=
  (monthlyTrend_sum_of_nodup dateParse today deals
    (getLast6MonthsLabels_nodup today hy0 hy1 hz)).1

/-- C9, failing input: in April 2026 in Europe/London the labels are November
2025 to March 2026 and March 2026 again, so one approved deal of March with
incentive 100 is counted in two entries: the trend sums to 200, while the
incentive of the approved deals within the window, and `totalIncentiveEarned`,
are 100. -/
theorem monthlyTrend_counts_march_twice :
    AdminPerformance.getLast6MonthsLabels april2026London =
      ["2025-11", "2025-12", "2026-01", "2026-02", "2026-03", "2026-03"] ∧
    ((AdminPerformance.data AdminPerformance.isoDateParse april2026London
        marchDeals).monthlyTrend.map fun e => e.incentiveSum.getD JsNum.nan).sum
      = JsNum.fin 200 ∧
    (marchDeals.map fun d =>
        if hasStatus "approved" d = true ∧
            AdminPerformance.inWindow AdminPerformance.isoDateParse
              (AdminPerformance.getLast6MonthsLabels april2026London) d = true then
          AdminPerformance.parseFloatOrZero d.incentive
        else 0).sum = JsNum.fin 100 ∧
    (AdminPerformance.data AdminPerformance.isoDateParse april2026London
      marchDeals).totalIncentiveEarned = JsNum.fin 100 := by
  decide!

/-- C10, counterexample: an approved deal of November 2026 with incentive -100
puts -100 in the November entry of the trend. -/
theorem monthlyTrend_negative_entry :
    ¬ (∀ e ∈ (AdminPerformance.data AdminPerformance.isoDateParse november2026
        clawbackDeals).monthlyTrend, AdminPerformance.entryNonneg e) := by
  decide!

/-- C10, amended: when `parseFloat(incentive) || 0` is non-negative for every
approved deal, every entry of `monthlyTrend` has a numeric `incentiveSum` that
is greater than or equal to 0. -/
theorem monthlyTrend_nonneg (dateParse : String → Option ℤ) (today : Clock) (deals : List Deal)
    (h : ∀ d ∈ deals, hasStatus "approved" d = true →
      (AdminPerformance.parseFloatOrZero d.incentive).nonneg) :
    ∀ e ∈ (AdminPerformance.data dateParse today deals).monthlyTrend,
      AdminPerformance.entryNonneg e := by
  intro e he
  have h1 : (AdminPerformance.data dateParse today deals).monthlyTrend =
      (AdminPerformance.getLast6MonthsLabels today).map (fun m =>
        { month := m, incentiveSum := some (AdminPerformance.bucketSum dateParse deals m) }) :=
    chartData_eq dateParse _ deals
  rw [h1, List.mem_map] at he
  obtain ⟨m, _, rfl⟩ := he
  show (AdminPerformance.bucketSum dateParse deals m).nonneg
  unfold AdminPerformance.bucketSum
  apply sum_nonneg_of_nonneg
  intro d hd
  by_cases hA : hasStatus "approved" d = true ∧ AdminPerformance.yyyyMM dateParse d = some m
  · rw [if_pos hA]
    exact h d hd hA.1
  · rw [if_neg hA]
    exact JsNum.nonneg_zero

/-- C10, witness: the approved deals of `datedDeals` have non-negative
incentives, and every entry of their trend is non-negative. -/
theorem monthlyTrend_nonneg_witness :
    (∀ d ∈ datedDeals, hasStatus "approved" d = true →
      (AdminPerformance.parseFloatOrZero d.incentive).nonneg) ∧
    (∀ e ∈ (AdminPerformance.data AdminPerformance.isoDateParse november2026
      datedDeals).monthlyTrend, AdminPerformance.entryNonneg e) :=
  ⟨by decide!, monthlyTrend_nonneg AdminPerformance.isoDateParse november2026 datedDeals
    (by decide!)⟩

/-! ## Tiers -/

theorem getTier_name_fin (q : ℚ) :
    (AdminPerformance.getTier (JsNum.fin q)).name =
      if 5000000 ≤ q then "Diamond"
      else if 2500000 ≤ q then "Platinum"
      else if 1000000 ≤ q then "Gold"
      else "Silver" := by
  unfold AdminPerformance.getTier
  simp only [JsNum.le]
  split_ifs <;> rfl

/-- C11: for every finite revenue `q`, `getTier(q).name` is `Diamond` iff
`q >= 5000000`, `Platinum` iff `2500000 <= q < 5000000`, `Gold` iff
`1000000 <= q < 2500000` and `Silver` iff `q < 1000000`; `Infinity` is Diamond
and `-Infinity` is Silver; 1000000 is Gold and 999999 is Silver. -/
theorem getTier_thresholds (q : ℚ) :
    ((AdminPerformance.getTier (JsNum.fin q)).name = "Diamond" ↔ 5000000 ≤ q) ∧
    ((AdminPerformance.getTier (JsNum.fin q)).name = "Platinum" ↔
      2500000 ≤ q ∧ q < 5000000) ∧
    ((AdminPerformance.getTier (JsNum.fin q)).name = "Gold" ↔ 1000000 ≤ q ∧ q < 2500000) ∧
    ((AdminPerformance.getTier (JsNum.fin q)).name = "Silver" ↔ q < 1000000) ∧
    (AdminPerformance.getTier (JsNum.inf false)).name = "Diamond" ∧
    (AdminPerformance.getTier (JsNum.inf true)).name = "Silver" ∧
    (AdminPerformance.getTier (JsNum.fin 1000000)).name = "Gold" ∧
    (AdminPerformance.getTier (JsNum.fin 999999)).name = "Silver" := by
  have hne : ("Diamond" ≠ "Platinum") ∧ ("Diamond" ≠ "Gold") ∧ ("Diamond" ≠ "Silver") ∧
      ("Platinum" ≠ "Gold") ∧ ("Platinum" ≠ "Silver") ∧ ("Gold" ≠ "Silver") := by decide
  obtain ⟨n1, n2, n3, n4, n5, n6⟩ := hne
  refine ⟨?_, ?_, ?_, ?_, by decide!, by decide!, by decide!, by decide!⟩
  · rw [getTier_name_fin]
    split_ifs with h1 h2 h3
    · simp [h1]
    · simp [h1, n1.symm]
    · simp [h1, n2.symm]
    · simp [h1, n3.symm]
  · rw [getTier_name_fin]
    split_ifs with h1 h2 h3
    · simp [n1]; intro; linarith
    · simp [h2]; linarith
    · simp [n4.symm]; intro h; exact absurd h h2
    · simp [n5.symm]; intro h; exact absurd h h2
  · rw [getTier_name_fin]
    split_ifs with h1 h2 h3
    · simp [n2]; intro; linarith
    · simp [n4]; intro; linarith
    · simp [h3]; linarith
    · simp [n6.symm]; intro h; exact absurd h h3
  · rw [getTier_name_fin]
    split_ifs with h1 h2 h3
    · simp [n3]; linarith
    · simp [n5]; linarith
    · simp [n6]; linarith
    · simp; linarith

/-- C12: `getTier` is monotonic: when `a <= b` holds for two revenues, the tier
of `a` is at most the tier of `b` in the order Silver < Gold < Platinum <
Diamond. -/
theorem getTier_monotone (a b : JsNum) (h : JsNum.le a b) :
    AdminPerformance.tierRank (AdminPerformance.getTier a).name ≤
      AdminPerformance.tierRank (AdminPerformance.getTier b).name := by
  rcases a with _ | a | a <;> rcases b with _ | b | b <;>
    simp only [JsNum.le] at h
  · rw [getTier_name_fin, getTier_name_fin]
    split_ifs <;> first | decide | (exfalso; linarith)
  · subst h
    have : (AdminPerformance.getTier (JsNum.inf false)).name = "Diamond" := by decide!
    rw [this, getTier_name_fin]
    split_ifs <;> decide
  · subst h
    have : (AdminPerformance.getTier (JsNum.inf true)).name = "Silver" := by decide!
    rw [this]
    exact Nat.zero_le _
  · rcases h with h | h
    · subst h
      have : (AdminPerformance.getTier (JsNum.inf true)).name = "Silver" := by decide!
      rw [this]
      exact Nat.zero_le _
    · subst h
      have : (AdminPerformance.getTier (JsNum.inf false)).name = "Diamond" := by decide!
      rw [this]
      cases a <;> decide!

/-- C12, witness: 999999 <= 1000000, and Silver is at most Gold. -/
theorem getTier_monotone_witness :
    JsNum.le (JsNum.fin 999999) (JsNum.fin 1000000) ∧
    AdminPerformance.tierRank (AdminPerformance.getTier (JsNum.fin 999999)).name ≤
      AdminPerformance.tierRank (AdminPerformance.getTier (JsNum.fin 1000000)).name :=
  ⟨by decide!, getTier_monotone (JsNum.fin 999999) (JsNum.fin 1000000) (by decide!)⟩

/-! ## The statistics per user -/

open AdminDashboard in
theorem getStat_setStat (m : UserStats) (k k2 : String) (v : UserStat) :
    getStat (setStat m k v) k2 = if k = k2 then some v else getStat m k2 := by
  induction m with
  | nil => simp [setStat, getStat]
  | cons p rest ih =>
    by_cases hp : p.1 = k
    · by_cases hk : k = k2
      · simp [setStat, getStat, hp, hk]
      · have hp2 : ¬ p.1 = k2 := by rw [hp]; exact hk
        simp [setStat, getStat, hp, hk, hp2]
    · by_cases hp2 : p.1 = k2
      · have hk : ¬ k = k2 := by rw [← hp2]; exact fun h => hp h.symm
        simp only [setStat, if_neg hp, getStat, if_pos hp2, if_neg hk]
      · simp only [setStat, if_neg hp, getStat, if_neg hp2, ih]

open AdminDashboard in
theorem getStat_eq_none_iff (m : UserStats) (k : String) :
    getStat m k = none ↔ k ∉ m.map Prod.fst := by
  induction m with
  | nil => simp [getStat]
  | cons p rest ih =>
    by_cases hp : p.1 = k
    · simp [getStat, hp]
    · have hk : ¬ k = p.1 := fun h => hp h.symm
      simp [getStat, hp, hk, ih]

open AdminDashboard in
theorem keys_setStat (m : UserStats) (k : String) (v : UserStat) :
    (setStat m k v).map Prod.fst =
      if k ∈ m.map Prod.fst then m.map Prod.fst else m.map Prod.fst ++ [k] := by
  induction m with
  | nil => simp [setStat]
  | cons p rest ih =>
    by_cases hp : p.1 = k
    · simp [setStat, hp]
    · have hk : ¬ k = p.1 := fun h => hp h.symm
      simp only [setStat, if_neg hp, List.map_cons, ih, List.mem_cons, hk, false_or]
      split_ifs <;> simp

open AdminDashboard in
theorem mem_iff_getStat (m : UserStats) (hnd : (m.map Prod.fst).Nodup) (k : String)
    (v : UserStat) : (k, v) ∈ m ↔ getStat m k = some v := by
  induction m with
  | nil => simp [getStat]
  | cons p rest ih =>
    have hnd2 : p.1 ∉ rest.map Prod.fst ∧ (rest.map Prod.fst).Nodup :=
      List.nodup_cons.mp (by rw [← List.map_cons]; exact hnd)
    by_cases hp : p.1 = k
    · have hk : k ∉ rest.map Prod.fst := by rw [← hp]; exact hnd2.1
      have hnot : (k, v) ∉ rest := fun hmem => hk (List.mem_map_of_mem Prod.fst hmem)
      simp only [getStat, if_pos hp, List.mem_cons, hnot, or_false, Option.some.injEq]
      constructor
      · intro h; rw [← h]
      · intro h; rw [← h, ← hp]
    · have hne : ¬ (k, v) = p := fun h => hp (by rw [← h])
      simp only [getStat, if_neg hp, List.mem_cons, hne, false_or]
      exact ih hnd2.2

open AdminDashboard in
theorem applyDeals_applyDeals (numberToString : ℚ → String) (c : UserStat) (xs ys : List Deal) :
    applyDeals numberToString (applyDeals numberToString c xs) ys =
      applyDeals numberToString c (xs ++ ys) := by
  simp [applyDeals, List.foldl_append, Nat.add_assoc]

/-- What one more deal does to the entry of key `k`. -/
theorem getStat_addUserDeal (numberToString : ℚ → String) (m : AdminDashboard.UserStats)
    (d : Deal) (k : String) :
    AdminDashboard.getStat (AdminDashboard.addUserDeal numberToString m d) k =
      if AdminDashboard.userKey numberToString d = some k then
        some (AdminDashboard.applyDeals numberToString
          ((AdminDashboard.getStat m k).getD
            { name := d.user.bind fun u => u.name, incentive := Acc.num 0, deals := 0 }) [d])
      else AdminDashboard.getStat m k := by
  unfold AdminDashboard.addUserDeal AdminDashboard.userKey
  cases hu : d.user with
  | none => simp
  | some u =>
    simp only [Option.some_bind]
    by_cases hproto : AdminDashboard.propertyKey numberToString u.id ∈
        AdminDashboard.objectPrototypeNames
    · simp [hproto]
    · simp only [hproto, if_false, getStat_setStat, Option.some.injEq]
      by_cases hk : AdminDashboard.propertyKey numberToString u.id = k
      · subst hk
        simp [AdminDashboard.applyDeals]
      · simp [hk]

theorem getStat_foldl_addUserDeal (numberToString : ℚ → String) (ds : List Deal)
    (m : AdminDashboard.UserStats) (k : String) :
    AdminDashboard.getStat (ds.foldl (AdminDashboard.addUserDeal numberToString) m) k =
      match ds.filter fun d => decide (AdminDashboard.userKey numberToString d = some k) with
      | [] => AdminDashboard.getStat m k
      | d :: rest =>
        some (AdminDashboard.applyDeals numberToString
          ((AdminDashboard.getStat m k).getD
            { name := d.user.bind fun u => u.name, incentive := Acc.num 0, deals := 0 })
          (d :: rest)) := by
  induction ds generalizing m with
  | nil => simp
  | cons x xs ih =>
    rw [List.foldl_cons, ih, getStat_addUserDeal]
    by_cases hx : AdminDashboard.userKey numberToString x = some k
    · simp only [hx, if_true, List.filter_cons, decide_True, Option.getD_some]
      cases hrest : xs.filter fun d =>
          decide (AdminDashboard.userKey numberToString d = some k) with
      | nil => rfl
      | cons y ys =>
        simp only [applyDeals_applyDeals, List.singleton_append]
    · simp only [hx, if_false, List.filter_cons, decide_False, Bool.false_eq_true]

/-- The keys of `userStats` after more deals: each new key is created last. -/
theorem keys_foldl_addUserDeal (numberToString : ℚ → String) (ds : List Deal)
    (m : AdminDashboard.UserStats) :
    (ds.foldl (AdminDashboard.addUserDeal numberToString) m).map Prod.fst =
      (ds.filterMap (AdminDashboard.userKey numberToString)).foldl
        (fun acc k => if k ∈ acc then acc else acc ++ [k]) (m.map Prod.fst) := by
  induction ds generalizing m with
  | nil => simp
  | cons x xs ih =>
    rw [List.foldl_cons, ih]
    have hstep : (AdminDashboard.addUserDeal numberToString m x).map Prod.fst =
        match AdminDashboard.userKey numberToString x with
        | none => m.map Prod.fst
        | some k => if k ∈ m.map Prod.fst then m.map Prod.fst else m.map Prod.fst ++ [k] := by
      unfold AdminDashboard.addUserDeal AdminDashboard.userKey
      cases hu : x.user with
      | none => simp
      | some u =>
        simp only [Option.some_bind]
        by_cases hproto : AdminDashboard.propertyKey numberToString u.id ∈
            AdminDashboard.objectPrototypeNames
        · simp [hproto]
        · simp only [hproto, if_false, keys_setStat]
    rw [hstep]
    cases hkey : AdminDashboard.userKey numberToString x with
    | none => simp [List.filterMap_cons, hkey]
    | some k => simp [List.filterMap_cons, hkey]

theorem nodup_foldl_firstOccurrence (ks acc : List String) (h : acc.Nodup) :
    (ks.foldl (fun acc k => if k ∈ acc then acc else acc ++ [k]) acc).Nodup := by
  induction ks generalizing acc with
  | nil => simpa using h
  | cons k rest ih =>
    rw [List.foldl_cons]
    apply ih
    by_cases hk : k ∈ acc
    · simpa [hk] using h
    · rw [if_neg hk]
      exact List.Nodup.append h (List.nodup_singleton k) (by simpa using hk)

/-- The keys of `userStats` are the user keys of the approved deals in order of
first occurrence. -/
theorem keys_userStats (numberToString : ℚ → String) (deals : List Deal) :
    (AdminDashboard.userStats numberToString deals).map Prod.fst =
      firstOccurrences
        ((AdminDashboard.approvedDeals deals).filterMap
          (AdminDashboard.userKey numberToString)) := by
  unfold AdminDashboard.userStats firstOccurrences
  rw [keys_foldl_addUserDeal]
  rfl

theorem nodup_keys_userStats (numberToString : ℚ → String) (deals : List Deal) :
    ((AdminDashboard.userStats numberToString deals).map Prod.fst).Nodup := by
  rw [keys_userStats]
  exact nodup_foldl_firstOccurrence _ [] List.nodup_nil

theorem getStat_userStats (numberToString : ℚ → String) (deals : List Deal) (k : String) :
    AdminDashboard.getStat (AdminDashboard.userStats numberToString deals) k =
      AdminDashboard.statOfKey numberToString deals k := by
  unfold AdminDashboard.userStats AdminDashboard.statOfKey AdminDashboard.dealsOfKey
    AdminDashboard.approvedDeals
  rw [getStat_foldl_addUserDeal]
  cases (deals.filter fun d => hasStatus "approved" d).filter fun d =>
      decide (AdminDashboard.userKey numberToString d = some k) with
  | nil => rfl
  | cons d rest => rfl

/-! ## Ranking of the performers -/

theorem ownEntries_perm (m : AdminDashboard.UserStats) :
    (AdminDashboard.ownEntries m).Perm m := by
  unfold AdminDashboard.ownEntries
  exact ((List.perm_insertionSort _ _).append_right _).trans (List.filter_append_perm _ _)

theorem jsSort_perm {α : Type} (cmp : α → α → JsNum) (l : List α) : (jsSort cmp l).Perm l :=
  List.perm_insertionSort _ _

theorem mem_objectValues (m : AdminDashboard.UserStats) (e : AdminDashboard.UserStat) :
    e ∈ AdminDashboard.objectValues m ↔ ∃ k, (k, e) ∈ m := by
  unfold AdminDashboard.objectValues
  simp only [List.mem_map, Prod.exists, exists_eq_right, (ownEntries_perm m).mem_iff]

theorem mem_topPerformers (numberToString : ℚ → String) (deals : List Deal)
    (e : AdminDashboard.UserStat) (he : e ∈ AdminDashboard.topPerformers numberToString deals) :
    ∃ k, AdminDashboard.statOfKey numberToString deals k = some e := by
  unfold AdminDashboard.topPerformers at he
  have h1 := (jsSort_perm _ _).mem_iff.mp (List.mem_of_mem_take he)
  obtain ⟨k, hk⟩ := (mem_objectValues _ _).mp h1
  refine ⟨k, ?_⟩
  rw [← getStat_userStats]
  exact (mem_iff_getStat _ (nodup_keys_userStats numberToString deals) k e).mp hk

theorem statOfKey_numeric (numberToString : ℚ → String) (deals : List Deal)
    (h : ∀ d ∈ deals, hasStatus "approved" d = true → d.incentive.isNumberOrMissing = true)
    (k : String) (e : AdminDashboard.UserStat)
    (he : AdminDashboard.statOfKey numberToString deals k = some e) :
    e.incentive = Acc.num
        ((AdminDashboard.dealsOfKey numberToString deals k).map
          fun d => d.incentive.numberOrZero).sum ∧
      e.deals = (AdminDashboard.dealsOfKey numberToString deals k).length := by
  unfold AdminDashboard.statOfKey at he
  have hnum : ∀ d ∈ AdminDashboard.dealsOfKey numberToString deals k,
      d.incentive.isNumberOrMissing = true := by
    intro d hd
    unfold AdminDashboard.dealsOfKey at hd
    have hd2 := (List.mem_filter.mp hd).1
    exact h d (List.mem_filter.mp hd2).1 (List.mem_filter.mp hd2).2
  cases hds : AdminDashboard.dealsOfKey numberToString deals k with
  | nil => rw [hds] at he; cases he
  | cons d rest =>
    rw [hds] at he hnum
    have he2 := Option.some.inj he
    rw [← he2]
    constructor
    · show (d :: rest).foldl _ (Acc.num 0) = _
      rw [foldl_plusOrZero_numeric numberToString (fun d => d.incentive) _ _ hnum, zero_add]
    · show 0 + (d :: rest).length = _
      omega

theorem topPerformers_entry_numeric (numberToString : ℚ → String) (deals : List Deal)
    (h : ∀ d ∈ deals, hasStatus "approved" d = true → d.incentive.isNumberOrMissing = true)
    (e : AdminDashboard.UserStat)
    (he : e ∈ AdminDashboard.objectValues (AdminDashboard.userStats numberToString deals)) :
    e.incentive = Acc.num e.incentive.numberOrZero := by
  obtain ⟨k, hk⟩ := (mem_objectValues _ _).mp he
  have hs : AdminDashboard.statOfKey numberToString deals k = some e := by
    rw [← getStat_userStats]
    exact (mem_iff_getStat _ (nodup_keys_userStats numberToString deals) k e).mp hk
  rw [(statOfKey_numeric numberToString deals h k e hs).1]
  rfl

theorem compareIncentive_pos_false (a b : AdminDashboard.UserStat)
    (ha : a.incentive = Acc.num a.incentive.numberOrZero)
    (hb : b.incentive = Acc.num b.incentive.numberOrZero) :
    (AdminDashboard.compareIncentive a b).pos = false ↔
      a.incentive.numberOrZero ≥ b.incentive.numberOrZero := by
  unfold AdminDashboard.compareIncentive
  rw [ha, hb]
  simp only [Acc.toNumber, JsNum.sub, JsNum.neg, JsNum.add, JsNum.pos, Acc.numberOrZero,
    decide_eq_false_iff_not, not_lt, ge_iff_le]
  constructor <;> intro h <;> linarith

/-- The sorted list of all statistics is in non-increasing order of incentive
when the incentives are numbers. -/
theorem jsSort_objectValues_pairwise (numberToString : ℚ → String) (deals : List Deal)
    (h : ∀ d ∈ deals, hasStatus "approved" d = true → d.incentive.isNumberOrMissing = true) :
    (jsSort AdminDashboard.compareIncentive
        (AdminDashboard.objectValues (AdminDashboard.userStats numberToString deals))).Pairwise
      fun a b => a.incentive.numberOrZero ≥ b.incentive.numberOrZero := by
  have hmap := List.map_insertionSort
    (r := fun a b => (AdminDashboard.compareIncentive a b).pos = false)
    (s := fun (x y : ℚ) => x ≥ y)
    (fun e : AdminDashboard.UserStat => e.incentive.numberOrZero)
    (AdminDashboard.objectValues (AdminDashboard.userStats numberToString deals))
    (fun a ha b hb => compareIncentive_pos_false a b
      (topPerformers_entry_numeric numberToString deals h a ha)
      (topPerformers_entry_numeric numberToString deals h b hb))
  have hsorted := List.sorted_insertionSort (fun (x y : ℚ) => x ≥ y)
    ((AdminDashboard.objectValues (AdminDashboard.userStats numberToString deals)).map
      fun e => e.incentive.numberOrZero)
  rw [← hmap] at hsorted
  exact List.pairwise_map.mp hsorted

/-- C13: when the incentive of every approved deal is a number or missing,
`topPerformers` has at most 3 entries, their incentives are numbers in
non-increasing order, and the entries left out of the list (the rest of
`Object.values(userStats)`) have incentives no greater than that of any listed
entry. -/
theorem topPerformers_ranked (numberToString : ℚ → String) (deals : List Deal)
    (h : ∀ d ∈ deals, hasStatus "approved" d = true → d.incentive.isNumberOrMissing = true) :
    (AdminDashboard.topPerformers numberToString deals).length ≤ 3 ∧
    ((AdminDashboard.topPerformers numberToString deals).map
      fun e => e.incentive.numberOrZero).Sorted (· ≥ ·) ∧
    (∀ e ∈ AdminDashboard.topPerformers numberToString deals,
      e.incentive = Acc.num e.incentive.numberOrZero) ∧
    ∃ rest : List AdminDashboard.UserStat,
      (AdminDashboard.topPerformers numberToString deals ++ rest).Perm
        (AdminDashboard.objectValues (AdminDashboard.userStats numberToString deals)) ∧
      ∀ x ∈ AdminDashboard.topPerformers numberToString deals, ∀ y ∈ rest,
        y.incentive.numberOrZero ≤ x.incentive.numberOrZero := by
  have hp := jsSort_objectValues_pairwise numberToString deals h
  refine ⟨?_, ?_, ?_, ?_⟩
  · unfold AdminDashboard.topPerformers
    exact List.length_take_le _ _
  · unfold AdminDashboard.topPerformers
    exact List.pairwise_map.mpr (hp.sublist (List.take_sublist _ _))
  · intro e he
    unfold AdminDashboard.topPerformers at he
    exact topPerformers_entry_numeric numberToString deals h e
      ((jsSort_perm _ _).mem_iff.mp (List.mem_of_mem_take he))
  · refine ⟨(jsSort AdminDashboard.compareIncentive
      (AdminDashboard.objectValues (AdminDashboard.userStats numberToString deals))).drop 3,
      ?_, ?_⟩
    · unfold AdminDashboard.topPerformers
      rw [List.take_append_drop]
      exact jsSort_perm _ _
    · intro x hx y hy
      unfold AdminDashboard.topPerformers at hx
      exact List.Sorted.rel_of_mem_take_of_mem_drop hp hx hy

/-- C13, witness: on `rankingDeals` the three listed users earn 700, 400 and
100, and the two left out earn 100 and 50. -/
theorem topPerformers_ranked_witness :
    (∀ d ∈ rankingDeals, hasStatus "approved" d = true →
      d.incentive.isNumberOrMissing = true) ∧
    (AdminDashboard.topPerformers integerToString rankingDeals).map
        (fun e => (e.name, e.incentive, e.deals)) =
      [(some "Chand", Acc.num 700, 2), (some "Indu", Acc.num 400, 1),
        (some "Asha", Acc.num 100, 1)] ∧
    ((AdminDashboard.topPerformers integerToString rankingDeals).map
      fun e => e.incentive.numberOrZero).Sorted (· ≥ ·) :=
  ⟨by decide, by decide!,
    (topPerformers_ranked integerToString rankingDeals (by decide)).2.1⟩

theorem foldl_filter_of_skip {α β : Type} (f : β → α → β) (p : α → Bool) (l : List α) (m : β)
    (h : ∀ m d, p d = false → f m d = m) : (l.filter p).foldl f m = l.foldl f m := by
  induction l generalizing m with
  | nil => rfl
  | cons x xs ih =>
    cases hx : p x
    · rw [List.filter_cons_of_neg (by simp [hx]), List.foldl_cons, h m x hx, ih]
    · rw [List.filter_cons_of_pos hx, List.foldl_cons, List.foldl_cons, ih]

/-- C14: the keys of `userStats` are pairwise distinct; the entry of a key is
the statistic of the approved deals of the user with that key (the name on the
first of them, their incentives added in turn, their number); every entry of
`topPerformers` is the statistic of some key; dropping the deals that are not
approved or have no owning user leaves `userStats` unchanged; and when the
incentives of the approved deals are numbers or missing, the incentive of an
entry is the sum of the incentives of that user's approved deals. -/
theorem userStats_grouping (numberToString : ℚ → String) (deals : List Deal) :
    ((AdminDashboard.userStats numberToString deals).map Prod.fst).Nodup ∧
    (∀ k, AdminDashboard.getStat (AdminDashboard.userStats numberToString deals) k =
      AdminDashboard.statOfKey numberToString deals k) ∧
    (∀ e ∈ AdminDashboard.topPerformers numberToString deals,
      ∃ k, AdminDashboard.statOfKey numberToString deals k = some e) ∧
    AdminDashboard.userStats numberToString
        (deals.filter fun d => hasStatus "approved" d && d.user.isSome) =
      AdminDashboard.userStats numberToString deals ∧
    ((∀ d ∈ deals, hasStatus "approved" d = true → d.incentive.isNumberOrMissing = true) →
      ∀ k e, AdminDashboard.statOfKey numberToString deals k = some e →
        e.incentive = Acc.num
            ((AdminDashboard.dealsOfKey numberToString deals k).map
              fun d => d.incentive.numberOrZero).sum ∧
          e.deals = (AdminDashboard.dealsOfKey numberToString deals k).length) := by
  refine ⟨nodup_keys_userStats numberToString deals, getStat_userStats numberToString deals,
    mem_topPerformers numberToString deals, ?_,
    fun h k e he => statOfKey_numeric numberToString deals h k e he⟩
  unfold AdminDashboard.userStats AdminDashboard.approvedDeals
  rw [List.filter_filter]
  have e1 : (deals.filter fun a =>
      hasStatus "approved" a && (hasStatus "approved" a && a.user.isSome)) =
      (deals.filter fun d => hasStatus "approved" d).filter fun d => d.user.isSome := by
    rw [List.filter_filter]
    apply List.filter_congr
    intro d _
    cases hasStatus "approved" d <;> cases d.user.isSome <;> rfl
  rw [e1]
  apply foldl_filter_of_skip
  intro m d hd
  unfold AdminDashboard.addUserDeal
  cases hu : d.user with
  | none => rfl
  | some u => rw [hu] at hd; simp at hd

/-- C15, counterexample: user 2 has the first approved deal and user 1 the
second, both with incentive 100, and `topPerformers` lists user 1 before user
2. -/
theorem topPerformers_tie_by_id :
    tieDeals.map (fun d => d.user.bind fun u => u.name) = [some "Bina", some "Asha"] ∧
    (AdminDashboard.topPerformers integerToString tieDeals).map
        (fun e => (e.name, e.incentive)) =
      [(some "Asha", Acc.num 100), (some "Bina", Acc.num 100)] ∧
    (AdminDashboard.topPerformers integerToString tieDeals).map (fun e => e.name) ≠
      [some "Bina", some "Asha"] := by
  decide!

/-- C15, amended: when the incentives of the approved deals are numbers or
missing, the entries of `topPerformers` with one and the same incentive stand
in the order `Object.values(userStats)` lists them; there the entries whose key
is an array index come first, in ascending order of the index, and the other
entries follow in order of creation; and the keys are created in the order in
which the users' first approved deals occur. -/
theorem topPerformers_tie_order (numberToString : ℚ → String) (deals : List Deal)
    (h : ∀ d ∈ deals, hasStatus "approved" d = true → d.incentive.isNumberOrMissing = true) :
    (∀ x : ℚ,
      ((AdminDashboard.topPerformers numberToString deals).filter
          fun e => decide (e.incentive.numberOrZero = x)).Sublist
        ((AdminDashboard.objectValues (AdminDashboard.userStats numberToString deals)).filter
          fun e => decide (e.incentive.numberOrZero = x))) ∧
    (∃ indexed named : AdminDashboard.UserStats,
      AdminDashboard.objectValues (AdminDashboard.userStats numberToString deals) =
        (indexed ++ named).map (fun p => p.2) ∧
      indexed.Perm ((AdminDashboard.userStats numberToString deals).filter
        fun p => (AdminDashboard.arrayIndex p.1).isSome) ∧
      (indexed.map fun p => (AdminDashboard.arrayIndex p.1).getD 0).Sorted (· ≤ ·) ∧
      named = (AdminDashboard.userStats numberToString deals).filter
        fun p => !(AdminDashboard.arrayIndex p.1).isSome) ∧
    (AdminDashboard.userStats numberToString deals).map Prod.fst =
      firstOccurrences ((AdminDashboard.approvedDeals deals).filterMap
        (AdminDashboard.userKey numberToString)) := by
  refine ⟨?_, ?_, keys_userStats numberToString deals⟩
  · intro x
    unfold AdminDashboard.topPerformers
    have hnum := topPerformers_entry_numeric numberToString deals h
    generalize AdminDashboard.objectValues (AdminDashboard.userStats numberToString deals)
      = all at hnum ⊢
    have hc : (all.filter fun e => decide (e.incentive.numberOrZero = x)).Pairwise
        fun a b => (AdminDashboard.compareIncentive a b).pos = false := by
      rw [List.pairwise_iff_forall_sublist]
      intro a b hab
      have ha : a ∈ all.filter fun e => decide (e.incentive.numberOrZero = x) :=
        hab.subset (by simp)
      have hb : b ∈ all.filter fun e => decide (e.incentive.numberOrZero = x) :=
        hab.subset (by simp)
      rw [List.mem_filter] at ha hb
      rw [compareIncentive_pos_false a b (hnum a ha.1) (hnum b hb.1)]
      have e1 : a.incentive.numberOrZero = x := by simpa using ha.2
      have e2 : b.incentive.numberOrZero = x := by simpa using hb.2
      rw [e1, e2]
    have hsub : (all.filter fun e => decide (e.incentive.numberOrZero = x)).Sublist
        (jsSort AdminDashboard.compareIncentive all) :=
      List.sublist_insertionSort hc (List.filter_sublist _)
    have hsub2 := hsub.filter fun e => decide (e.incentive.numberOrZero = x)
    rw [List.filter_filter] at hsub2
    simp only [Bool.and_self] at hsub2
    have hlen : ((jsSort AdminDashboard.compareIncentive all).filter
        fun e => decide (e.incentive.numberOrZero = x)).length =
        (all.filter fun e => decide (e.incentive.numberOrZero = x)).length :=
      ((jsSort_perm AdminDashboard.compareIncentive all).filter _).length_eq
    have heq := hsub2.eq_of_length hlen.symm
    rw [heq]
    exact (List.take_sublist 3 _).filter _
  · haveI : IsTotal (String × AdminDashboard.UserStat)
        (fun a b => (AdminDashboard.arrayIndex a.1).getD 0 ≤
          (AdminDashboard.arrayIndex b.1).getD 0) := ⟨fun a b => le_total _ _⟩
    haveI : IsTrans (String × AdminDashboard.UserStat)
        (fun a b => (AdminDashboard.arrayIndex a.1).getD 0 ≤
          (AdminDashboard.arrayIndex b.1).getD 0) := ⟨fun a b c hab hbc => le_trans hab hbc⟩
    refine ⟨_, _, rfl, List.perm_insertionSort _ _, ?_, rfl⟩
    exact List.pairwise_map.mpr (List.sorted_insertionSort _ _)

/-- C15, witness: on `rankingDeals` users 1 and 2 both earn 100; user 1 is
listed and user 2, whose deal comes first, is not. -/
theorem topPerformers_tie_order_witness :
    (∀ d ∈ rankingDeals, hasStatus "approved" d = true →
      d.incentive.isNumberOrMissing = true) ∧
    ((AdminDashboard.topPerformers integerToString rankingDeals).filter
        fun e => decide (e.incentive.numberOrZero = 100)).Sublist
      ((AdminDashboard.objectValues (AdminDashboard.userStats integerToString rankingDeals)).filter
        fun e => decide (e.incentive.numberOrZero = 100)) ∧
    (AdminDashboard.userStats integerToString rankingDeals).map Prod.fst =
      ["2", "3", "1", "9", "5"] ∧
    (AdminDashboard.objectValues (AdminDashboard.userStats integerToString rankingDeals)).map
      (fun e => e.name) = [some "Asha", some "Bina", some "Chand", some "Esha", some "Indu"] :=
  ⟨by decide, (topPerformers_tie_order integerToString rankingDeals (by decide)).1 100,
    by decide!, by decide!⟩

/-! ## The search filter -/

theorem includesChars_nil (s : List Char) : includesChars s [] = true := by
  cases s <;> simp [includesChars]

theorem includes_empty (s t : String) (ht : t = "") : includes s t = true := by
  subst ht
  exact includesChars_nil _

/-- C16, counterexample: the deal of 10 March 2026 is found by the term
`2026-03`, a part of its raw date, although the term is in none of its client
name, status, amount and formatted date `10/3/2026`. -/
theorem filteredDeals_matches_raw_date :
    searchDeal ∈ AdminPerformance.filteredDeals toLowerCase integerToString [searchDeal]
      "2026-03" ∧
    AdminPerformance.dateCell enINDateString searchDeal = "10/3/2026" ∧
    AdminPerformance.matchesAsStated toLowerCase integerToString enINDateString searchDeal
      "2026-03" = false := by
  decide!

/-- C16, amended: a deal is in `filteredDeals` iff it is in the deal list and
the lower-cased term is a substring of the lower-cased client name, the
lower-cased status, the stringified amount (as it is), or the lower-cased raw
date text (`date`, else `createdAt`, else `N/A`); the result is a sub-list of
the deals in their order; a term that lower-cases to the empty string returns
every deal; and two terms with the same lower-case form give the same
result. -/
theorem filteredDeals_spec (lowerCase : String → String) (numberToString : ℚ → String)
    (deals : List Deal) (searchTerm : String) :
    (∀ d, d ∈ AdminPerformance.filteredDeals lowerCase numberToString deals searchTerm ↔
      d ∈ deals ∧
        (includes (lowerCase (d.clientName.getD "")) (lowerCase searchTerm) = true ∨
          includes (lowerCase (d.status.getD "")) (lowerCase searchTerm) = true ∨
          includes (AdminPerformance.amountString numberToString d.amount)
            (lowerCase searchTerm) = true ∨
          includes (lowerCase (AdminPerformance.dealDate d)) (lowerCase searchTerm) = true)) ∧
    (AdminPerformance.filteredDeals lowerCase numberToString deals searchTerm).Sublist deals ∧
    (lowerCase searchTerm = "" →
      AdminPerformance.filteredDeals lowerCase numberToString deals searchTerm = deals) ∧
    (∀ other, lowerCase other = lowerCase searchTerm →
      AdminPerformance.filteredDeals lowerCase numberToString deals other =
        AdminPerformance.filteredDeals lowerCase numberToString deals searchTerm) := by
  refine ⟨?_, List.filter_sublist _, ?_, ?_⟩
  · intro d
    unfold AdminPerformance.filteredDeals
    simp only [List.mem_filter, Bool.or_eq_true, or_assoc]
  · intro hempty
    unfold AdminPerformance.filteredDeals
    rw [List.filter_eq_self]
    intro d _
    simp only [includes_empty _ _ hempty, Bool.true_or]
  · intro other hother
    unfold AdminPerformance.filteredDeals
    simp only [hother]

/-! ## Text in numeric fields -/

theorem parseFloatOrZero_zeroUnparsed (v : JsVal) :
    AdminPerformance.parseFloatOrZero v.zeroUnparsed = AdminPerformance.parseFloatOrZero v := by
  cases v with
  | undef => rfl
  | bool b => rfl
  | num q => rfl
  | str t =>
    unfold JsVal.zeroUnparsed
    by_cases ht : parseFloatString t = JsNum.nan
    · simp only [ht, if_true, AdminPerformance.parseFloatOrZero, parseFloat, JsNum.orZero,
        JsNum.truthy]
      simp
    · simp only [ht, if_false]

theorem approved_map_zeroUnparsed (deals : List Deal) :
    AdminPerformance.approved (deals.map Deal.zeroUnparsed) =
      (AdminPerformance.approved deals).map Deal.zeroUnparsed := by
  unfold AdminPerformance.approved
  rw [List.filter_map]
  rfl

theorem bucketSum_map_zeroUnparsed (dateParse : String → Option ℤ) (deals : List Deal)
    (m : String) :
    AdminPerformance.bucketSum dateParse (deals.map Deal.zeroUnparsed) m =
      AdminPerformance.bucketSum dateParse deals m := by
  unfold AdminPerformance.bucketSum
  rw [List.map_map]
  congr 1
  apply List.map_congr_left
  intro d _
  show (if hasStatus "approved" d = true ∧ AdminPerformance.yyyyMM dateParse d = some m then
      AdminPerformance.parseFloatOrZero d.incentive.zeroUnparsed else 0) = _
  rw [parseFloatOrZero_zeroUnparsed]

/-- The performance view reads a string that `parseFloat` rejects as 0: every
metric of `fetchData`, and `totalRevenue`, are the same as with such amounts
and incentives replaced by 0. -/
theorem performance_reads_unparsed_text_as_zero (dateParse : String → Option ℤ) (today : Clock)
    (deals : List Deal) :
    AdminPerformance.data dateParse today (deals.map Deal.zeroUnparsed) =
      AdminPerformance.data dateParse today deals ∧
    AdminPerformance.totalRevenue (deals.map Deal.zeroUnparsed) =
      AdminPerformance.totalRevenue deals := by
  have hrev : AdminPerformance.totalRev (deals.map Deal.zeroUnparsed) =
      AdminPerformance.totalRev deals := by
    unfold AdminPerformance.totalRev
    rw [approved_map_zeroUnparsed, foldl_add_eq_sum, foldl_add_eq_sum, List.map_map]
    congr 2
    apply List.map_congr_left
    intro d _
    exact parseFloatOrZero_zeroUnparsed d.amount
  have hinc : AdminPerformance.totalInc (deals.map Deal.zeroUnparsed) =
      AdminPerformance.totalInc deals := by
    unfold AdminPerformance.totalInc
    rw [approved_map_zeroUnparsed, foldl_add_eq_sum, foldl_add_eq_sum, List.map_map]
    congr 2
    apply List.map_congr_left
    intro d _
    exact parseFloatOrZero_zeroUnparsed d.incentive
  have hlen : (AdminPerformance.approved (deals.map Deal.zeroUnparsed)).length =
      (AdminPerformance.approved deals).length := by
    rw [approved_map_zeroUnparsed, List.length_map]
  have hchart : AdminPerformance.chartData dateParse (AdminPerformance.getLast6MonthsLabels today)
      (deals.map Deal.zeroUnparsed) =
      AdminPerformance.chartData dateParse (AdminPerformance.getLast6MonthsLabels today)
        deals := by
    rw [chartData_eq, chartData_eq]
    apply List.map_congr_left
    intro m _
    rw [bucketSum_map_zeroUnparsed]
  constructor
  · unfold AdminPerformance.data AdminPerformance.avgDeal
    rw [hrev, hinc, hlen, hchart, List.length_map]
  · exact hrev

/-- C17, failing input: for one approved deal whose amount and incentive are
the string `abc`, the dashboard's `totalDisbursed` and the incentive of its top
performer are the string `0abc` and its `avgDealSize` is `NaN`, while with the
fields replaced by 0 they are the number 0; the performance view reads the same
deal as 0. -/
theorem dashboard_concatenates_text :
    AdminDashboard.totalDisbursed integerToString textDeals = Acc.str "0abc" ∧
    AdminDashboard.avgDealSize integerToString textDeals = JsNum.nan ∧
    (AdminDashboard.topPerformers integerToString textDeals).map (fun e => e.incentive) =
      [Acc.str "0abc"] ∧
    AdminDashboard.totalDisbursed integerToString (textDeals.map Deal.zeroUnparsed) =
      Acc.num 0 ∧
    AdminDashboard.avgDealSize integerToString (textDeals.map Deal.zeroUnparsed) =
      JsNum.fin 0 ∧
    AdminPerformance.totalRev textDeals = JsNum.fin 0 ∧
    AdminPerformance.totalInc textDeals = JsNum.fin 0 := by
  decide!

/-! ## The fetch sequence -/

theorem sortedDeals_perm (dateParse : String → Option ℤ) (allDeals : List Deal) :
    (AdminPerformance.sortedDeals dateParse allDeals).Perm allDeals :=
  jsSort_perm _ _

theorem compareDates_pos_false (dateParse : String → Option ℤ) (a b : Deal)
    (ha : (AdminPerformance.effectiveTime dateParse a).isSome = true)
    (hb : (AdminPerformance.effectiveTime dateParse b).isSome = true) :
    (AdminPerformance.compareDates dateParse a b).pos = false ↔
      (AdminPerformance.effectiveTime dateParse a).getD 0 ≥
        (AdminPerformance.effectiveTime dateParse b).getD 0 := by
  obtain ⟨ta, hta⟩ := Option.isSome_iff_exists.mp ha
  obtain ⟨tb, htb⟩ := Option.isSome_iff_exists.mp hb
  unfold AdminPerformance.compareDates
  rw [hta, htb]
  simp only [JsNum.pos, Option.getD_some, decide_eq_false_iff_not, not_lt, sub_nonpos,
    ge_iff_le]
  exact_mod_cast Iff.rfl

/-- C18, failing input: with a date that does not parse between them, the deal
of January 2026 stays in front of the deal of February 2026: the stored list is
the fetched list, and it is not in non-increasing order of date. -/
theorem sortedDeals_misordered :
    AdminPerformance.sortedDeals AdminPerformance.isoDateParse misdatedDeals = misdatedDeals ∧
    ¬ (AdminPerformance.sortedDeals AdminPerformance.isoDateParse misdatedDeals).Pairwise
      (fun a b => AdminPerformance.datesNonIncreasing AdminPerformance.isoDateParse a b = true)
    := by
  decide!

/-- The order of `sortedDeals` when the effective date of every fetched deal is
valid (the date string, else the creation time, parses, or both are missing
and the epoch stands in): a permutation of the fetched list in which the
effective date of a deal is never before that of a later one. -/
theorem sortedDeals_ordered (dateParse : String → Option ℤ) (allDeals : List Deal)
    (h : ∀ d ∈ allDeals, (AdminPerformance.effectiveTime dateParse d).isSome = true) :
    (AdminPerformance.sortedDeals dateParse allDeals).Perm allDeals ∧
    (AdminPerformance.sortedDeals dateParse allDeals).Pairwise
      (fun a b => AdminPerformance.datesNonIncreasing dateParse a b = true) ∧
    ((AdminPerformance.sortedDeals dateParse allDeals).map
      fun d => (AdminPerformance.effectiveTime dateParse d).getD 0).Sorted (· ≥ ·) := by
  have hmap := List.map_insertionSort
    (r := fun a b => (AdminPerformance.compareDates dateParse a b).pos = false)
    (s := fun (x y : ℤ) => x ≥ y)
    (fun d : Deal => (AdminPerformance.effectiveTime dateParse d).getD 0) allDeals
    (fun a ha b hb => compareDates_pos_false dateParse a b (h a ha) (h b hb))
  have hsorted := List.sorted_insertionSort (fun (x y : ℤ) => x ≥ y)
    (allDeals.map fun d => (AdminPerformance.effectiveTime dateParse d).getD 0)
  rw [← hmap] at hsorted
  refine ⟨sortedDeals_perm dateParse allDeals, ?_, hsorted⟩
  have hp := List.pairwise_map.mp hsorted
  refine hp.imp_of_mem ?_
  intro a b ha hb hab
  have ha2 := h a ((sortedDeals_perm dateParse allDeals).mem_iff.mp ha)
  have hb2 := h b ((sortedDeals_perm dateParse allDeals).mem_iff.mp hb)
  obtain ⟨ta, hta⟩ := Option.isSome_iff_exists.mp ha2
  obtain ⟨tb, htb⟩ := Option.isSome_iff_exists.mp hb2
  unfold AdminPerformance.datesNonIncreasing
  rw [hta, htb] at hab ⊢
  simpa using hab

/-- The order of `sortedDeals` on `wellDatedDeals`, whose dates are valid or
missing: March, February, January, then the deal without date. -/
theorem sortedDeals_wellDated :
    (∀ d ∈ wellDatedDeals,
      (AdminPerformance.effectiveTime AdminPerformance.isoDateParse d).isSome = true) ∧
    (AdminPerformance.sortedDeals AdminPerformance.isoDateParse wellDatedDeals).map
        (fun d => d.clientName) = [some "March", some "February", some "January", some "None"] ∧
    (AdminPerformance.sortedDeals AdminPerformance.isoDateParse wellDatedDeals).Pairwise
      (fun a b => AdminPerformance.datesNonIncreasing AdminPerformance.isoDateParse a b = true) :=
  ⟨by decide!, by decide!,
    (sortedDeals_ordered AdminPerformance.isoDateParse wellDatedDeals (by decide!)).2.1⟩

/-- C19: when the request for the deals of the user fails and the request for
all deals succeeds, `allDeals` is the sub-list of the unscoped collection of
the deals with `d.user?.id == userId` or `d.userId == userId`, and the stored
deal list is a permutation of it: a deal is stored iff it is in the collection
and one of the two ids loosely equals `userId`. -/
theorem fallback_keeps_matching_deals (dateParse : String → Option ℤ) (today : Clock)
    (userId : String) (user : Reply AdminPerformance.Profile) (unscoped : Option (List Deal))
    (s : AdminPerformance.ViewState) :
    AdminPerformance.allDeals userId
        { user := user, scopedDeals := Reply.failed, unscopedDeals := Reply.ok unscoped } =
      some ((unscoped.getD []).filter (AdminPerformance.matchesUser userId)) ∧
    ((unscoped.getD []).filter (AdminPerformance.matchesUser userId)).Sublist
      (unscoped.getD []) ∧
    (AdminPerformance.fetchData dateParse today userId
        { user := user, scopedDeals := Reply.failed, unscopedDeals := Reply.ok unscoped }
        s).deals.Perm ((unscoped.getD []).filter (AdminPerformance.matchesUser userId)) ∧
    (∀ d, d ∈ (AdminPerformance.fetchData dateParse today userId
        { user := user, scopedDeals := Reply.failed, unscopedDeals := Reply.ok unscoped }
        s).deals ↔
      d ∈ unscoped.getD [] ∧
        (looseEqString ((d.user.map fun u => u.id).getD JsVal.undef) userId = true ∨
          looseEqString d.userId userId = true)) := by
  have hall : AdminPerformance.allDeals userId
      { user := user, scopedDeals := Reply.failed, unscopedDeals := Reply.ok unscoped } =
      some ((unscoped.getD []).filter (AdminPerformance.matchesUser userId)) := rfl
  have hdeals : (AdminPerformance.fetchData dateParse today userId
      { user := user, scopedDeals := Reply.failed, unscopedDeals := Reply.ok unscoped }
      s).deals = AdminPerformance.sortedDeals dateParse
        ((unscoped.getD []).filter (AdminPerformance.matchesUser userId)) := rfl
  refine ⟨hall, List.filter_sublist _, ?_, ?_⟩
  · rw [hdeals]
    exact sortedDeals_perm _ _
  · intro d
    rw [hdeals, (sortedDeals_perm _ _).mem_iff, List.mem_filter]
    unfold AdminPerformance.matchesUser
    rw [Bool.or_eq_true]

/-- C20, counterexample: when the profile request fails, the stored profile has
the name `Sales Executive` and the email `N/A`, which is not the empty
string. -/
theorem placeholder_email_is_not_empty :
    (AdminPerformance.fetchData AdminPerformance.isoDateParse november2026 "7"
        { user := Reply.failed, scopedDeals := Reply.ok (some datedDeals),
          unscopedDeals := Reply.failed } {}).userProfile =
      some { name := some "Sales Executive", email := some "N/A" } ∧
    ((AdminPerformance.fetchData AdminPerformance.isoDateParse november2026 "7"
        { user := Reply.failed, scopedDeals := Reply.ok (some datedDeals),
          unscopedDeals := Reply.failed } {}).userProfile.bind fun p => p.email) ≠ some "" := by
  decide!

/-- C20, amended: when the profile request fails, `userProfile` is the
placeholder with the name `Sales Executive` and the email `N/A`, and the rest
of the fetch sequence runs as it does when the profile request succeeds: the
deal list, the metrics and the loading flag are the same. -/
theorem profile_failure_uses_placeholder (dateParse : String → Option ℤ) (today : Clock)
    (userId : String) (dealsOfUser everyDeal : Reply (List Deal))
    (profile : Option AdminPerformance.Profile) (s : AdminPerformance.ViewState) :
    (AdminPerformance.fetchData dateParse today userId
        { user := Reply.failed, scopedDeals := dealsOfUser, unscopedDeals := everyDeal }
        s).userProfile = some { name := some "Sales Executive", email := some "N/A" } ∧
    (AdminPerformance.fetchData dateParse today userId
        { user := Reply.failed, scopedDeals := dealsOfUser, unscopedDeals := everyDeal } s).deals =
      (AdminPerformance.fetchData dateParse today userId
        { user := Reply.ok profile, scopedDeals := dealsOfUser, unscopedDeals := everyDeal }
        s).deals ∧
    (AdminPerformance.fetchData dateParse today userId
        { user := Reply.failed, scopedDeals := dealsOfUser, unscopedDeals := everyDeal } s).data =
      (AdminPerformance.fetchData dateParse today userId
        { user := Reply.ok profile, scopedDeals := dealsOfUser, unscopedDeals := everyDeal }
        s).data ∧
    (AdminPerformance.fetchData dateParse today userId
        { user := Reply.failed, scopedDeals := dealsOfUser, unscopedDeals := everyDeal }
        s).loading = false := by
  refine ⟨?_, ?_, ?_, ?_⟩ <;>
    (unfold AdminPerformance.fetchData AdminPerformance.allDeals
     cases dealsOfUser <;> cases everyDeal <;> rfl)

/-! ## Zero state and scenarios -/

theorem bucketSum_nil (dateParse : String → Option ℤ) (m : String) :
    AdminPerformance.bucketSum dateParse [] m = 0 := rfl

theorem metrics_nil (numberToString : ℚ → String) (dateParse : String → Option ℤ) (now : ℤ) :
    (AdminDashboard.metrics numberToString dateParse now []).totalDeals = 0 ∧
    (AdminDashboard.metrics numberToString dateParse now []).pendingDeals = [] ∧
    (AdminDashboard.metrics numberToString dateParse now []).inProgressDeals = [] ∧
    (AdminDashboard.metrics numberToString dateParse now []).approvedDeals = [] ∧
    (AdminDashboard.metrics numberToString dateParse now []).rejectedDeals = [] ∧
    (AdminDashboard.metrics numberToString dateParse now []).totalDisbursed = Acc.num 0 ∧
    (AdminDashboard.metrics numberToString dateParse now []).activeUsers = 0 ∧
    (AdminDashboard.metrics numberToString dateParse now []).highValueDeals = [] ∧
    (AdminDashboard.metrics numberToString dateParse now []).unprocessedPayouts = 0 ∧
    (AdminDashboard.metrics numberToString dateParse now []).statusData = [] ∧
    (AdminDashboard.metrics numberToString dateParse now []).topPerformers = [] ∧
    (AdminDashboard.metrics numberToString dateParse now []).oldPendingDeals = [] ∧
    (AdminDashboard.metrics numberToString dateParse now []).approvalRate = JsVal.num 0 ∧
    (AdminDashboard.metrics numberToString dateParse now []).avgDealSize = JsNum.fin 0 :=
  ⟨rfl, rfl, rfl, rfl, rfl, rfl, rfl, rfl, rfl, rfl, rfl, rfl, rfl, rfl⟩

/-- C21: when both deal requests of AdminPerformance fail after mount, the
state has `loading` false and an empty deal list, the rendered metrics
`totalDeals`, `approvedDeals`, `approvalRate`, `totalIncentiveEarned` and
`averageDealValue` are 0, the trend is empty, the tier is Silver and
`filteredDeals` is empty for every search term, whatever the profile request
replied; when the deals request of AdminDashboard fails, the state has
`loading` false and an empty deal list, the render does not throw, and every
count of the deal list is 0, `approvalRate` and `avgDealSize` are 0 and
`topPerformers` is empty. -/
theorem failed_deal_requests_render_zero_state (dateParse : String → Option ℤ) (today : Clock)
    (userId : String) (user : Reply AdminPerformance.Profile) (lowerCase : String → String)
    (numberToString : ℚ → String) (searchTerm : String) (now : ℤ) :
    ((AdminPerformance.fetchData dateParse today userId (AdminPerformance.dealRequestsFail user)
        AdminPerformance.initialState).loading = false ∧
      (AdminPerformance.fetchData dateParse today userId (AdminPerformance.dealRequestsFail user)
        AdminPerformance.initialState).deals = [] ∧
      (AdminPerformance.derived (AdminPerformance.fetchData dateParse today userId
        (AdminPerformance.dealRequestsFail user) AdminPerformance.initialState).data).totalDeals
          = 0 ∧
      (AdminPerformance.derived (AdminPerformance.fetchData dateParse today userId
        (AdminPerformance.dealRequestsFail user) AdminPerformance.initialState).data).approvedDeals
          = 0 ∧
      (AdminPerformance.derived (AdminPerformance.fetchData dateParse today userId
        (AdminPerformance.dealRequestsFail user) AdminPerformance.initialState).data).approvalRate
          = 0 ∧
      (AdminPerformance.derived (AdminPerformance.fetchData dateParse today userId
        (AdminPerformance.dealRequestsFail user)
        AdminPerformance.initialState).data).totalIncentiveEarned = JsNum.fin 0 ∧
      (AdminPerformance.derived (AdminPerformance.fetchData dateParse today userId
        (AdminPerformance.dealRequestsFail user)
        AdminPerformance.initialState).data).averageDealValue = JsNum.fin 0 ∧
      (AdminPerformance.derived (AdminPerformance.fetchData dateParse today userId
        (AdminPerformance.dealRequestsFail user) AdminPerformance.initialState).data).monthlyTrend
          = [] ∧
      (AdminPerformance.tier (AdminPerformance.fetchData dateParse today userId
        (AdminPerformance.dealRequestsFail user) AdminPerformance.initialState).deals).name
          = "Silver" ∧
      AdminPerformance.filteredDeals lowerCase numberToString
        (AdminPerformance.fetchData dateParse today userId (AdminPerformance.dealRequestsFail user)
          AdminPerformance.initialState).deals searchTerm = []) ∧
    ((AdminDashboard.fetchData Reply.failed AdminDashboard.initialState).loading = false ∧
      (AdminDashboard.fetchData Reply.failed AdminDashboard.initialState).deals = some [] ∧
      (AdminDashboard.render numberToString dateParse now
          (AdminDashboard.fetchData Reply.failed AdminDashboard.initialState)).isSome = true ∧
      ∀ m, AdminDashboard.render numberToString dateParse now
          (AdminDashboard.fetchData Reply.failed AdminDashboard.initialState) =
            some (AdminDashboard.Screen.dashboard m) →
        m.totalDeals = 0 ∧ m.pendingDeals = [] ∧ m.inProgressDeals = [] ∧
        m.approvedDeals = [] ∧ m.rejectedDeals = [] ∧ m.totalDisbursed = Acc.num 0 ∧
        m.activeUsers = 0 ∧ m.highValueDeals = [] ∧ m.unprocessedPayouts = 0 ∧
        m.statusData = [] ∧ m.topPerformers = [] ∧ m.oldPendingDeals = [] ∧
        m.approvalRate = JsVal.num 0 ∧ m.avgDealSize = JsNum.fin 0) := by
  refine ⟨⟨rfl, rfl, rfl, rfl, rfl, rfl, rfl, rfl, ?_, rfl⟩, rfl, rfl, rfl, ?_⟩
  · show (AdminPerformance.getTier (JsNum.fin 0)).name = "Silver"
    rw [getTier_name_fin]
    norm_num
  · intro m hm
    have h : AdminDashboard.metrics numberToString dateParse now [] = m := by
      have h2 : some (AdminDashboard.Screen.dashboard
          (AdminDashboard.metrics numberToString dateParse now [])) =
          some (AdminDashboard.Screen.dashboard m) := hm
      injection h2 with h3
      injection h3
    rw [← h]
    exact metrics_nil numberToString dateParse now

/-- A failed fetch sequence of AdminPerformance keeps the metrics and the deal
list the state held before it. -/
theorem fetchData_failure_keeps_state (dateParse : String → Option ℤ) (today : Clock)
    (userId : String) (user : Reply AdminPerformance.Profile) (s : AdminPerformance.ViewState) :
    (AdminPerformance.fetchData dateParse today userId (AdminPerformance.dealRequestsFail user)
        s).deals = s.deals ∧
    (AdminPerformance.fetchData dateParse today userId (AdminPerformance.dealRequestsFail user)
        s).data = s.data :=
  ⟨rfl, rfl⟩

/-- C22: for the empty collection, fetched with success, AdminDashboard renders
with its four status lists empty, `approvalRate` 0, `avgDealSize` 0 and
`topPerformers` empty; AdminPerformance stores an empty deal list and metrics
with `totalDeals`, `approvedDeals`, `approvalRate`, `totalIncentiveEarned` and
`averageDealValue` 0 and a `monthlyTrend` of six entries, one per label, each
with `incentiveSum` 0. -/
theorem empty_collection_metrics (dateParse : String → Option ℤ) (today : Clock)
    (userId : String) (user : Reply AdminPerformance.Profile) (numberToString : ℚ → String)
    (now : ℤ) :
    (AdminDashboard.render numberToString dateParse now
        (AdminDashboard.fetchData (Reply.ok (some [])) AdminDashboard.initialState) =
      some (AdminDashboard.Screen.dashboard
        (AdminDashboard.metrics numberToString dateParse now [])) ∧
      (AdminDashboard.metrics numberToString dateParse now []).totalDeals = 0 ∧
      (AdminDashboard.metrics numberToString dateParse now []).pendingDeals.length = 0 ∧
      (AdminDashboard.metrics numberToString dateParse now []).inProgressDeals.length = 0 ∧
      (AdminDashboard.metrics numberToString dateParse now []).approvedDeals.length = 0 ∧
      (AdminDashboard.metrics numberToString dateParse now []).rejectedDeals.length = 0 ∧
      (AdminDashboard.metrics numberToString dateParse now []).approvalRate = JsVal.num 0 ∧
      (AdminDashboard.metrics numberToString dateParse now []).avgDealSize = JsNum.fin 0 ∧
      (AdminDashboard.metrics numberToString dateParse now []).topPerformers = []) ∧
    ((AdminPerformance.fetchData dateParse today userId (AdminPerformance.dealsArrive user [])
        AdminPerformance.initialState).deals = [] ∧
      (AdminPerformance.fetchData dateParse today userId (AdminPerformance.dealsArrive user [])
        AdminPerformance.initialState).loading = false ∧
      (AdminPerformance.derived (AdminPerformance.fetchData dateParse today userId
        (AdminPerformance.dealsArrive user []) AdminPerformance.initialState).data).totalDeals
          = 0 ∧
      (AdminPerformance.derived (AdminPerformance.fetchData dateParse today userId
        (AdminPerformance.dealsArrive user []) AdminPerformance.initialState).data).approvedDeals
          = 0 ∧
      (AdminPerformance.derived (AdminPerformance.fetchData dateParse today userId
        (AdminPerformance.dealsArrive user []) AdminPerformance.initialState).data).approvalRate
          = 0 ∧
      (AdminPerformance.derived (AdminPerformance.fetchData dateParse today userId
        (AdminPerformance.dealsArrive user [])
        AdminPerformance.initialState).data).totalIncentiveEarned = JsNum.fin 0 ∧
      (AdminPerformance.derived (AdminPerformance.fetchData dateParse today userId
        (AdminPerformance.dealsArrive user [])
        AdminPerformance.initialState).data).averageDealValue = JsNum.fin 0 ∧
      (AdminPerformance.derived (AdminPerformance.fetchData dateParse today userId
        (AdminPerformance.dealsArrive user []) AdminPerformance.initialState).data).monthlyTrend
          = (AdminPerformance.getLast6MonthsLabels today).map (fun m =>
              { month := m, incentiveSum := some (JsNum.fin 0) }) ∧
      (AdminPerformance.derived (AdminPerformance.fetchData dateParse today userId
        (AdminPerformance.dealsArrive user [])
        AdminPerformance.initialState).data).monthlyTrend.length = 6) := by
  have htrend : (AdminPerformance.derived (AdminPerformance.fetchData dateParse today userId
      (AdminPerformance.dealsArrive user []) AdminPerformance.initialState).data).monthlyTrend
        = (AdminPerformance.getLast6MonthsLabels today).map (fun m =>
            { month := m, incentiveSum := some (JsNum.fin 0) }) := by
    show AdminPerformance.chartData dateParse (AdminPerformance.getLast6MonthsLabels today) [] = _
    rw [chartData_eq]
    rfl
  refine ⟨⟨rfl, rfl, rfl, rfl, rfl, rfl, rfl, rfl, rfl⟩, rfl, rfl, rfl, rfl, ?_, rfl, rfl, htrend,
    ?_⟩
  · show (AdminPerformance.data dateParse today (AdminPerformance.sortedDeals dateParse
      [])).approvalRate = 0
    simp [AdminPerformance.data, AdminPerformance.sortedDeals, jsSort]
  · rw [htrend]
    simp [AdminPerformance.getLast6MonthsLabels]

/-- C23: for the two-deal scenario AdminDashboard computes the approval rate
`50.0`, the total disbursed 10000 and one rejected deal, and AdminPerformance
stores the approval rate 50, the total incentive 10000, two deals of which one
is approved, and charts one rejected deal. -/
theorem scenario_two_deals (numberToString : ℚ → String) :
    AdminDashboard.approvalRate scenarioDeals = JsVal.str "50.0" ∧
    AdminDashboard.totalDisbursed numberToString scenarioDeals = Acc.num 10000 ∧
    (AdminDashboard.rejectedDeals scenarioDeals).length = 1 ∧
    (AdminPerformance.data AdminPerformance.isoDateParse november2026
      (AdminPerformance.sortedDeals AdminPerformance.isoDateParse scenarioDeals)).approvalRate
        = 50 ∧
    (AdminPerformance.data AdminPerformance.isoDateParse november2026
      (AdminPerformance.sortedDeals AdminPerformance.isoDateParse
        scenarioDeals)).totalIncentiveEarned = JsNum.fin 10000 ∧
    (AdminPerformance.data AdminPerformance.isoDateParse november2026
      (AdminPerformance.sortedDeals AdminPerformance.isoDateParse scenarioDeals)).totalDeals
        = 2 ∧
    AdminPerformance.doughnutData
      (AdminPerformance.data AdminPerformance.isoDateParse november2026
        (AdminPerformance.sortedDeals AdminPerformance.isoDateParse scenarioDeals))
      (AdminPerformance.sortedDeals AdminPerformance.isoDateParse scenarioDeals) = [1, 0, 1] := by
  refine ⟨by decide!, ?_, by decide!, by decide!, by decide!, by decide!, by decide!⟩
  have h : AdminDashboard.approvedDeals scenarioDeals = scenarioDeals.take 1 := by decide!
  unfold AdminDashboard.totalDisbursed
  rw [h]
  simp [scenarioDeals, Acc.plusOrZero, JsVal.orZero, JsVal.truthy, Acc.plusNum]

/-! ## Aggregates depend on the approved deals only -/

theorem sum_map_of_perm_withoutStatus (f : Deal → JsNum) (hf : ∀ d, f d.withoutStatus = f d)
    (a b : List Deal) (h : (a.map Deal.withoutStatus).Perm (b.map Deal.withoutStatus)) :
    (a.map f).sum = (b.map f).sum := by
  have key : ∀ l : List Deal, l.map f = (l.map Deal.withoutStatus).map f := by
    intro l
    rw [List.map_map]
    apply List.map_congr_left
    intro d _
    exact (hf d).symm
  rw [key a, key b]
  exact (h.map f).sum_eq

theorem bucketSum_eq_approved_sum (dateParse : String → Option ℤ) (deals : List Deal)
    (m : String) :
    AdminPerformance.bucketSum dateParse deals m =
      ((AdminPerformance.approved deals).map fun d =>
        if AdminPerformance.yyyyMM dateParse d = some m then
          AdminPerformance.parseFloatOrZero d.incentive
        else 0).sum := by
  unfold AdminPerformance.bucketSum AdminPerformance.approved
  rw [sum_map_filter]
  congr 1
  apply List.map_congr_left
  intro d _
  by_cases h1 : hasStatus "approved" d = true <;>
    by_cases h2 : AdminPerformance.yyyyMM dateParse d = some m <;> simp [h1, h2]

theorem monetaryAggregates_congr (dateParse : String → Option ℤ) (today : Clock)
    (a b : List Deal)
    (h : ((AdminPerformance.approved a).map Deal.withoutStatus).Perm
      ((AdminPerformance.approved b).map Deal.withoutStatus)) :
    AdminPerformance.monetaryAggregates dateParse today a =
      AdminPerformance.monetaryAggregates dateParse today b := by
  have hrev : AdminPerformance.totalRev a = AdminPerformance.totalRev b := by
    unfold AdminPerformance.totalRev
    rw [foldl_add_eq_sum, foldl_add_eq_sum]
    congr 1
    exact sum_map_of_perm_withoutStatus (fun d => AdminPerformance.parseFloatOrZero d.amount)
      (fun _ => rfl) _ _ h
  have hinc : AdminPerformance.totalInc a = AdminPerformance.totalInc b := by
    unfold AdminPerformance.totalInc
    rw [foldl_add_eq_sum, foldl_add_eq_sum]
    congr 1
    exact sum_map_of_perm_withoutStatus (fun d => AdminPerformance.parseFloatOrZero d.incentive)
      (fun _ => rfl) _ _ h
  have hlen : (AdminPerformance.approved a).length = (AdminPerformance.approved b).length := by
    have := h.length_eq
    simpa using this
  have hchart : AdminPerformance.chartData dateParse (AdminPerformance.getLast6MonthsLabels today)
      a = AdminPerformance.chartData dateParse (AdminPerformance.getLast6MonthsLabels today) b := by
    rw [chartData_eq, chartData_eq]
    apply List.map_congr_left
    intro m _
    rw [bucketSum_eq_approved_sum, bucketSum_eq_approved_sum]
    congr 2
    exact sum_map_of_perm_withoutStatus
      (fun d => if AdminPerformance.yyyyMM dateParse d = some m then
          AdminPerformance.parseFloatOrZero d.incentive
        else 0)
      (fun _ => rfl) _ _ h
  have hrevenue : AdminPerformance.totalRevenue a = AdminPerformance.totalRevenue b := hrev
  unfold AdminPerformance.monetaryAggregates AdminPerformance.tier AdminPerformance.data
    AdminPerformance.avgDeal
  simp only [hrev, hinc, hlen, hchart, hrevenue]

theorem approved_sortedDeals_perm (dateParse : String → Option ℤ) (l : List Deal) :
    ((AdminPerformance.approved (AdminPerformance.sortedDeals dateParse l)).map
      Deal.withoutStatus).Perm ((AdminPerformance.approved l).map Deal.withoutStatus) :=
  ((sortedDeals_perm dateParse l).filter _).map _

/-- C24: a deal whose status does not lower-case to `approved`, added to or
removed from the deal list at any place, changes none of the monetary
aggregates of AdminPerformance (total revenue, `totalIncentiveEarned`,
`averageDealValue`, every entry of `monthlyTrend`, the tier), whether the list
is the stored one or the fetched one that the view sorts first; and giving the
status of a deal another spelling with the same lower-case form changes none of
them either. -/
theorem monetary_aggregates_frame (dateParse : String → Option ℤ) (today : Clock)
    (xs ys : List Deal) (d : Deal) :
    (hasStatus "approved" d = false →
      AdminPerformance.monetaryAggregates dateParse today (xs ++ d :: ys) =
        AdminPerformance.monetaryAggregates dateParse today (xs ++ ys) ∧
      AdminPerformance.monetaryAggregates dateParse today
          (AdminPerformance.sortedDeals dateParse (xs ++ d :: ys)) =
        AdminPerformance.monetaryAggregates dateParse today
          (AdminPerformance.sortedDeals dateParse (xs ++ ys))) ∧
    (∀ spelling : String, toLowerCase spelling = statusLower d →
      AdminPerformance.monetaryAggregates dateParse today
          (xs ++ { d with status := some spelling } :: ys) =
        AdminPerformance.monetaryAggregates dateParse today (xs ++ d :: ys) ∧
      AdminPerformance.monetaryAggregates dateParse today
          (AdminPerformance.sortedDeals dateParse
            (xs ++ { d with status := some spelling } :: ys)) =
        AdminPerformance.monetaryAggregates dateParse today
          (AdminPerformance.sortedDeals dateParse (xs ++ d :: ys))) := by
  constructor
  · intro hd
    have happ : AdminPerformance.approved (xs ++ d :: ys) = AdminPerformance.approved (xs ++ ys) := by
      unfold AdminPerformance.approved
      simp [List.filter_append, List.filter_cons, hd]
    constructor
    · apply monetaryAggregates_congr
      rw [happ]
    · apply monetaryAggregates_congr
      refine (approved_sortedDeals_perm dateParse _).trans ?_
      rw [happ]
      exact (approved_sortedDeals_perm dateParse _).symm
  · intro spelling hs
    have hst : hasStatus "approved" { d with status := some spelling } = hasStatus "approved" d := by
      unfold hasStatus
      have : statusLower { d with status := some spelling } = statusLower d := hs
      rw [this]
    have happ : (AdminPerformance.approved (xs ++ { d with status := some spelling } :: ys)).map
        Deal.withoutStatus =
        (AdminPerformance.approved (xs ++ d :: ys)).map Deal.withoutStatus := by
      unfold AdminPerformance.approved
      simp only [List.filter_append, List.filter_cons, hst]
      by_cases hd : hasStatus "approved" d = true
      · simp [hd, Deal.withoutStatus]
      · simp [hd]
    constructor
    · apply monetaryAggregates_congr
      rw [happ]
    · apply monetaryAggregates_congr
      refine (approved_sortedDeals_perm dateParse _).trans ?_
      rw [happ]
      exact (approved_sortedDeals_perm dateParse _).symm

/-! ## The module api.js -/

/-- C25: `API_URL` is the value of `VITE_API_URL` when it is set and not empty,
and `http://localhost:8080` when it is not set or empty; `api` and `authApi`
are both created with `baseURL` equal to `API_URL`. -/
theorem API_URL_from_environment (env : Option String) :
    (∀ url : String, env = some url → url ≠ "" → Api.API_URL env = url) ∧
    (env = none ∨ env = some "" → Api.API_URL env = "http://localhost:8080") ∧
    (Api.api env).baseURL = Api.API_URL env ∧
    (Api.authApi env).baseURL = Api.API_URL env := by
  refine ⟨?_, ?_, rfl, rfl⟩
  · intro url henv hurl
    subst henv
    simp [Api.API_URL, hurl]
  · intro h
    rcases h with h | h <;> subst h <;> rfl

open Api in
theorem getHeader_setHeader (h : Headers) (k k2 : String) (v : Json) :
    getHeader (setHeader h k v) k2 = if k = k2 then some v else getHeader h k2 := by
  induction h with
  | nil => simp [setHeader, getHeader]
  | cons p rest ih =>
    by_cases hp : p.1 = k
    · by_cases hk : k = k2
      · simp [setHeader, getHeader, hp, hk]
      · have hp2 : ¬ p.1 = k2 := by rw [hp]; exact hk
        simp [setHeader, getHeader, hp, hk, hp2]
    · by_cases hp2 : p.1 = k2
      · have hk : ¬ k = k2 := by rw [← hp2]; exact fun h => hp h.symm
        simp only [setHeader, if_neg hp, getHeader, if_pos hp2, if_neg hk]
      · simp only [setHeader, if_neg hp, getHeader, if_neg hp2, ih]

open Api in
theorem getHeader_setIfTruthy (h : Headers) (k k2 : String) (v : Option Json) (w : Json → Json) :
    getHeader (setIfTruthy h k v w) k2 =
      if k2 = k ∧ Json.truthy v = true then v.map w else getHeader h k2 := by
  cases v with
  | none => simp [setIfTruthy, Json.truthy]
  | some x =>
    unfold setIfTruthy
    by_cases ht : Json.truthy (some x) = true
    · simp only [ht, if_true, getHeader_setHeader, and_true, Option.map_some']
      by_cases hk : k = k2
      · rw [if_pos hk, if_pos hk.symm]
      · rw [if_neg hk, if_neg (fun h => hk h.symm)]
    · simp only [ht, if_false, and_false]
      simp

/-- C26: when the stored `auth` text parses, the interceptor returns the config
with the same url, method, base URL, params and data, and the header read
under any name is: under `X-User-Id` the id of the user if it is truthy, under
`X-User-Role` the role if it is truthy, under `Authorization` the text `Bearer`
followed by a space and the token if the token is truthy, and in every other
case what the config held under that name. -/
theorem requestInterceptor_sets_auth_headers (jsonParse : String → Option Json)
    (numberToString : ℚ → String) (text : String) (auth : Json) (config : Api.RequestConfig)
    (hempty : jsonParse "" = none) (hparse : jsonParse text = some auth) :
    (Api.requestInterceptor jsonParse numberToString (some text) config).url = config.url ∧
    (Api.requestInterceptor jsonParse numberToString (some text) config).method =
      config.method ∧
    (Api.requestInterceptor jsonParse numberToString (some text) config).baseURL =
      config.baseURL ∧
    (Api.requestInterceptor jsonParse numberToString (some text) config).params =
      config.params ∧
    (Api.requestInterceptor jsonParse numberToString (some text) config).data = config.data ∧
    ∀ k : String,
      Api.getHeader (Api.requestInterceptor jsonParse numberToString (some text) config).headers
          k =
        if k = "X-User-Id" ∧
            Json.truthy ((auth.prop "user").bind fun user => user.prop "id") = true then
          (auth.prop "user").bind fun user => user.prop "id"
        else if k = "X-User-Role" ∧ Json.truthy (auth.prop "role") = true then
          auth.prop "role"
        else if k = "Authorization" ∧ Json.truthy (auth.prop "token") = true then
          (auth.prop "token").map fun token =>
            Json.str ("Bearer " ++ Json.toStr numberToString token)
        else Api.getHeader config.headers k := by
  have hne : text ≠ "" := by
    intro h
    rw [h, hempty] at hparse
    exact Option.noConfusion hparse
  have hres : Api.requestInterceptor jsonParse numberToString (some text) config =
      { config with headers := Api.withAuthHeaders numberToString auth config.headers } := by
    unfold Api.requestInterceptor
    simp only [hne, ne_eq, not_false_eq_true, if_true, hparse]
  rw [hres]
  refine ⟨rfl, rfl, rfl, rfl, rfl, ?_⟩
  intro k
  show Api.getHeader (Api.withAuthHeaders numberToString auth config.headers) k = _
  unfold Api.withAuthHeaders
  simp only [getHeader_setIfTruthy]
  have hid : ∀ o : Option Json, Option.map (fun r => r) o = o := fun o => by cases o <;> rfl
  simp only [hid]
  rfl

/-- C26, witness: the config of `GET /deals` after the interceptor has read
`sampleAuthText`. -/
theorem requestInterceptor_sets_auth_headers_witness :
    sampleJsonParse "" = none ∧ sampleJsonParse sampleAuthText = some sampleAuth ∧
    (Api.requestInterceptor sampleJsonParse integerToString (some sampleAuthText)
      sampleConfig).url = sampleConfig.url ∧
    Api.getHeader (Api.requestInterceptor sampleJsonParse integerToString (some sampleAuthText)
      sampleConfig).headers "Authorization" = some (Json.str "Bearer abc") ∧
    Api.getHeader (Api.requestInterceptor sampleJsonParse integerToString (some sampleAuthText)
      sampleConfig).headers "X-User-Role" = some (Json.str "ADMIN") ∧
    Api.getHeader (Api.requestInterceptor sampleJsonParse integerToString (some sampleAuthText)
      sampleConfig).headers "X-User-Id" = some (Json.num 7) ∧
    Api.getHeader (Api.requestInterceptor sampleJsonParse integerToString (some sampleAuthText)
      sampleConfig).headers "Content-Type" = some (Json.str "application/json") ∧
    Api.getHeader (Api.requestInterceptor sampleJsonParse integerToString (some sampleAuthText)
      sampleConfig).headers "requestorId" = none := by
  have h1 : sampleJsonParse "" = none := by
    unfold sampleJsonParse
    rw [if_neg (by decide)]
  have h2 : sampleJsonParse sampleAuthText = some sampleAuth := by
    unfold sampleJsonParse
    rw [if_pos rfl]
  have h := requestInterceptor_sets_auth_headers sampleJsonParse integerToString sampleAuthText
    sampleAuth sampleConfig h1 h2
  refine ⟨h1, h2, h.1, ?_, ?_, ?_, ?_, ?_⟩
  · rw [h.2.2.2.2.2 "Authorization"]
    simp [sampleAuth, Json.prop, Json.truthy, Json.toStr]
  · rw [h.2.2.2.2.2 "X-User-Role"]
    simp [sampleAuth, Json.prop, Json.truthy]
  · rw [h.2.2.2.2.2 "X-User-Id"]
    simp [sampleAuth, Json.prop, Json.truthy]
  · rw [h.2.2.2.2.2 "Content-Type"]
    simp [sampleAuth, Json.prop, Json.truthy, sampleConfig, Api.getHeader]
  · rw [h.2.2.2.2.2 "requestorId"]
    simp [sampleAuth, Json.prop, Json.truthy, sampleConfig, Api.getHeader]

/-- C27: when no `auth` value is stored, or the stored text is not valid JSON,
the interceptor returns the config as it received it: no header is added or
changed. -/
theorem requestInterceptor_without_auth (jsonParse : String → Option Json)
    (numberToString : ℚ → String) (authData : Option String) (config : Api.RequestConfig)
    (h : authData = none ∨ ∃ text : String, authData = some text ∧ jsonParse text = none) :
    Api.requestInterceptor jsonParse numberToString authData config = config := by
  rcases h with h | ⟨text, h, hparse⟩
  · subst h
    rfl
  · subst h
    unfold Api.requestInterceptor
    by_cases hne : text ≠ ""
    · simp only [if_pos hne, hparse]
    · simp only [if_neg hne]

/-- C27, witness: the stored text `not json` leaves the config of `GET /deals`
as it was. -/
theorem requestInterceptor_without_auth_witness :
    sampleJsonParse "not json" = none ∧
    Api.requestInterceptor sampleJsonParse integerToString (some "not json") sampleConfig =
      sampleConfig :=
  ⟨if_neg (by decide),
    requestInterceptor_without_auth sampleJsonParse integerToString (some "not json")
      sampleConfig (Or.inr ⟨"not json", rfl, if_neg (by decide)⟩)⟩

/-! ## Health checks of AdminDashboard -/

/-- C28: `unprocessedPayouts` is the number of deals that are approved and
whose `paid` flag is missing or falsy; it is at most the number of approved
deals; and it does not change when the `paid` flags of the deals that are not
approved are replaced. -/
theorem unprocessedPayouts_spec (deals : List Deal) :
    AdminDashboard.unprocessedPayouts deals =
      (deals.filter fun d => hasStatus "approved" d && !d.paid.truthy).length ∧
    AdminDashboard.unprocessedPayouts deals ≤ (AdminDashboard.approvedDeals deals).length ∧
    ∀ paid : Deal → JsVal,
      AdminDashboard.unprocessedPayouts
          (deals.map fun d =>
            if hasStatus "approved" d = true then d else { d with paid := paid d }) =
        AdminDashboard.unprocessedPayouts deals := by
  have h1 : ∀ l : List Deal, AdminDashboard.unprocessedPayouts l =
      (l.filter fun d => hasStatus "approved" d && !d.paid.truthy).length := by
    intro l
    unfold AdminDashboard.unprocessedPayouts AdminDashboard.approvedDeals
    rw [List.filter_filter]
    congr 2
    funext d
    exact Bool.and_comm _ _
  refine ⟨h1 deals, ?_, ?_⟩
  · unfold AdminDashboard.unprocessedPayouts
    exact List.length_filter_le _ _
  · intro paid
    rw [h1, h1, List.filter_map, List.length_map]
    congr 1
    apply List.filter_congr
    intro d _
    show (hasStatus "approved"
        (if hasStatus "approved" d = true then d else { d with paid := paid d }) &&
      !(if hasStatus "approved" d = true then d else { d with paid := paid d }).paid.truthy) = _
    by_cases hd : hasStatus "approved" d = true
    · rw [if_pos hd]
    · rw [if_neg hd]
      have e : hasStatus "approved" { d with paid := paid d } = hasStatus "approved" d := rfl
      have hd3 : hasStatus "approved" d = false := by simpa using hd
      rw [e, hd3]
      rfl

theorem mem_highValueDeals (deals : List Deal) (d : Deal) :
    d ∈ AdminDashboard.highValueDeals deals ↔
      d ∈ deals ∧ AdminDashboard.amountAbove500000 d.amount = true ∧
        d.status ≠ some "Approved" := by
  unfold AdminDashboard.highValueDeals
  simp [List.mem_filter]

/-- C29, failing input: a deal of 600000 whose status is `approved` in lower
case is in `approvedDeals` and in `highValueDeals` at once; with the status
`Approved` it is in `approvedDeals` only. -/
theorem highValueDeals_keeps_approved :
    AdminDashboard.approvedDeals lowerCaseApprovedDeals = lowerCaseApprovedDeals ∧
    AdminDashboard.highValueDeals lowerCaseApprovedDeals = lowerCaseApprovedDeals ∧
    AdminDashboard.approvedDeals capitalisedApprovedDeals = capitalisedApprovedDeals ∧
    AdminDashboard.highValueDeals capitalisedApprovedDeals = [] := by
  decide!

theorem three_lt_daysDiff (now t : ℤ) :
    3 < AdminDashboard.daysDiff now t ↔ 3 * 86400000 < now - t := by
  unfold AdminDashboard.daysDiff
  rw [lt_div_iff₀ (by norm_num)]
  constructor
  · intro h
    have h2 : ((3 * 86400000 : ℤ) : ℚ) < ((now - t : ℤ) : ℚ) := by
      push_cast
      push_cast at h
      linarith
    exact_mod_cast h2
  · intro h
    have h2 : ((3 * 86400000 : ℤ) : ℚ) < ((now - t : ℤ) : ℚ) := by exact_mod_cast h
    push_cast
    push_cast at h2
    linarith

theorem mem_oldPendingDeals (dateParse : String → Option ℤ) (now : ℤ) (deals : List Deal)
    (d : Deal) :
    d ∈ AdminDashboard.oldPendingDeals dateParse now deals ↔
      d ∈ AdminDashboard.pendingDeals deals ∧
        ∃ t, newDate dateParse (AdminDashboard.dateOrCreatedAt d) = some t ∧
          3 * 86400000 < now - t := by
  unfold AdminDashboard.oldPendingDeals
  rw [List.mem_filter]
  cases h : newDate dateParse (AdminDashboard.dateOrCreatedAt d) with
  | none => simp
  | some t => simp [three_lt_daysDiff]

/-- C30, counterexample: on 6 November 2026 a pending deal without a date whose
`createdAt` is `null` is flagged as old, since `new Date(null)` is the epoch; the
same deal without the `createdAt` field is not flagged. -/
theorem oldPendingDeals_flags_null_createdAt :
    nullCreatedAtDeals.map AdminPerformance.rawDate = [none] ∧
    AdminDashboard.oldPendingDeals AdminPerformance.isoDateParse sixNovember2026
      nullCreatedAtDeals = nullCreatedAtDeals ∧
    AdminDashboard.oldPendingDeals AdminPerformance.isoDateParse sixNovember2026
      undatedPendingDeals = [] := by
  decide!

/-- C30, amended: `oldPendingDeals` is the sub-list of `pendingDeals` of the
deals whose date `new Date(d.date || d.createdAt)` is valid and more than
3 x 86400000 ms before the current instant.  A deal outside `pendingDeals` is
never flagged, nor is a deal whose date is falsy and whose `createdAt` is
absent, nor a deal whose date string does not parse; a deal whose date is falsy
and whose `createdAt` is `null` is dated at the epoch, and a pending one is
flagged as soon as the current instant is more than 3 days after the epoch. -/
theorem oldPendingDeals_spec (dateParse : String → Option ℤ) (now : ℤ) (deals : List Deal) :
    (AdminDashboard.oldPendingDeals dateParse now deals).Sublist
      (AdminDashboard.pendingDeals deals) ∧
    (∀ d, d ∈ AdminDashboard.oldPendingDeals dateParse now deals ↔
      d ∈ AdminDashboard.pendingDeals deals ∧
        ∃ t, newDate dateParse (AdminDashboard.dateOrCreatedAt d) = some t ∧
          3 * 86400000 < now - t) ∧
    (∀ d, d ∉ AdminDashboard.pendingDeals deals →
      d ∉ AdminDashboard.oldPendingDeals dateParse now deals) ∧
    (∀ d, AdminDashboard.dateOrCreatedAt d = DateArg.undefined →
      d ∉ AdminDashboard.oldPendingDeals dateParse now deals) ∧
    (∀ d text, AdminDashboard.dateOrCreatedAt d = DateArg.str text → dateParse text = none →
      d ∉ AdminDashboard.oldPendingDeals dateParse now deals) ∧
    (∀ d, AdminDashboard.dateOrCreatedAt d = DateArg.null →
      (d ∈ AdminDashboard.oldPendingDeals dateParse now deals ↔
        d ∈ AdminDashboard.pendingDeals deals ∧ 3 * 86400000 < now)) ∧
    (∀ d, AdminDashboard.dateOrCreatedAt d = DateArg.undefined ↔
      (d.date = none ∨ d.date = some "") ∧ d.createdAt = none ∧ d.createdAtNull = false) := by
  refine ⟨List.filter_sublist _, mem_oldPendingDeals dateParse now deals, ?_, ?_, ?_, ?_, ?_⟩
  · intro d hd h
    exact hd ((mem_oldPendingDeals dateParse now deals d).mp h).1
  · intro d hd h
    obtain ⟨_, t, ht, _⟩ := (mem_oldPendingDeals dateParse now deals d).mp h
    rw [hd] at ht
    exact Option.noConfusion ht
  · intro d text hd hparse h
    obtain ⟨_, t, ht, _⟩ := (mem_oldPendingDeals dateParse now deals d).mp h
    rw [hd] at ht
    simp only [newDate, hparse] at ht
    exact Option.noConfusion ht
  · intro d hd
    rw [mem_oldPendingDeals, hd]
    simp [newDate]
  · intro d
    unfold AdminDashboard.dateOrCreatedAt AdminDashboard.createdAtArg
    cases hdate : d.date with
    | none =>
      cases hc : d.createdAt with
      | none => cases hn : d.createdAtNull <;> simp
      | some c => simp
    | some text =>
      by_cases ht : text = ""
      · subst ht
        cases hc : d.createdAt with
        | none => cases hn : d.createdAtNull <;> simp
        | some c => simp
      · simp [ht]

end SER
